import Mathlib

/-
Verification of the scene-editing transaction log of `rusty-editor`
(`src/scene.rs`): the generational pool with reservation tickets, the
reversible command protocol, command groups, staged two-phase commands,
clipboard deep cloning, selection equality, the composite delete builder
and pre-save validation.

The pool, graph and physics primitives live in external crates
(`rg3d::core::pool`, `rg3d::scene::graph`, `crate::physics`) whose sources
are not part of this repository snapshot; they are modelled from the
specification (sections 3 and 6).  Everything else is translated directly
from `src/scene.rs`.  Panics (`unwrap`, `assert_eq!`, stale-handle
indexing, `unreachable!`) are modelled by `Option`: `none` is a
panic-equivalent abort.
-/

set_option maxHeartbeats 1000000

namespace RustyEditor

/-! ### Generational pool with reservation tickets -/

/-- Modelled from the spec: `Handle<T>` is an (index, generation) pair
identifying a slot in a `Pool<T>`; two handles are equal iff index and
generation match. -/
structure PHandle where
  index : Nat
  generation : Nat
deriving DecidableEq, Repr

/-- Modelled from the spec: `Handle::NONE`, the null handle (index 0,
invalid generation 0). -/
def PHandle.NONE : PHandle := ⟨0, 0⟩

/-- Modelled from the spec: `Handle::is_none`. -/
def PHandle.is_none (h : PHandle) : Bool := h = PHandle.NONE

/-- Modelled from the spec: `Handle::is_some`. -/
def PHandle.is_live_handle (h : PHandle) : Bool := ¬ (h = PHandle.NONE)

/-- Modelled from the spec: `Ticket<T>`, a single-use capability
remembering the index of a reserved (emptied) slot. -/
structure PTicket where
  index : Nat
deriving DecidableEq, Repr

/-- One slot of a pool: the current generation plus the payload
(`none` when the slot is vacant or reserved). -/
structure PRecord (T : Type) where
  generation : Nat
  payload : Option T
deriving DecidableEq, Repr

/-- Modelled from the spec: `Pool<T>`, a generational slot arena: a record
vector plus a free-index stack. -/
structure Pool (T : Type) where
  records : List (PRecord T)
  free : List Nat
deriving DecidableEq, Repr

namespace Pool

variable {T : Type}

/-- The empty pool. -/
def empty : Pool T := ⟨[], []⟩

/-- Modelled from the spec: `Pool::spawn` inserts into a free slot
(bumping its generation) or grows the record vector; the returned handle
is unique and live. -/
def spawn (p : Pool T) (v : T) : PHandle × Pool T :=
  match p.free with
  | [] =>
      (⟨p.records.length, 1⟩, ⟨p.records ++ [⟨1, some v⟩], []⟩)
  | i :: rest =>
      let g := ((p.records.getD i ⟨0, none⟩).generation) + 1
      (⟨i, g⟩, ⟨p.records.set i ⟨g, some v⟩, rest⟩)

/-- Modelled from the spec: looking a handle up; a stale handle
(generation mismatch) or vacant slot never resolves to a value. -/
def borrow (p : Pool T) (h : PHandle) : Option T :=
  match p.records[h.index]? with
  | some r => if r.generation = h.generation then r.payload else none
  | none => none

/-- Modelled from the spec: `Pool::take_reserve` removes the value at the
handle and returns a ticket remembering the freed index; fatal (`none`)
on a non-live handle. -/
def take_reserve (p : Pool T) (h : PHandle) : Option (PTicket × T × Pool T) :=
  match p.records[h.index]? with
  | some r =>
      if r.generation = h.generation then
        match r.payload with
        | some v =>
            some (⟨h.index⟩, v, ⟨p.records.set h.index ⟨r.generation, none⟩, p.free⟩)
        | none => none
      else none
  | none => none

/-- Modelled from the spec: `Pool::put_back` reoccupies the reserved index,
producing a handle identical to the one passed into the matching
`take_reserve` (the slot's generation is untouched in between). -/
def put_back (p : Pool T) (t : PTicket) (v : T) : PHandle × Pool T :=
  let g := (p.records.getD t.index ⟨0, none⟩).generation
  (⟨t.index, g⟩, ⟨p.records.set t.index ⟨g, some v⟩, p.free⟩)

/-- Modelled from the spec: `Pool::forget_ticket` permanently releases the
reserved index back to the free stack. -/
def forget_ticket (p : Pool T) (t : PTicket) : Pool T :=
  ⟨p.records, t.index :: p.free⟩

/-- Replace the payload of the slot a live handle points at; fatal
(`none`) on a stale handle.  Models `pool[handle] = value` style
mutation through an index expression. -/
def replace (p : Pool T) (h : PHandle) (v : T) : Option (Pool T) :=
  match p.records[h.index]? with
  | some r =>
      if r.generation = h.generation then
        match r.payload with
        | some _ => some ⟨p.records.set h.index ⟨r.generation, some v⟩, p.free⟩
        | none => none
      else none
  | none => none

/-- Modelled from the spec: `Pool::pair_iter`, the live (handle, value)
pairs in slot order. -/
def pair_iter (p : Pool T) : List (PHandle × T) :=
  (List.range p.records.length).filterMap fun i =>
    match p.records[i]? with
    | some r =>
        match r.payload with
        | some v => some (⟨i, r.generation⟩, v)
        | none => none
    | none => none

/-- Modelled from the spec: `Pool::try_borrow_mut` style checked lookup. -/
def try_borrow (p : Pool T) (h : PHandle) : Option T := p.borrow h

/-- Well-formedness of a pool: free indices are in range, pairwise
distinct, and point at vacant slots. -/
structure WF (p : Pool T) : Prop where
  free_lt : ∀ i ∈ p.free, i < p.records.length
  free_nodup : p.free.Nodup
  free_vacant : ∀ i ∈ p.free, ∀ r, p.records[i]? = some r → r.payload = none

end Pool

/-! ### Basic value types

Positions and rotations are `f32` vectors in the source; no claim performs
floating-point arithmetic on them (they are only stored, swapped and
compared), so they are modelled by integer triples. -/

structure Vector3 where
  x : Int
  y : Int
  z : Int
deriving DecidableEq, Repr

/-! ### Association lists

`HashMap` values of the source (`old_new_mapping`, `DeepCloneResult::binder`,
the physics binder's forward map) are modelled as association lists with
replace-or-append insertion. -/

/-- Lookup in an association list, first match wins. -/
def assocGet (m : List (PHandle × PHandle)) (k : PHandle) : Option PHandle :=
  (m.find? (fun pr => pr.1 == k)).map Prod.snd

/-- `HashMap::insert`: replace the value of an existing key, otherwise
append the binding. -/
def assocInsert (m : List (PHandle × PHandle)) (k v : PHandle) : List (PHandle × PHandle) :=
  if (m.find? (fun pr => pr.1 == k)).isSome then
    m.map (fun pr => if pr.1 == k then (k, v) else pr)
  else
    m ++ [(k, v)]

/-! ### Scene graph

Modelled from the spec (section 6): nodes live in a generational pool and
carry parent/child links as handles; `add_node` spawns and links to the
root; `take_reserve` isolates a node and reserves its slot; `put_back`
restores it and re-links it to the root. -/

/-- A scene node: the fields the verified commands touch (name, hierarchy
links, local position). -/
structure Node where
  name : String
  parent : PHandle
  children : List PHandle
  position : Vector3
deriving DecidableEq, Repr

/-- A fresh unlinked node with the given name. -/
def Node.base (name : String) : Node := ⟨name, PHandle.NONE, [], ⟨0, 0, 0⟩⟩

/-- Modelled from the spec: `rg3d::scene::graph::Graph`, a pool of nodes
plus a designated root handle. -/
structure Graph where
  pool : Pool Node
  root : PHandle
deriving DecidableEq, Repr

namespace Graph

/-- A new graph holds exactly a root node. -/
def new : Graph :=
  let pr := Pool.empty.spawn (Node.base "__ROOT__")
  ⟨pr.2, pr.1⟩

def get_root (g : Graph) : PHandle := g.root

def borrow (g : Graph) (h : PHandle) : Option Node := g.pool.borrow h

/-- Remove a node from its parent's child list and clear its parent link;
fatal on a stale handle. -/
def unlink_internal (g : Graph) (child : PHandle) : Option Graph :=
  match g.pool.borrow child with
  | none => none
  | some cn =>
    let step1 : Option (Pool Node) :=
      if cn.parent.is_none then some g.pool
      else
        match g.pool.borrow cn.parent with
        | none => none
        | some pn =>
            g.pool.replace cn.parent
              { pn with children := pn.children.filter (fun c => c != child) }
    match step1 with
    | none => none
    | some pl =>
      match pl.borrow child with
      | none => none
      | some cn2 =>
          (pl.replace child { cn2 with parent := PHandle.NONE }).map
            (fun pl2 => ⟨pl2, g.root⟩)

/-- `Graph::link_nodes(child, parent)`: unlink the child, set its parent
link and append it to the parent's child list. -/
def link_nodes (g : Graph) (child parent : PHandle) : Option Graph :=
  match g.unlink_internal child with
  | none => none
  | some g1 =>
    match g1.pool.borrow child with
    | none => none
    | some cn =>
      match g1.pool.replace child { cn with parent := parent } with
      | none => none
      | some pl =>
        match pl.borrow parent with
        | none => none
        | some pn =>
            (pl.replace parent { pn with children := pn.children ++ [child] }).map
              (fun pl2 => ⟨pl2, g1.root⟩)

/-- `Graph::add_node`: spawn the node and link it to the root. -/
def add_node (g : Graph) (n : Node) : Option (PHandle × Graph) :=
  let pr := g.pool.spawn n
  (link_nodes ⟨pr.2, g.root⟩ pr.1 g.root).map (fun g2 => (pr.1, g2))

/-- `Graph::take_reserve`: isolate the node and reserve its pool slot. -/
def take_reserve (g : Graph) (h : PHandle) : Option (PTicket × Node × Graph) :=
  match g.unlink_internal h with
  | none => none
  | some g1 =>
    (g1.pool.take_reserve h).map (fun tr => (tr.1, tr.2.1, ⟨tr.2.2, g1.root⟩))

/-- `Graph::put_back`: restore the reserved slot and link the node back
to the root. -/
def put_back (g : Graph) (t : PTicket) (n : Node) : Option (PHandle × Graph) :=
  let pr := g.pool.put_back t n
  (link_nodes ⟨pr.2, g.root⟩ pr.1 g.root).map (fun g2 => (pr.1, g2))

def forget_ticket (g : Graph) (t : PTicket) : Graph :=
  ⟨g.pool.forget_ticket t, g.root⟩

/-- Mutate a node's local position (`local_transform_mut().set_position`);
fatal on a stale handle. -/
def set_node_position (g : Graph) (h : PHandle) (pos : Vector3) : Option Graph :=
  match g.pool.borrow h with
  | none => none
  | some n => (g.pool.replace h { n with position := pos }).map (fun pl => ⟨pl, g.root⟩)

/-- Stack-driven hierarchy walk (`pop` from the top, push children),
returning the visited handles in visit order; `none` on a stale handle or
when the fuel runs out (the source would loop forever on a cyclic
graph). -/
def traverse_handle_stack (g : Graph) : Nat → List PHandle → Option (List PHandle)
  | 0, _ => none
  | _ + 1, [] => some []
  | fuel + 1, h :: rest =>
    match g.pool.borrow h with
    | none => none
    | some n =>
        (traverse_handle_stack g fuel (n.children.reverse ++ rest)).map
          (fun l => h :: l)

/-- Modelled from the spec: `Graph::traverse_handle_iter(from)`, the
handle of every node of the subtree rooted at `from`. -/
def traverse_handle_iter (g : Graph) (fuel : Nat) (fromNode : PHandle) :
    Option (List PHandle) :=
  traverse_handle_stack g fuel [fromNode]

/-- Helper of `is_descendant_of`: scan a child list, descending into each
child's subtree. -/
def is_descendant_children (g : Graph) : Nat → PHandle → List PHandle → Option Bool
  | 0, _, _ => none
  | _ + 1, _, [] => some false
  | fuel + 1, handle, child :: rest =>
    if child = handle then some true
    else
      match g.pool.borrow child with
      | none => none
      | some n =>
        match is_descendant_children g fuel handle n.children with
        | none => none
        | some true => some true
        | some false => is_descendant_children g fuel handle rest

/-- `is_descendant_of(handle, other)` of `GraphSelection::root_nodes`:
does `handle` occur strictly below `other`? -/
def is_descendant_of (g : Graph) (fuel : Nat) (handle other : PHandle) : Option Bool :=
  match g.pool.borrow other with
  | none => none
  | some n => is_descendant_children g fuel handle n.children

end Graph

/-! ### Physics world

Modelled from the spec (sections 3 and 6): pools of bodies, colliders and
joints plus the bidirectional node↔body binder with
`value_of`/`unbind_by_body` queries and `find_joint`.  The fields kept on
each entity are the ones the verified commands touch. -/

structure RigidBody where
  position : Vector3
  rotation : Vector3
  colliders : List PHandle
deriving DecidableEq, Repr

structure Collider where
  parent : PHandle
deriving DecidableEq, Repr

structure Joint where
  body1 : PHandle
  body2 : PHandle
deriving DecidableEq, Repr

/-- Modelled from the spec: the node↔body binder; the forward map is the
authoritative direction. -/
structure Binder where
  forward : List (PHandle × PHandle)
deriving DecidableEq, Repr

namespace Binder

def value_of (b : Binder) (node : PHandle) : Option PHandle :=
  assocGet b.forward node

def insert (b : Binder) (node body : PHandle) : Binder :=
  ⟨assocInsert b.forward node body⟩

def remove_by_key (b : Binder) (node : PHandle) : Binder :=
  ⟨b.forward.filter (fun pr => pr.1 != node)⟩

def forward_map (b : Binder) : List (PHandle × PHandle) := b.forward

end Binder

structure Physics where
  bodies : Pool RigidBody
  colliders : Pool Collider
  joints : Pool Joint
  binder : Binder
deriving DecidableEq, Repr

namespace Physics

def default_ : Physics := ⟨Pool.empty, Pool.empty, Pool.empty, ⟨[]⟩⟩

/-- Modelled from the spec: `find_joint(body)` — the first live joint
whose owning body (`body1`) is the given body, or `Handle::NONE`. -/
def find_joint (p : Physics) (body : PHandle) : PHandle :=
  match p.joints.pair_iter.find? (fun pr => pr.2.body1 == body) with
  | some pr => pr.1
  | none => PHandle.NONE

/-- Modelled from the spec: `unbind_by_body(body)` — drop the binder entry
whose value is the body, returning the node that was bound (or NONE). -/
def unbind_by_body (p : Physics) (body : PHandle) : PHandle × Physics :=
  match p.binder.forward.find? (fun pr => pr.2 == body) with
  | some pr => (pr.1, { p with binder := ⟨p.binder.forward.filter (fun q => q.1 != pr.1)⟩ })
  | none => (PHandle.NONE, p)

end Physics

/-! ### Navigation mesh data model -/

structure NavmeshVertex where
  position : Vector3
deriving DecidableEq, Repr

structure NavmeshTriangle where
  a : PHandle
  b : PHandle
  c : PHandle
deriving DecidableEq, Repr

def NavmeshTriangle.vertices (t : NavmeshTriangle) : List PHandle := [t.a, t.b, t.c]

structure NavmeshEdge where
  begin : PHandle
  end_ : PHandle
deriving DecidableEq, Repr

structure Navmesh where
  vertices : Pool NavmeshVertex
  triangles : Pool NavmeshTriangle
deriving DecidableEq, Repr

/-! ### Selection model -/

inductive NavmeshEntity
  | Vertex (h : PHandle)
  | Edge (e : NavmeshEdge)
  | Triangle (h : PHandle)
deriving DecidableEq, Repr

structure NavmeshSelection where
  navmesh : PHandle
  entities : List NavmeshEntity
deriving DecidableEq, Repr

def NavmeshSelection.new (navmesh : PHandle) (entities : List NavmeshEntity) :
    NavmeshSelection := ⟨navmesh, entities⟩

def NavmeshSelection.is_empty (s : NavmeshSelection) : Bool := s.entities.isEmpty

structure GraphSelection where
  nodes : List PHandle
deriving DecidableEq, Repr

namespace GraphSelection

/-- `GraphSelection`'s hand-written `PartialEq::eq` from the source:
an empty left side against a non-empty right side is unequal; otherwise
every node of the left side must occur in the right side. -/
def eq (a b : GraphSelection) : Bool :=
  if a.nodes.isEmpty && !b.nodes.isEmpty then false
  else a.nodes.all (fun n => b.nodes.any (fun m => m == n))

def from_list (nodes : List PHandle) : GraphSelection :=
  ⟨nodes.filter (fun h => !h.is_none)⟩

def contains (s : GraphSelection) (handle : PHandle) : Bool :=
  s.nodes.any (fun h => h == handle)

def is_empty (s : GraphSelection) : Bool := s.nodes.isEmpty

/-- `root_nodes`: the selected nodes that are not descendants of another
selected node. -/
def root_nodes (s : GraphSelection) (graph : Graph) (fuel : Nat) :
    Option (List PHandle) :=
  s.nodes.foldlM
    (fun acc node => do
      let descendant ← s.nodes.foldlM
        (fun (d : Bool) other =>
          if d then pure true
          else graph.is_descendant_of fuel node other)
        false
      return if descendant then acc else acc ++ [node])
    []

end GraphSelection

inductive Selection
  | None
  | Graph (s : GraphSelection)
  | Navmesh (s : NavmeshSelection)
deriving DecidableEq, Repr

/-- The derived `PartialEq` of the `Selection` enum, which delegates to
`GraphSelection`'s hand-written `eq` for the graph variant. -/
def Selection.eqRust : Selection → Selection → Bool
  | .None, .None => true
  | .Graph a, .Graph b => a.eq b
  | .Navmesh a, .Navmesh b => a == b
  | _, _ => false

def Selection.is_empty : Selection → Bool
  | .None => true
  | .Graph g => g.is_empty
  | .Navmesh n => n.is_empty

instance : Inhabited Selection := ⟨Selection.None⟩

/-! ### Deep clone (`deep_clone_nodes`) and the clipboard -/

/-- `DeepCloneResult` of the source: newly created roots, physics handles
and the new-handle binder map. -/
structure DeepCloneResult where
  root_nodes : List PHandle
  colliders : List PHandle
  bodies : List PHandle
  joints : List PHandle
  binder : List (PHandle × PHandle)
deriving DecidableEq, Repr

def DeepCloneResult.default_ : DeepCloneResult := ⟨[], [], [], [], []⟩

/-- Spawn one clone per (old handle, node) pair, collecting the old→new
mapping in visit order. -/
def spawnClones : Pool Node → List (PHandle × Node) →
    Pool Node × List (PHandle × PHandle)
  | dest, [] => (dest, [])
  | dest, (oldH, n) :: rest =>
    let pr := dest.spawn n
    let tail := spawnClones pr.2 rest
    (tail.1, (oldH, pr.1) :: tail.2)

/-- Modelled from the spec (section 4.5, step 1): the engine's
`Graph::copy_node` primitive — copy the subtree rooted at `root_node` into
the destination graph, producing the copy's root handle and the complete
old→new handle mapping; hierarchy links inside the copy are rewritten
through the mapping and the copied root is attached to the destination
root. -/
def Graph.copy_node (src : Graph) (root_node : PHandle) (dest : Graph)
    (fuel : Nat) : Option (PHandle × Graph × List (PHandle × PHandle)) := do
  let subtree ← src.traverse_handle_stack fuel [root_node]
  let pairs ← subtree.mapM (fun h => (src.pool.borrow h).map (fun n => (h, n)))
  let spawned := spawnClones dest.pool pairs
  let mapping := spawned.2
  let rewired ← mapping.foldlM
    (fun (pl : Pool Node) (pr : PHandle × PHandle) => do
      let n ← pl.borrow pr.2
      pl.replace pr.2
        { n with
          parent := (assocGet mapping n.parent).getD PHandle.NONE,
          children := n.children.filterMap (assocGet mapping) })
    spawned.1
  let newRoot ← assocGet mapping root_node
  let destG ← Graph.link_nodes ⟨rewired, dest.root⟩ newRoot dest.root
  return (newRoot, destG, mapping)

/-- Clone each collider of a source body, re-parenting the clone to the
cloned body, appending it to the cloned body's collider list and recording
its handle; direct translation of the inner collider loop of
`deep_clone_nodes`. -/
def cloneColliders (source_physics : Physics) (body_clone_handle : PHandle) :
    List PHandle → Pool Collider → Pool RigidBody → List PHandle →
    Option (Pool Collider × Pool RigidBody × List PHandle)
  | [], dcol, dbod, acc => some (dcol, dbod, acc)
  | c :: rest, dcol, dbod, acc =>
    match source_physics.colliders.borrow c with
    | none => none
    | some cv =>
      let collider_clone := { cv with parent := body_clone_handle }
      let pr := dcol.spawn collider_clone
      match dbod.borrow body_clone_handle with
      | none => none
      | some bv =>
        match dbod.replace body_clone_handle
            { bv with colliders := bv.colliders ++ [pr.1] } with
        | none => none
        | some dbod1 =>
            cloneColliders source_physics body_clone_handle rest pr.2 dbod1
              (acc ++ [pr.1])

/-- One descendant's step of the physics-cloning walk of
`deep_clone_nodes`: if the source node is bound to a body, deep-copy the
body (collider list cleared first), deep-copy its colliders, and record
the new binding. -/
def clonePhysicsAt (source_physics : Physics) (mapping : List (PHandle × PHandle))
    (descendant : PHandle) (dest_physics : Physics) (result : DeepCloneResult) :
    Option (Physics × DeepCloneResult) :=
  match source_physics.binder.value_of descendant with
  | none => some (dest_physics, result)
  | some body =>
    match source_physics.bodies.borrow body with
    | none => none
    | some bodyVal =>
      let body_clone := { bodyVal with colliders := [] }
      let spawned := dest_physics.bodies.spawn body_clone
      let body_clone_handle := spawned.1
      match cloneColliders source_physics body_clone_handle bodyVal.colliders
          dest_physics.colliders spawned.2 [] with
      | none => none
      | some (dcol, dbod, colliderHandles) =>
        match assocGet mapping descendant with
        | none => none
        | some new_node =>
            some
              ({ dest_physics with
                  bodies := dbod,
                  colliders := dcol,
                  binder := dest_physics.binder.insert new_node body_clone_handle },
               { result with
                  bodies := result.bodies ++ [body_clone_handle],
                  colliders := result.colliders ++ colliderHandles,
                  binder := assocInsert result.binder new_node body_clone_handle })

/-- The physics-cloning walk of `deep_clone_nodes` over the traversed
descendants of every root subtree. -/
def clonePhysicsWalk (source_physics : Physics) (mapping : List (PHandle × PHandle)) :
    List PHandle → Physics → DeepCloneResult → Option (Physics × DeepCloneResult)
  | [], dp, r => some (dp, r)
  | d :: rest, dp, r =>
    match clonePhysicsAt source_physics mapping d dp r with
    | none => none
    | some (dp1, r1) => clonePhysicsWalk source_physics mapping rest dp1 r1

/-- The list of every node traversed by `deep_clone_nodes`' second loop:
the concatenation of the subtree traversals of the root nodes. -/
def allDescendants (source_graph : Graph) (root_nodes : List PHandle)
    (fuel : Nat) : Option (List PHandle) :=
  root_nodes.foldlM
    (fun acc root =>
      (source_graph.traverse_handle_stack fuel [root]).map (fun l => acc ++ l))
    []

/-- `deep_clone_nodes` from the source: copy the node subtrees (merging
the per-root mappings), map the roots through the mapping, then walk every
descendant cloning bound bodies and their colliders.  Joints are not
cloned (TODO in the source). -/
def deep_clone_nodes (root_nodes : List PHandle) (source_graph : Graph)
    (source_physics : Physics) (dest_graph : Graph) (dest_physics : Physics)
    (fuel : Nat) : Option (DeepCloneResult × Graph × Physics) := do
  let copied ← root_nodes.foldlM
    (fun (st : Graph × List (PHandle × PHandle)) root => do
      let step ← source_graph.copy_node root st.1 fuel
      return (step.2.1, step.2.2.foldl (fun acc pr => assocInsert acc pr.1 pr.2) st.2))
    (dest_graph, [])
  let mapping := copied.2
  let rn ← root_nodes.mapM (assocGet mapping)
  let ds ← allDescendants source_graph root_nodes fuel
  let walked ← clonePhysicsWalk source_physics mapping ds dest_physics
    { DeepCloneResult.default_ with root_nodes := rn }
  return (walked.2, copied.1, walked.1)

/-- The clipboard: an isolated holding graph and physics world plus the
emptiness flag. -/
structure Clipboard where
  graph : Graph
  physics : Physics
  empty : Bool
deriving DecidableEq, Repr

namespace Clipboard

def default_ : Clipboard := ⟨Graph.new, Physics.default_, true⟩

def clear (_ : Clipboard) : Clipboard := ⟨Graph.new, Physics.default_, true⟩

def is_empty (c : Clipboard) : Bool := c.empty

/-- `Clipboard::fill_from_selection`: clear, deep-clone the selection's
root subtrees into the holding pools, and mark non-empty. -/
def fill_from_selection (c : Clipboard) (selection : GraphSelection)
    (scene_graph : Graph) (physics : Physics) (fuel : Nat) : Option Clipboard := do
  let c1 := c.clear
  let rn ← selection.root_nodes scene_graph fuel
  let cloned ← deep_clone_nodes rn scene_graph physics c1.graph c1.physics fuel
  return ⟨cloned.2.1, cloned.2.2, false⟩

/-- `Clipboard::paste`: `assert_ne!(self.empty, true)` then deep-clone the
holding root's children into the destination. -/
def paste (c : Clipboard) (dest_graph : Graph) (dest_physics : Physics)
    (fuel : Nat) : Option (DeepCloneResult × Graph × Physics) :=
  if c.empty then none
  else
    match c.graph.borrow c.graph.get_root with
    | none => none
    | some rootNode =>
        deep_clone_nodes rootNode.children c.graph c.physics dest_graph
          dest_physics fuel

end Clipboard

/-! ### Editor scene, context and messages -/

structure EditorScene where
  root : PHandle
  selection : Selection
  clipboard : Clipboard
  physics : Physics
  navmeshes : Pool Navmesh
deriving DecidableEq, Repr

structure Scene where
  graph : Graph
deriving DecidableEq, Repr

inductive Message
  | SelectionChanged
deriving DecidableEq, Repr

/-- `SceneContext`: the mutable references every command call receives;
the message sender channel is modelled by the list of sent events. -/
structure SceneContext where
  editor_scene : EditorScene
  scene : Scene
  messages : List Message
deriving DecidableEq, Repr

/-- Update the scene graph inside a context. -/
def SceneContext.withGraph (ctx : SceneContext) (g : Graph) : SceneContext :=
  { ctx with scene := ⟨g⟩ }

/-- Update the physics world inside a context. -/
def SceneContext.withPhysics (ctx : SceneContext) (p : Physics) : SceneContext :=
  { ctx with editor_scene := { ctx.editor_scene with physics := p } }

/-- Update the navmesh pool inside a context. -/
def SceneContext.withNavmeshes (ctx : SceneContext) (n : Pool Navmesh) : SceneContext :=
  { ctx with editor_scene := { ctx.editor_scene with navmeshes := n } }

/-- Update the selection inside a context. -/
def SceneContext.withSelection (ctx : SceneContext) (s : Selection) : SceneContext :=
  { ctx with editor_scene := { ctx.editor_scene with selection := s } }

/-! ### Bulk pool and sub-graph operations -/

/-- Take-reserve a list of handles in order. -/
def Pool.take_all {T : Type} : Pool T → List PHandle →
    Option (List (PTicket × T) × Pool T)
  | p, [] => some ([], p)
  | p, h :: rest =>
    match p.take_reserve h with
    | none => none
    | some (t, v, p1) =>
      match Pool.take_all p1 rest with
      | none => none
      | some (l, p2) => some ((t, v) :: l, p2)

/-- Put a list of (ticket, value) pairs back in order. -/
def Pool.put_all {T : Type} : Pool T → List (PTicket × T) → List PHandle × Pool T
  | p, [] => ([], p)
  | p, tv :: rest =>
    let pr := p.put_back tv.1 tv.2
    let tail := Pool.put_all pr.2 rest
    (pr.1 :: tail.1, tail.2)

/-- Modelled from the spec (section 9): a detached sub-graph is a bulk
ticket capturing the reserved root slot and every reserved descendant slot
with its value. -/
structure SubGraph where
  root_pair : PTicket × Node
  descendants : List (PTicket × Node)
deriving DecidableEq, Repr

/-- Modelled from the spec: `Graph::take_reserve_sub_graph` — isolate the
subtree root and reserve every slot of the subtree. -/
def Graph.take_reserve_sub_graph (g : Graph) (fuel : Nat) (root : PHandle) :
    Option (SubGraph × Graph) := do
  let nodes ← g.traverse_handle_stack fuel [root]
  let g1 ← g.unlink_internal root
  let taken ← Pool.take_all g1.pool nodes
  match taken.1 with
  | [] => none
  | rp :: rest => return (⟨rp, rest⟩, ⟨taken.2, g1.root⟩)

/-- Modelled from the spec: `Graph::put_sub_graph_back` — restore every
reserved slot of the detached unit, returning the root's handle. -/
def Graph.put_sub_graph_back (g : Graph) (sg : SubGraph) : PHandle × Graph :=
  let pr := g.pool.put_back sg.root_pair.1 sg.root_pair.2
  let rest := Pool.put_all pr.2 sg.descendants
  (pr.1, ⟨rest.2, g.root⟩)

/-- Modelled from the spec: `Graph::forget_sub_graph` — release every
reserved slot of the detached unit. -/
def Graph.forget_sub_graph (g : Graph) (sg : SubGraph) : Graph :=
  ⟨sg.descendants.foldl (fun pl pr => pl.forget_ticket pr.1)
      (g.pool.forget_ticket sg.root_pair.1),
    g.root⟩

/-! ### Commands

Each command's `execute`/`revert`/`finalize` is translated directly from
`src/scene.rs`; the functions return `none` exactly where the source
panics.  Commands whose operations need a hierarchy traversal
(`Paste`, `DeleteSubGraph`) additionally take the traversal fuel. -/

/-- `AddNodeCommand`. -/
structure AddNodeCommand where
  ticket : Option PTicket
  handle : PHandle
  node : Option Node
  cached_name : String
deriving DecidableEq, Repr

namespace AddNodeCommand

def new (node : Node) : AddNodeCommand :=
  ⟨none, PHandle.NONE, some node, "Add Node " ++ node.name⟩

def execute (c : AddNodeCommand) (ctx : SceneContext) :
    Option (AddNodeCommand × SceneContext) :=
  match c.ticket with
  | none => do
    let n ← c.node
    let hg ← ctx.scene.graph.add_node n
    return ({ c with node := none, handle := hg.1 }, ctx.withGraph hg.2)
  | some t => do
    let n ← c.node
    let hg ← ctx.scene.graph.put_back t n
    -- assert_eq!(handle, self.handle)
    if hg.1 = c.handle then
      return ({ c with ticket := none, node := none }, ctx.withGraph hg.2)
    else none

def revert (c : AddNodeCommand) (ctx : SceneContext) :
    Option (AddNodeCommand × SceneContext) := do
  let tng ← ctx.scene.graph.take_reserve c.handle
  return ({ c with ticket := some tng.1, node := some tng.2.1 },
    ctx.withGraph tng.2.2)

def finalize (c : AddNodeCommand) (ctx : SceneContext) :
    Option (AddNodeCommand × SceneContext) :=
  match c.ticket with
  | some t => some ({ c with ticket := none }, ctx.withGraph (ctx.scene.graph.forget_ticket t))
  | none => some (c, ctx)

end AddNodeCommand

/-- `AddNavmeshCommand`. -/
structure AddNavmeshCommand where
  ticket : Option PTicket
  handle : PHandle
  navmesh : Option Navmesh
deriving DecidableEq, Repr

namespace AddNavmeshCommand

def new (navmesh : Navmesh) : AddNavmeshCommand := ⟨none, PHandle.NONE, some navmesh⟩

def execute (c : AddNavmeshCommand) (ctx : SceneContext) :
    Option (AddNavmeshCommand × SceneContext) :=
  match c.ticket with
  | none => do
    let n ← c.navmesh
    let pr := ctx.editor_scene.navmeshes.spawn n
    return ({ c with navmesh := none, handle := pr.1 }, ctx.withNavmeshes pr.2)
  | some t => do
    let n ← c.navmesh
    let pr := ctx.editor_scene.navmeshes.put_back t n
    -- assert_eq!(handle, self.handle)
    if pr.1 = c.handle then
      return ({ c with ticket := none, navmesh := none }, ctx.withNavmeshes pr.2)
    else none

def revert (c : AddNavmeshCommand) (ctx : SceneContext) :
    Option (AddNavmeshCommand × SceneContext) := do
  let tn ← ctx.editor_scene.navmeshes.take_reserve c.handle
  return ({ c with ticket := some tn.1, navmesh := some tn.2.1 },
    ctx.withNavmeshes tn.2.2)

def finalize (c : AddNavmeshCommand) (ctx : SceneContext) :
    Option (AddNavmeshCommand × SceneContext) :=
  match c.ticket with
  | some t =>
      some ({ c with ticket := none },
        ctx.withNavmeshes (ctx.editor_scene.navmeshes.forget_ticket t))
  | none => some (c, ctx)

end AddNavmeshCommand

/-- `AddJointCommand`. -/
structure AddJointCommand where
  ticket : Option PTicket
  handle : PHandle
  joint : Option Joint
deriving DecidableEq, Repr

namespace AddJointCommand

def new (node : Joint) : AddJointCommand := ⟨none, PHandle.NONE, some node⟩

def execute (c : AddJointCommand) (ctx : SceneContext) :
    Option (AddJointCommand × SceneContext) :=
  match c.ticket with
  | none => do
    let j ← c.joint
    let pr := ctx.editor_scene.physics.joints.spawn j
    return ({ c with joint := none, handle := pr.1 },
      ctx.withPhysics { ctx.editor_scene.physics with joints := pr.2 })
  | some t => do
    let j ← c.joint
    let pr := ctx.editor_scene.physics.joints.put_back t j
    -- assert_eq!(handle, self.handle)
    if pr.1 = c.handle then
      return ({ c with ticket := none, joint := none },
        ctx.withPhysics { ctx.editor_scene.physics with joints := pr.2 })
    else none

def revert (c : AddJointCommand) (ctx : SceneContext) :
    Option (AddJointCommand × SceneContext) := do
  let tj ← ctx.editor_scene.physics.joints.take_reserve c.handle
  return ({ c with ticket := some tj.1, joint := some tj.2.1 },
    ctx.withPhysics { ctx.editor_scene.physics with joints := tj.2.2 })

def finalize (c : AddJointCommand) (ctx : SceneContext) :
    Option (AddJointCommand × SceneContext) :=
  match c.ticket with
  | some t =>
      some ({ c with ticket := none },
        ctx.withPhysics
          { ctx.editor_scene.physics with
              joints := ctx.editor_scene.physics.joints.forget_ticket t })
  | none => some (c, ctx)

end AddJointCommand

/-- `MoveNodeCommand`: the swap-based position toggle. -/
structure MoveNodeCommand where
  node : PHandle
  old_position : Vector3
  new_position : Vector3
deriving DecidableEq, Repr

namespace MoveNodeCommand

def new (node : PHandle) (old_position new_position : Vector3) : MoveNodeCommand :=
  ⟨node, old_position, new_position⟩

/-- `swap`: return the stored new position and exchange the two fields. -/
def swap (c : MoveNodeCommand) : Vector3 × MoveNodeCommand :=
  (c.new_position,
   { c with new_position := c.old_position, old_position := c.new_position })

/-- `set_position`: write the node's local position and, if the node is
bound to a body, the body's position. -/
def set_position (c : MoveNodeCommand) (graph : Graph) (physics : Physics)
    (position : Vector3) : Option (Graph × Physics) := do
  let g ← graph.set_node_position c.node position
  match physics.binder.value_of c.node with
  | none => return (g, physics)
  | some body => do
    let bv ← physics.bodies.borrow body
    let bp ← physics.bodies.replace body { bv with position := position }
    return (g, { physics with bodies := bp })

def execute (c : MoveNodeCommand) (ctx : SceneContext) :
    Option (MoveNodeCommand × SceneContext) := do
  let sw := c.swap
  let gp ← sw.2.set_position ctx.scene.graph ctx.editor_scene.physics sw.1
  return (sw.2, (ctx.withGraph gp.1).withPhysics gp.2)

def revert (c : MoveNodeCommand) (ctx : SceneContext) :
    Option (MoveNodeCommand × SceneContext) := do
  let sw := c.swap
  let gp ← sw.2.set_position ctx.scene.graph ctx.editor_scene.physics sw.1
  return (sw.2, (ctx.withGraph gp.1).withPhysics gp.2)

def finalize (c : MoveNodeCommand) (ctx : SceneContext) :
    Option (MoveNodeCommand × SceneContext) := some (c, ctx)

end MoveNodeCommand

/-- `ChangeSelectionCommand`. -/
structure ChangeSelectionCommand where
  new_selection : Selection
  old_selection : Selection
  cached_name : String
deriving DecidableEq, Repr

namespace ChangeSelectionCommand

def new (new_selection old_selection : Selection) : ChangeSelectionCommand :=
  ⟨new_selection, old_selection,
    match new_selection with
    | .None => "Change Selection: None"
    | .Graph _ => "Change Selection: Graph"
    | .Navmesh _ => "Change Selection: Navmesh"⟩

/-- `swap`: return the stored new selection and exchange the two fields. -/
def swap (c : ChangeSelectionCommand) : Selection × ChangeSelectionCommand :=
  (c.new_selection,
   { c with new_selection := c.old_selection, old_selection := c.new_selection })

def execute (c : ChangeSelectionCommand) (ctx : SceneContext) :
    Option (ChangeSelectionCommand × SceneContext) :=
  let sw := c.swap
  if Selection.eqRust sw.1 ctx.editor_scene.selection then some (sw.2, ctx)
  else
    some (sw.2,
      { ctx.withSelection sw.1 with
          messages := ctx.messages ++ [Message.SelectionChanged] })

def revert (c : ChangeSelectionCommand) (ctx : SceneContext) :
    Option (ChangeSelectionCommand × SceneContext) :=
  execute c ctx

def finalize (c : ChangeSelectionCommand) (ctx : SceneContext) :
    Option (ChangeSelectionCommand × SceneContext) := some (c, ctx)

end ChangeSelectionCommand

/-- Perform the `if self.select { std::mem::swap(selection, new_selection) }`
step shared by `AddNavmeshEdgeCommand::execute/revert`: returns the value
left in the command's `new_selection` field and the updated context. -/
def swapSelectionIf (select : Bool) (stored : Selection) (ctx : SceneContext) :
    Selection × SceneContext :=
  if select then (ctx.editor_scene.selection, ctx.withSelection stored)
  else (stored, ctx)

/-- The four-state staged union of `AddNavmeshEdgeCommand`. -/
inductive AddNavmeshEdgeCommandState
  | Undefined
  | NonExecuted (edge : NavmeshVertex × NavmeshVertex)
  | Executed (triangles : PHandle × PHandle) (vertices : PHandle × PHandle)
  | Reverted (triangles : (PTicket × NavmeshTriangle) × (PTicket × NavmeshTriangle))
      (vertices : (PTicket × NavmeshVertex) × (PTicket × NavmeshVertex))
deriving DecidableEq, Repr

/-- `AddNavmeshEdgeCommand`: spawns two vertices and two triangles. -/
structure AddNavmeshEdgeCommand where
  navmesh : PHandle
  opposite_edge : NavmeshEdge
  state : AddNavmeshEdgeCommandState
  select : Bool
  new_selection : Selection
deriving DecidableEq, Repr

namespace AddNavmeshEdgeCommand

def new (navmesh : PHandle) (edge : NavmeshVertex × NavmeshVertex)
    (opposite_edge : NavmeshEdge) (select : Bool) : AddNavmeshEdgeCommand :=
  ⟨navmesh, opposite_edge, .NonExecuted edge, select, Selection.None⟩

def execute (c : AddNavmeshEdgeCommand) (ctx : SceneContext) :
    Option (AddNavmeshEdgeCommand × SceneContext) := do
  let nm ← ctx.editor_scene.navmeshes.borrow c.navmesh
  match c.state with
  | .NonExecuted edge =>
    let v1 := nm.vertices.spawn edge.1
    let begin_handle := v1.1
    let v2 := v1.2.spawn edge.2
    let end_handle := v2.1
    let t1 := nm.triangles.spawn ⟨c.opposite_edge.begin, begin_handle, c.opposite_edge.end_⟩
    let triangle_a := t1.1
    let t2 := t1.2.spawn ⟨begin_handle, end_handle, c.opposite_edge.end_⟩
    let triangle_b := t2.1
    let nms ← ctx.editor_scene.navmeshes.replace c.navmesh ⟨v2.2, t2.2⟩
    let navmesh_selection := NavmeshSelection.new c.navmesh
      [NavmeshEntity.Edge ⟨begin_handle, end_handle⟩]
    let c1 := { c with
      state := .Executed (triangle_a, triangle_b) (begin_handle, end_handle),
      new_selection := Selection.Navmesh navmesh_selection }
    let sw := swapSelectionIf c1.select c1.new_selection (ctx.withNavmeshes nms)
    return ({ c1 with new_selection := sw.1 }, sw.2)
  | .Reverted tr vr =>
    let v1 := nm.vertices.put_back vr.1.1 vr.1.2
    let begin_handle := v1.1
    let v2 := v1.2.put_back vr.2.1 vr.2.2
    let end_handle := v2.1
    let t1 := nm.triangles.put_back tr.1.1 tr.1.2
    let triangle_a := t1.1
    let t2 := t1.2.put_back tr.2.1 tr.2.2
    let triangle_b := t2.1
    let nms ← ctx.editor_scene.navmeshes.replace c.navmesh ⟨v2.2, t2.2⟩
    let c1 := { c with
      state := .Executed (triangle_a, triangle_b) (begin_handle, end_handle) }
    let sw := swapSelectionIf c1.select c1.new_selection (ctx.withNavmeshes nms)
    return ({ c1 with new_selection := sw.1 }, sw.2)
  | _ => none  -- unreachable!()

def revert (c : AddNavmeshEdgeCommand) (ctx : SceneContext) :
    Option (AddNavmeshEdgeCommand × SceneContext) :=
  let sw := swapSelectionIf c.select c.new_selection ctx
  let c0 := { c with new_selection := sw.1 }
  let ctx0 := sw.2
  match ctx0.editor_scene.navmeshes.borrow c0.navmesh with
  | none => none
  | some nm =>
    match c0.state with
    | .Executed tr vr => do
      let ta ← nm.triangles.take_reserve tr.1
      let tb ← ta.2.2.take_reserve tr.2
      let va ← nm.vertices.take_reserve vr.1
      let vb ← va.2.2.take_reserve vr.2
      let nms ← ctx0.editor_scene.navmeshes.replace c0.navmesh ⟨vb.2.2, tb.2.2⟩
      return ({ c0 with
          state := .Reverted ((ta.1, ta.2.1), (tb.1, tb.2.1))
            ((va.1, va.2.1), (vb.1, vb.2.1)) },
        ctx0.withNavmeshes nms)
    | _ => none  -- unreachable!()

def finalize (c : AddNavmeshEdgeCommand) (ctx : SceneContext) :
    Option (AddNavmeshEdgeCommand × SceneContext) :=
  match c.state with
  | .Reverted tr vr =>
    let c1 := { c with state := AddNavmeshEdgeCommandState.Undefined }
    match ctx.editor_scene.navmeshes.try_borrow c.navmesh with
    | none => some (c1, ctx)
    | some nm =>
      let vp := (nm.vertices.forget_ticket vr.1.1).forget_ticket vr.2.1
      let tp := (nm.triangles.forget_ticket tr.1.1).forget_ticket tr.2.1
      match ctx.editor_scene.navmeshes.replace c.navmesh ⟨vp, tp⟩ with
      | none => none
      | some nms => some (c1, ctx.withNavmeshes nms)
  | _ => some ({ c with state := AddNavmeshEdgeCommandState.Undefined }, ctx)

end AddNavmeshEdgeCommand

/-- The staged union of `ConnectNavmeshEdgesCommand`. -/
inductive ConnectNavmeshEdgesCommandState
  | Undefined
  | NonExecuted (edges : NavmeshEdge × NavmeshEdge)
  | Executed (triangles : PHandle × PHandle)
  | Reverted (triangles : (PTicket × NavmeshTriangle) × (PTicket × NavmeshTriangle))
deriving DecidableEq, Repr

/-- `ConnectNavmeshEdgesCommand`: spawns two triangles. -/
structure ConnectNavmeshEdgesCommand where
  navmesh : PHandle
  state : ConnectNavmeshEdgesCommandState
deriving DecidableEq, Repr

namespace ConnectNavmeshEdgesCommand

def new (navmesh : PHandle) (edges : NavmeshEdge × NavmeshEdge) :
    ConnectNavmeshEdgesCommand := ⟨navmesh, .NonExecuted edges⟩

def execute (c : ConnectNavmeshEdgesCommand) (ctx : SceneContext) :
    Option (ConnectNavmeshEdgesCommand × SceneContext) := do
  let nm ← ctx.editor_scene.navmeshes.borrow c.navmesh
  match c.state with
  | .NonExecuted edges =>
    let t1 := nm.triangles.spawn ⟨edges.1.begin, edges.1.end_, edges.2.begin⟩
    let t2 := t1.2.spawn ⟨edges.2.begin, edges.2.end_, edges.1.begin⟩
    let nms ← ctx.editor_scene.navmeshes.replace c.navmesh { nm with triangles := t2.2 }
    return ({ c with state := .Executed (t1.1, t2.1) }, ctx.withNavmeshes nms)
  | .Reverted tr =>
    let t1 := nm.triangles.put_back tr.1.1 tr.1.2
    let t2 := t1.2.put_back tr.2.1 tr.2.2
    let nms ← ctx.editor_scene.navmeshes.replace c.navmesh { nm with triangles := t2.2 }
    return ({ c with state := .Executed (t1.1, t2.1) }, ctx.withNavmeshes nms)
  | _ => none  -- unreachable!()

def revert (c : ConnectNavmeshEdgesCommand) (ctx : SceneContext) :
    Option (ConnectNavmeshEdgesCommand × SceneContext) := do
  let nm ← ctx.editor_scene.navmeshes.borrow c.navmesh
  match c.state with
  | .Executed tr => do
    let ta ← nm.triangles.take_reserve tr.1
    let tb ← ta.2.2.take_reserve tr.2
    let nms ← ctx.editor_scene.navmeshes.replace c.navmesh { nm with triangles := tb.2.2 }
    return ({ c with state := .Reverted ((ta.1, ta.2.1), (tb.1, tb.2.1)) },
      ctx.withNavmeshes nms)
  | _ => none  -- unreachable!()

def finalize (c : ConnectNavmeshEdgesCommand) (ctx : SceneContext) :
    Option (ConnectNavmeshEdgesCommand × SceneContext) := do
  -- the source indexes the navmesh pool before inspecting the state
  let nm ← ctx.editor_scene.navmeshes.borrow c.navmesh
  let c1 := { c with state := ConnectNavmeshEdgesCommandState.Undefined }
  match c.state with
  | .Reverted tr =>
    let tp := (nm.triangles.forget_ticket tr.1.1).forget_ticket tr.2.1
    match ctx.editor_scene.navmeshes.replace c.navmesh { nm with triangles := tp } with
    | none => none
    | some nms => some (c1, ctx.withNavmeshes nms)
  | _ => some (c1, ctx)

end ConnectNavmeshEdgesCommand

/-- The staged union of `DeleteNavmeshVertexCommand`. -/
inductive DeleteNavmeshVertexCommandState
  | Undefined
  | NonExecuted (vertex : PHandle)
  | Executed (vertex : PTicket × NavmeshVertex)
      (triangles : List (PTicket × NavmeshTriangle))
  | Reverted (vertex : PHandle)
deriving DecidableEq, Repr

/-- `DeleteNavmeshVertexCommand`: removes a vertex and every triangle
referencing it. -/
structure DeleteNavmeshVertexCommand where
  navmesh : PHandle
  state : DeleteNavmeshVertexCommandState
deriving DecidableEq, Repr

namespace DeleteNavmeshVertexCommand

def new (navmesh : PHandle) (vertex : PHandle) : DeleteNavmeshVertexCommand :=
  ⟨navmesh, .NonExecuted vertex⟩

def execute (c : DeleteNavmeshVertexCommand) (ctx : SceneContext) :
    Option (DeleteNavmeshVertexCommand × SceneContext) := do
  let nm ← ctx.editor_scene.navmeshes.borrow c.navmesh
  match c.state with
  | .NonExecuted vertex | .Reverted vertex => do
    -- find every triangle sharing the vertex BEFORE reserving anything
    let triangles := (nm.triangles.pair_iter.filter
      (fun pr => pr.2.vertices.any (fun v => v == vertex))).map Prod.fst
    let vt ← nm.vertices.take_reserve vertex
    let tt ← Pool.take_all nm.triangles triangles
    let nms ← ctx.editor_scene.navmeshes.replace c.navmesh ⟨vt.2.2, tt.2⟩
    return ({ c with state := .Executed (vt.1, vt.2.1) tt.1 }, ctx.withNavmeshes nms)
  | _ => none  -- unreachable!()

def revert (c : DeleteNavmeshVertexCommand) (ctx : SceneContext) :
    Option (DeleteNavmeshVertexCommand × SceneContext) := do
  let nm ← ctx.editor_scene.navmeshes.borrow c.navmesh
  match c.state with
  | .Executed vertex triangles => do
    let vp := nm.vertices.put_back vertex.1 vertex.2
    let tp := Pool.put_all nm.triangles triangles
    let nms ← ctx.editor_scene.navmeshes.replace c.navmesh ⟨vp.2, tp.2⟩
    return ({ c with state := .Reverted vp.1 }, ctx.withNavmeshes nms)
  | _ => none  -- unreachable!()

def finalize (c : DeleteNavmeshVertexCommand) (ctx : SceneContext) :
    Option (DeleteNavmeshVertexCommand × SceneContext) :=
  match c.state with
  | .Executed vertex triangles =>
    let c1 := { c with state := DeleteNavmeshVertexCommandState.Undefined }
    match ctx.editor_scene.navmeshes.try_borrow c.navmesh with
    | none => some (c1, ctx)
    | some nm =>
      let vp := nm.vertices.forget_ticket vertex.1
      let tp := triangles.foldl (fun pl pr => pl.forget_ticket pr.1) nm.triangles
      match ctx.editor_scene.navmeshes.replace c.navmesh ⟨vp, tp⟩ with
      | none => none
      | some nms => some (c1, ctx.withNavmeshes nms)
  | _ => some ({ c with state := DeleteNavmeshVertexCommandState.Undefined }, ctx)

end DeleteNavmeshVertexCommand

/-- `DeleteColliderCommand`. -/
structure DeleteColliderCommand where
  handle : PHandle
  ticket : Option PTicket
  collider : Option Collider
  body : PHandle
deriving DecidableEq, Repr

namespace DeleteColliderCommand

def new (handle : PHandle) : DeleteColliderCommand :=
  ⟨handle, none, none, PHandle.NONE⟩

def execute (c : DeleteColliderCommand) (ctx : SceneContext) :
    Option (DeleteColliderCommand × SceneContext) := do
  let phys := ctx.editor_scene.physics
  let tc ← phys.colliders.take_reserve c.handle
  let body := tc.2.1.parent
  let bv ← phys.bodies.borrow body
  -- body.colliders.remove(position(handle).unwrap())
  let pos ← bv.colliders.findIdx? (fun h => h == c.handle)
  let bp ← phys.bodies.replace body { bv with colliders := bv.colliders.eraseIdx pos }
  return ({ c with ticket := some tc.1, collider := some tc.2.1, body := body },
    ctx.withPhysics { phys with colliders := tc.2.2, bodies := bp })

def revert (c : DeleteColliderCommand) (ctx : SceneContext) :
    Option (DeleteColliderCommand × SceneContext) := do
  let phys := ctx.editor_scene.physics
  let t ← c.ticket
  let cv ← c.collider
  let pr := phys.colliders.put_back t cv
  let bv ← phys.bodies.borrow c.body
  let bp ← phys.bodies.replace c.body { bv with colliders := bv.colliders ++ [pr.1] }
  return ({ c with handle := pr.1, ticket := none, collider := none },
    ctx.withPhysics { phys with colliders := pr.2, bodies := bp })

def finalize (c : DeleteColliderCommand) (ctx : SceneContext) :
    Option (DeleteColliderCommand × SceneContext) :=
  match c.ticket with
  | some t =>
      some ({ c with ticket := none },
        ctx.withPhysics
          { ctx.editor_scene.physics with
              colliders := ctx.editor_scene.physics.colliders.forget_ticket t })
  | none => some (c, ctx)

end DeleteColliderCommand

/-- `DeleteBodyCommand`. -/
structure DeleteBodyCommand where
  handle : PHandle
  ticket : Option PTicket
  body : Option RigidBody
  node : PHandle
deriving DecidableEq, Repr

namespace DeleteBodyCommand

def new (handle : PHandle) : DeleteBodyCommand := ⟨handle, none, none, PHandle.NONE⟩

def execute (c : DeleteBodyCommand) (ctx : SceneContext) :
    Option (DeleteBodyCommand × SceneContext) := do
  let phys := ctx.editor_scene.physics
  let tb ← phys.bodies.take_reserve c.handle
  let phys1 := { phys with bodies := tb.2.2 }
  let ub := phys1.unbind_by_body c.handle
  return ({ c with ticket := some tb.1, body := some tb.2.1, node := ub.1 },
    ctx.withPhysics ub.2)

def revert (c : DeleteBodyCommand) (ctx : SceneContext) :
    Option (DeleteBodyCommand × SceneContext) := do
  let phys := ctx.editor_scene.physics
  let t ← c.ticket
  let bv ← c.body
  let pr := phys.bodies.put_back t bv
  let phys1 := { phys with
    bodies := pr.2, binder := phys.binder.insert c.node pr.1 }
  return ({ c with handle := pr.1, ticket := none, body := none },
    ctx.withPhysics phys1)

def finalize (c : DeleteBodyCommand) (ctx : SceneContext) :
    Option (DeleteBodyCommand × SceneContext) :=
  match c.ticket with
  | some t =>
      some ({ c with ticket := none },
        ctx.withPhysics
          { ctx.editor_scene.physics with
              bodies := ctx.editor_scene.physics.bodies.forget_ticket t })
  | none => some (c, ctx)

end DeleteBodyCommand

/-- `DeleteJointCommand`. -/
structure DeleteJointCommand where
  handle : PHandle
  ticket : Option PTicket
  node : Option Joint
deriving DecidableEq, Repr

namespace DeleteJointCommand

def new (handle : PHandle) : DeleteJointCommand := ⟨handle, none, none⟩

def execute (c : DeleteJointCommand) (ctx : SceneContext) :
    Option (DeleteJointCommand × SceneContext) := do
  let phys := ctx.editor_scene.physics
  let tj ← phys.joints.take_reserve c.handle
  return ({ c with ticket := some tj.1, node := some tj.2.1 },
    ctx.withPhysics { phys with joints := tj.2.2 })

def revert (c : DeleteJointCommand) (ctx : SceneContext) :
    Option (DeleteJointCommand × SceneContext) := do
  let phys := ctx.editor_scene.physics
  let t ← c.ticket
  let jv ← c.node
  let pr := phys.joints.put_back t jv
  return ({ c with handle := pr.1, ticket := none, node := none },
    ctx.withPhysics { phys with joints := pr.2 })

def finalize (c : DeleteJointCommand) (ctx : SceneContext) :
    Option (DeleteJointCommand × SceneContext) :=
  match c.ticket with
  | some t =>
      some ({ c with ticket := none },
        ctx.withPhysics
          { ctx.editor_scene.physics with
              joints := ctx.editor_scene.physics.joints.forget_ticket t })
  | none => some (c, ctx)

end DeleteJointCommand

/-- `SetJointConnectedBodyCommand` (generated by `define_joint_command!`):
`execute` and `revert` both swap the joint's `body2` with the stored
value. -/
structure SetJointConnectedBodyCommand where
  handle : PHandle
  value : PHandle
deriving DecidableEq, Repr

namespace SetJointConnectedBodyCommand

def new (handle : PHandle) (value : PHandle) : SetJointConnectedBodyCommand :=
  ⟨handle, value⟩

def swap (c : SetJointConnectedBodyCommand) (ctx : SceneContext) :
    Option (SetJointConnectedBodyCommand × SceneContext) := do
  let phys := ctx.editor_scene.physics
  let j ← phys.joints.borrow c.handle
  let jp ← phys.joints.replace c.handle { j with body2 := c.value }
  return ({ c with value := j.body2 },
    ctx.withPhysics { phys with joints := jp })

def execute (c : SetJointConnectedBodyCommand) (ctx : SceneContext) :
    Option (SetJointConnectedBodyCommand × SceneContext) := swap c ctx

def revert (c : SetJointConnectedBodyCommand) (ctx : SceneContext) :
    Option (SetJointConnectedBodyCommand × SceneContext) := swap c ctx

def finalize (c : SetJointConnectedBodyCommand) (ctx : SceneContext) :
    Option (SetJointConnectedBodyCommand × SceneContext) := some (c, ctx)

end SetJointConnectedBodyCommand

/-- `DeleteSubGraphCommand`. -/
structure DeleteSubGraphCommand where
  sub_graph_root : PHandle
  sub_graph : Option SubGraph
  parent : PHandle
deriving DecidableEq, Repr

namespace DeleteSubGraphCommand

def new (sub_graph_root : PHandle) : DeleteSubGraphCommand :=
  ⟨sub_graph_root, none, PHandle.NONE⟩

def execute (c : DeleteSubGraphCommand) (fuel : Nat) (ctx : SceneContext) :
    Option (DeleteSubGraphCommand × SceneContext) := do
  let n ← ctx.scene.graph.borrow c.sub_graph_root
  let sg ← ctx.scene.graph.take_reserve_sub_graph fuel c.sub_graph_root
  return ({ c with parent := n.parent, sub_graph := some sg.1 },
    ctx.withGraph sg.2)

def revert (c : DeleteSubGraphCommand) (ctx : SceneContext) :
    Option (DeleteSubGraphCommand × SceneContext) := do
  let sg ← c.sub_graph
  let pr := ctx.scene.graph.put_sub_graph_back sg
  let g ← pr.2.link_nodes c.sub_graph_root c.parent
  return ({ c with sub_graph := none }, ctx.withGraph g)

def finalize (c : DeleteSubGraphCommand) (ctx : SceneContext) :
    Option (DeleteSubGraphCommand × SceneContext) :=
  match c.sub_graph with
  | some sg =>
      some ({ c with sub_graph := none },
        ctx.withGraph (ctx.scene.graph.forget_sub_graph sg))
  | none => some (c, ctx)

end DeleteSubGraphCommand

/-- The staged union of `PasteCommand`. -/
inductive PasteCommandState
  | Undefined
  | NonExecuted
  | Reverted (subgraphs : List SubGraph) (bodies : List (PTicket × RigidBody))
      (colliders : List (PTicket × Collider)) (joints : List (PTicket × Joint))
      (binder : List (PHandle × PHandle)) (selection : Selection)
  | Executed (paste_result : DeepCloneResult) (last_selection : Selection)
deriving DecidableEq, Repr

/-- `PasteCommand`. -/
structure PasteCommand where
  state : PasteCommandState
deriving DecidableEq, Repr

namespace PasteCommand

def new : PasteCommand := ⟨.NonExecuted⟩

def execute (c : PasteCommand) (fuel : Nat) (ctx : SceneContext) :
    Option (PasteCommand × SceneContext) :=
  match c.state with
  | .NonExecuted => do
    let pasted ← ctx.editor_scene.clipboard.paste ctx.scene.graph
      ctx.editor_scene.physics fuel
    let paste_result := pasted.1
    let selection := Selection.Graph (GraphSelection.from_list paste_result.root_nodes)
    let last := ctx.editor_scene.selection
    return ({ state := .Executed paste_result last },
      ((ctx.withGraph pasted.2.1).withPhysics pasted.2.2).withSelection selection)
  | .Reverted subgraphs bodies colliders joints binder selection =>
    let sgs := subgraphs.foldl
      (fun (st : List PHandle × Graph) sg =>
        let pr := st.2.put_sub_graph_back sg
        (st.1 ++ [pr.1], pr.2))
      ([], ctx.scene.graph)
    let bp := Pool.put_all ctx.editor_scene.physics.bodies bodies
    let cp := Pool.put_all ctx.editor_scene.physics.colliders colliders
    let jp := Pool.put_all ctx.editor_scene.physics.joints joints
    let binder1 := binder.foldl (fun (b : Binder) pr => b.insert pr.1 pr.2)
      ctx.editor_scene.physics.binder
    let paste_result : DeepCloneResult :=
      { root_nodes := sgs.1, bodies := bp.1, colliders := cp.1, joints := jp.1,
        binder := binder }
    let last := ctx.editor_scene.selection
    some ({ state := .Executed paste_result last },
      ((ctx.withGraph sgs.2).withPhysics
        { bodies := bp.2, colliders := cp.2, joints := jp.2,
          binder := binder1 }).withSelection selection)
  | _ => none  -- unreachable!()

def revert (c : PasteCommand) (fuel : Nat) (ctx : SceneContext) :
    Option (PasteCommand × SceneContext) :=
  -- the source replaces the state with Undefined and matches with
  -- `if let Executed {..}`: any other state is silently left as Undefined
  match c.state with
  | .Executed paste_result last_selection => do
    let sgs ← paste_result.root_nodes.foldlM
      (fun (st : List SubGraph × Graph) root => do
        let pr ← st.2.take_reserve_sub_graph fuel root
        return (st.1 ++ [pr.1], pr.2))
      ([], ctx.scene.graph)
    let bt ← Pool.take_all ctx.editor_scene.physics.bodies paste_result.bodies
    let ct ← Pool.take_all ctx.editor_scene.physics.colliders paste_result.colliders
    let jt ← Pool.take_all ctx.editor_scene.physics.joints paste_result.joints
    let binder1 := paste_result.binder.foldl
      (fun (b : Binder) pr => b.remove_by_key pr.1)
      ctx.editor_scene.physics.binder
    let selection := ctx.editor_scene.selection
    return ({ state := .Reverted sgs.1 bt.1 ct.1 jt.1 paste_result.binder selection },
      ((ctx.withGraph sgs.2).withPhysics
        { bodies := bt.2, colliders := ct.2, joints := jt.2,
          binder := binder1 }).withSelection last_selection)
  | _ => some ({ state := PasteCommandState.Undefined }, ctx)

def finalize (c : PasteCommand) (ctx : SceneContext) :
    Option (PasteCommand × SceneContext) :=
  match c.state with
  | .Reverted subgraphs bodies colliders joints _ _ =>
    let g := subgraphs.foldl (fun (g : Graph) sg => g.forget_sub_graph sg)
      ctx.scene.graph
    let phys := ctx.editor_scene.physics
    let bp := bodies.foldl (fun (p : Pool RigidBody) pr => p.forget_ticket pr.1)
      phys.bodies
    let cp := colliders.foldl (fun (p : Pool Collider) pr => p.forget_ticket pr.1)
      phys.colliders
    let jp := joints.foldl (fun (p : Pool Joint) pr => p.forget_ticket pr.1)
      phys.joints
    some ({ state := PasteCommandState.Undefined },
      (ctx.withGraph g).withPhysics
        { phys with bodies := bp, colliders := cp, joints := jp })
  | _ => some ({ state := PasteCommandState.Undefined }, ctx)

end PasteCommand

/-! ### The command union and its static dispatch

The `SceneCommand` enum of the source has ~90 variants; the union below
embeds the variants the verified claims touch.  The `CommandGroup`
variant is modelled by the separate `CommandGroup` composite below
(groups built by this module contain only leaf commands). -/

inductive SceneCommand
  | Paste (c : PasteCommand)
  | AddNode (c : AddNodeCommand)
  | ChangeSelection (c : ChangeSelectionCommand)
  | MoveNode (c : MoveNodeCommand)
  | AddJoint (c : AddJointCommand)
  | DeleteJoint (c : DeleteJointCommand)
  | SetJointConnectedBody (c : SetJointConnectedBodyCommand)
  | DeleteSubGraph (c : DeleteSubGraphCommand)
  | DeleteBody (c : DeleteBodyCommand)
  | DeleteCollider (c : DeleteColliderCommand)
  | AddNavmesh (c : AddNavmeshCommand)
  | AddNavmeshEdge (c : AddNavmeshEdgeCommand)
  | DeleteNavmeshVertex (c : DeleteNavmeshVertexCommand)
  | ConnectNavmeshEdges (c : ConnectNavmeshEdgesCommand)
deriving DecidableEq, Repr

namespace SceneCommand

/-- `static_dispatch!` for `execute`. -/
def execute (fuel : Nat) : SceneCommand → SceneContext →
    Option (SceneCommand × SceneContext)
  | .Paste c, ctx => (c.execute fuel ctx).map (fun pr => (.Paste pr.1, pr.2))
  | .AddNode c, ctx => (c.execute ctx).map (fun pr => (.AddNode pr.1, pr.2))
  | .ChangeSelection c, ctx => (c.execute ctx).map (fun pr => (.ChangeSelection pr.1, pr.2))
  | .MoveNode c, ctx => (c.execute ctx).map (fun pr => (.MoveNode pr.1, pr.2))
  | .AddJoint c, ctx => (c.execute ctx).map (fun pr => (.AddJoint pr.1, pr.2))
  | .DeleteJoint c, ctx => (c.execute ctx).map (fun pr => (.DeleteJoint pr.1, pr.2))
  | .SetJointConnectedBody c, ctx =>
      (c.execute ctx).map (fun pr => (.SetJointConnectedBody pr.1, pr.2))
  | .DeleteSubGraph c, ctx => (c.execute fuel ctx).map (fun pr => (.DeleteSubGraph pr.1, pr.2))
  | .DeleteBody c, ctx => (c.execute ctx).map (fun pr => (.DeleteBody pr.1, pr.2))
  | .DeleteCollider c, ctx => (c.execute ctx).map (fun pr => (.DeleteCollider pr.1, pr.2))
  | .AddNavmesh c, ctx => (c.execute ctx).map (fun pr => (.AddNavmesh pr.1, pr.2))
  | .AddNavmeshEdge c, ctx => (c.execute ctx).map (fun pr => (.AddNavmeshEdge pr.1, pr.2))
  | .DeleteNavmeshVertex c, ctx =>
      (c.execute ctx).map (fun pr => (.DeleteNavmeshVertex pr.1, pr.2))
  | .ConnectNavmeshEdges c, ctx =>
      (c.execute ctx).map (fun pr => (.ConnectNavmeshEdges pr.1, pr.2))

/-- `static_dispatch!` for `revert`. -/
def revert (fuel : Nat) : SceneCommand → SceneContext →
    Option (SceneCommand × SceneContext)
  | .Paste c, ctx => (c.revert fuel ctx).map (fun pr => (.Paste pr.1, pr.2))
  | .AddNode c, ctx => (c.revert ctx).map (fun pr => (.AddNode pr.1, pr.2))
  | .ChangeSelection c, ctx => (c.revert ctx).map (fun pr => (.ChangeSelection pr.1, pr.2))
  | .MoveNode c, ctx => (c.revert ctx).map (fun pr => (.MoveNode pr.1, pr.2))
  | .AddJoint c, ctx => (c.revert ctx).map (fun pr => (.AddJoint pr.1, pr.2))
  | .DeleteJoint c, ctx => (c.revert ctx).map (fun pr => (.DeleteJoint pr.1, pr.2))
  | .SetJointConnectedBody c, ctx =>
      (c.revert ctx).map (fun pr => (.SetJointConnectedBody pr.1, pr.2))
  | .DeleteSubGraph c, ctx => (c.revert ctx).map (fun pr => (.DeleteSubGraph pr.1, pr.2))
  | .DeleteBody c, ctx => (c.revert ctx).map (fun pr => (.DeleteBody pr.1, pr.2))
  | .DeleteCollider c, ctx => (c.revert ctx).map (fun pr => (.DeleteCollider pr.1, pr.2))
  | .AddNavmesh c, ctx => (c.revert ctx).map (fun pr => (.AddNavmesh pr.1, pr.2))
  | .AddNavmeshEdge c, ctx => (c.revert ctx).map (fun pr => (.AddNavmeshEdge pr.1, pr.2))
  | .DeleteNavmeshVertex c, ctx =>
      (c.revert ctx).map (fun pr => (.DeleteNavmeshVertex pr.1, pr.2))
  | .ConnectNavmeshEdges c, ctx =>
      (c.revert ctx).map (fun pr => (.ConnectNavmeshEdges pr.1, pr.2))

/-- `static_dispatch!` for `finalize`. -/
def finalize : SceneCommand → SceneContext → Option (SceneCommand × SceneContext)
  | .Paste c, ctx => (c.finalize ctx).map (fun pr => (.Paste pr.1, pr.2))
  | .AddNode c, ctx => (c.finalize ctx).map (fun pr => (.AddNode pr.1, pr.2))
  | .ChangeSelection c, ctx => (c.finalize ctx).map (fun pr => (.ChangeSelection pr.1, pr.2))
  | .MoveNode c, ctx => (c.finalize ctx).map (fun pr => (.MoveNode pr.1, pr.2))
  | .AddJoint c, ctx => (c.finalize ctx).map (fun pr => (.AddJoint pr.1, pr.2))
  | .DeleteJoint c, ctx => (c.finalize ctx).map (fun pr => (.DeleteJoint pr.1, pr.2))
  | .SetJointConnectedBody c, ctx =>
      (c.finalize ctx).map (fun pr => (.SetJointConnectedBody pr.1, pr.2))
  | .DeleteSubGraph c, ctx => (c.finalize ctx).map (fun pr => (.DeleteSubGraph pr.1, pr.2))
  | .DeleteBody c, ctx => (c.finalize ctx).map (fun pr => (.DeleteBody pr.1, pr.2))
  | .DeleteCollider c, ctx => (c.finalize ctx).map (fun pr => (.DeleteCollider pr.1, pr.2))
  | .AddNavmesh c, ctx => (c.finalize ctx).map (fun pr => (.AddNavmesh pr.1, pr.2))
  | .AddNavmeshEdge c, ctx => (c.finalize ctx).map (fun pr => (.AddNavmeshEdge pr.1, pr.2))
  | .DeleteNavmeshVertex c, ctx =>
      (c.finalize ctx).map (fun pr => (.DeleteNavmeshVertex pr.1, pr.2))
  | .ConnectNavmeshEdges c, ctx =>
      (c.finalize ctx).map (fun pr => (.ConnectNavmeshEdges pr.1, pr.2))

end SceneCommand

/-! ### Command group -/

/-- `CommandGroup`: an ordered composite of commands. -/
structure CommandGroup where
  commands : List SceneCommand
deriving DecidableEq, Repr

namespace CommandGroup

def from_vec (commands : List SceneCommand) : CommandGroup := ⟨commands⟩

def push (g : CommandGroup) (command : SceneCommand) : CommandGroup :=
  ⟨g.commands ++ [command]⟩

def is_empty (g : CommandGroup) : Bool := g.commands.isEmpty

/-- The `for cmd in self.commands.iter_mut() { cmd.execute(context) }`
loop: head of the list (the first pushed command) runs first. -/
def executeList (fuel : Nat) : List SceneCommand → SceneContext →
    Option (List SceneCommand × SceneContext)
  | [], ctx => some ([], ctx)
  | c :: cs, ctx =>
    match c.execute fuel ctx with
    | none => none
    | some (c1, ctx1) =>
      match executeList fuel cs ctx1 with
      | none => none
      | some (cs1, ctx2) => some (c1 :: cs1, ctx2)

/-- The `for cmd in self.commands.iter_mut().rev() { cmd.revert(context) }`
loop: the commands after the head run (in reverse order) before the head
does. -/
def revertList (fuel : Nat) : List SceneCommand → SceneContext →
    Option (List SceneCommand × SceneContext)
  | [], ctx => some ([], ctx)
  | c :: cs, ctx =>
    match revertList fuel cs ctx with
    | none => none
    | some (cs1, ctx1) =>
      match c.revert fuel ctx1 with
      | none => none
      | some (c1, ctx2) => some (c1 :: cs1, ctx2)

/-- The `for cmd in self.commands.drain(..) { cmd.finalize(context) }`
loop: every child is finalized once and dropped. -/
def finalizeList : List SceneCommand → SceneContext → Option SceneContext
  | [], ctx => some ctx
  | c :: cs, ctx =>
    match c.finalize ctx with
    | none => none
    | some (_, ctx1) => finalizeList cs ctx1

def execute (fuel : Nat) (g : CommandGroup) (ctx : SceneContext) :
    Option (CommandGroup × SceneContext) :=
  (executeList fuel g.commands ctx).map (fun pr => (⟨pr.1⟩, pr.2))

def revert (fuel : Nat) (g : CommandGroup) (ctx : SceneContext) :
    Option (CommandGroup × SceneContext) :=
  (revertList fuel g.commands ctx).map (fun pr => (⟨pr.1⟩, pr.2))

def finalize (g : CommandGroup) (ctx : SceneContext) :
    Option (CommandGroup × SceneContext) :=
  (finalizeList g.commands ctx).map (fun ctx1 => (⟨[]⟩, ctx1))

end CommandGroup

/-- Specification-side sequencer (claim C2's wording): apply the given
per-command operation to each command of the list in the order the list
presents them, threading the context and collecting the updated commands
in processing order. -/
def runSeq (step : SceneCommand → SceneContext → Option (SceneCommand × SceneContext)) :
    List SceneCommand → SceneContext → Option (List SceneCommand × SceneContext)
  | [], ctx => some ([], ctx)
  | c :: cs, ctx =>
    match step c ctx with
    | none => none
    | some (c1, ctx1) =>
      match runSeq step cs ctx1 with
      | none => none
      | some (cs1, ctx2) => some (c1 :: cs1, ctx2)

/-! ### Composite delete builder (`make_delete_selection_command`) -/

/-- The physics deletion commands emitted for one visited node: delete
each collider of the bound body, then the body, then the joint owned by
the body (if any), then disconnect every joint whose connected body
(`body2`) is the deleted body. -/
def deletePhysicsSegment (editor_scene : EditorScene) (node : PHandle) :
    Option (List SceneCommand) :=
  match editor_scene.physics.binder.value_of node with
  | none => some []
  | some body =>
    match editor_scene.physics.bodies.borrow body with
    | none => none  -- `physics.bodies[body]` panics on a stale handle
    | some bv =>
      let colliderCmds := bv.colliders.map
        (fun collider => SceneCommand.DeleteCollider (DeleteColliderCommand.new collider))
      let joint := editor_scene.physics.find_joint body
      let jointCmds :=
        if joint.is_none then []
        else [SceneCommand.DeleteJoint (DeleteJointCommand.new joint)]
      let connCmds := (editor_scene.physics.joints.pair_iter.filter
          (fun pr => pr.2.body2 == body)).map
        (fun pr => SceneCommand.SetJointConnectedBody
          (SetJointConnectedBodyCommand.new pr.1 PHandle.NONE))
      some (colliderCmds ++ [SceneCommand.DeleteBody (DeleteBodyCommand.new body)]
        ++ jointCmds ++ connCmds)

/-- The `while let Some(node) = stack.pop()` walk of the delete builder:
emit the physics segment of the popped node and push its children. -/
def deleteWalk (editor_scene : EditorScene) (graph : Graph) :
    Nat → List PHandle → Option (List SceneCommand)
  | 0, _ => none
  | _ + 1, [] => some []
  | fuel + 1, node :: rest =>
    match deletePhysicsSegment editor_scene node with
    | none => none
    | some seg =>
      match graph.borrow node with
      | none => none
      | some n =>
        (deleteWalk editor_scene graph fuel (n.children.reverse ++ rest)).map
          (fun l => seg ++ l)

/-- `make_delete_selection_command`: one command group that clears the
selection, cascade-deletes bound physics entities over the whole selected
hierarchy and finally deletes one sub-graph per selection root.  The
source wraps the group in `SceneCommand::CommandGroup`; the group itself
is returned here. -/
def make_delete_selection_command (editor_scene : EditorScene) (graph : Graph)
    (fuel : Nat) : Option CommandGroup := do
  let selection0 := match editor_scene.selection with
    | Selection.Graph s => s
    | _ => ⟨[]⟩
  -- the graph's root is non-deletable: drop its (first) occurrence
  let selection := match selection0.nodes.findIdx? (fun n => n == graph.get_root) with
    | some root_position => GraphSelection.mk (selection0.nodes.eraseIdx root_position)
    | none => selection0
  let changeSel := SceneCommand.ChangeSelection
    (ChangeSelectionCommand.new Selection.None (Selection.Graph selection))
  let root_nodes ← selection.root_nodes graph fuel
  let physCmds ← deleteWalk editor_scene graph fuel root_nodes.reverse
  let subCmds := root_nodes.map
    (fun r => SceneCommand.DeleteSubGraph (DeleteSubGraphCommand.new r))
  return ⟨changeSel :: (physCmds ++ subCmds)⟩

/-! ### Pre-save validation (`EditorScene::save`) -/

/-- The node-lookup of the validation loop: the first binder entry whose
body equals the joint's `body1` (there is at most one), or `NONE`. -/
def associatedNodeOf (physics : Physics) (joint : Joint) : PHandle :=
  match physics.binder.forward_map.find? (fun pr => pr.2 == joint.body1) with
  | some pr => pr.1
  | none => PHandle.NONE

/-- The `writeln!` line emitted for one offending joint, identifying it by
the owning node's name and handle; `none` when the graph lookup of the
associated node panics (stale or NONE handle). -/
def invalidJointLine (graph : Graph) (associated_node : PHandle) : Option String :=
  match graph.borrow associated_node with
  | none => none
  | some n =>
      some ("Invalid joint on node " ++ n.name ++ " ("
        ++ toString associated_node.index ++ ":"
        ++ toString associated_node.generation
        ++ "). Associated body is missing!\n")

/-- The validation loop of `EditorScene::save`: scan every live joint,
accumulating one line per joint with a missing body. -/
def EditorScene.validate_joints (es : EditorScene) (graph : Graph) :
    Option (Bool × String) :=
  es.physics.joints.pair_iter.foldlM
    (fun (st : Bool × String) pr =>
      let joint := pr.2
      if joint.body1.is_none || joint.body2.is_none then
        (invalidJointLine graph (associatedNodeOf es.physics joint)).map
          (fun line => (false, st.2 ++ line))
      else some st)
    (true, "Scene is not saved, because validation failed:\n")

inductive SaveOutcome
  | saved
  | refused (reason : String)
deriving DecidableEq, Repr

/-- `EditorScene::save` up to the validation decision.  The serialization
path (scene cloning, navmesh densification, binary visitor write) is an
external collaborator (spec section 6) and is abstracted to the `saved`
outcome; a failed validation refuses the save — nothing is written — with
the accumulated multi-line reason. -/
def EditorScene.save (es : EditorScene) (graph : Graph) : Option SaveOutcome :=
  match es.validate_joints graph with
  | none => none
  | some (true, _) => some SaveOutcome.saved
  | some (false, reason) =>
      some (SaveOutcome.refused (reason ++ "\nPlease fix errors and try again.\n"))

/-! ### Specification-side definitions and auxiliary observers -/

/-- The generation stored at a slot index (what `put_back` will stamp on
the handle it returns). -/
def Pool.genOf {T : Type} (p : Pool T) (i : Nat) : Option Nat :=
  (p.records[i]?).map PRecord.generation

/-- Read a node's local position out of a context. -/
def SceneContext.nodePosition (ctx : SceneContext) (h : PHandle) : Option Vector3 :=
  (ctx.scene.graph.borrow h).map Node.position

/-- Executability precondition of a `MoveNodeCommand` in a context: the
node is live, and the body it is bound to (if any) is live. -/
def moveCtxOk (node : PHandle) (ctx : SceneContext) : Bool :=
  (ctx.scene.graph.borrow node).isSome &&
    (match ctx.editor_scene.physics.binder.value_of node with
     | none => true
     | some body => (ctx.editor_scene.physics.bodies.borrow body).isSome)

/-- One strict execute/revert alternation round of a `MoveNodeCommand`. -/
def MoveNodeCommand.round (c : MoveNodeCommand) (ctx : SceneContext) :
    Option (MoveNodeCommand × SceneContext) :=
  match c.execute ctx with
  | none => none
  | some (c1, ctx1) => c1.revert ctx1

/-- Iterated strict execute/revert rounds. -/
def MoveNodeCommand.rounds : Nat → MoveNodeCommand → SceneContext →
    Option (MoveNodeCommand × SceneContext)
  | 0, c, ctx => some (c, ctx)
  | k + 1, c, ctx =>
    match c.round ctx with
    | none => none
    | some (c1, ctx1) => MoveNodeCommand.rounds k c1 ctx1

/-- Specification-side predicate (claim C7's wording): a joint with a
missing body. -/
def Joint.missing_body (j : Joint) : Bool := j.body1.is_none || j.body2.is_none

/-- The live joints of a scene that fail pre-save validation, in pool
order. -/
def offendingJoints (es : EditorScene) : List Joint :=
  (es.physics.joints.pair_iter.map Prod.snd).filter Joint.missing_body

/-- Specification-side shape of the refusal message (claim C7's wording):
the header, one descriptive line per offending joint in order, and the
closing advice. -/
def expectedSaveReason (es : EditorScene) (graph : Graph) : String :=
  "Scene is not saved, because validation failed:\n"
    ++ String.join ((offendingJoints es).map
        (fun j => (invalidJointLine graph (associatedNodeOf es.physics j)).getD ""))
    ++ "\nPlease fix errors and try again.\n"

/-- Executed-state test for `AddNavmeshEdgeCommandState`. -/
def AddNavmeshEdgeCommandState.isExecuted : AddNavmeshEdgeCommandState → Bool
  | .Executed _ _ => true
  | _ => false

/-- Executed-state test for `ConnectNavmeshEdgesCommandState`. -/
def ConnectNavmeshEdgesCommandState.isExecuted : ConnectNavmeshEdgesCommandState → Bool
  | .Executed _ => true
  | _ => false

/-- Executed-state test for `DeleteNavmeshVertexCommandState`. -/
def DeleteNavmeshVertexCommandState.isExecuted : DeleteNavmeshVertexCommandState → Bool
  | .Executed _ _ => true
  | _ => false

/-- Executed-state test for `PasteCommandState`. -/
def PasteCommandState.isExecuted : PasteCommandState → Bool
  | .Executed _ _ => true
  | _ => false

/-! ### Concrete fixtures used by witnesses and counterexamples -/

/-- An editor scene with nothing in it. -/
def emptyEditorScene : EditorScene :=
  ⟨PHandle.NONE, Selection.None, Clipboard.default_, Physics.default_, Pool.empty⟩

/-- A context over the empty editor scene and a fresh graph. -/
def emptyContext : SceneContext := ⟨emptyEditorScene, ⟨Graph.new⟩, []⟩

/-- A two-node graph: the root (handle (0,1)) with a single child named
"n" at handle (1,1). -/
def gFix : Graph :=
  ⟨⟨[⟨1, some ⟨"__ROOT__", PHandle.NONE, [⟨1, 1⟩], ⟨0, 0, 0⟩⟩⟩,
     ⟨1, some ⟨"n", ⟨0, 1⟩, [], ⟨0, 0, 0⟩⟩⟩], []⟩, ⟨0, 1⟩⟩

/-- A context over `gFix` with empty physics. -/
def ctxMove : SceneContext := ⟨emptyEditorScene, ⟨gFix⟩, []⟩

/-- An editor scene holding a single joint with both bodies missing and an
empty binder: validation's associated-node lookup stays at `NONE`. -/
def esJointPanic : EditorScene :=
  { emptyEditorScene with
    physics := ⟨Pool.empty, Pool.empty,
      ⟨[⟨1, some ⟨PHandle.NONE, PHandle.NONE⟩⟩], []⟩, ⟨[]⟩⟩ }

/-- An editor scene holding a single joint with both bodies missing, whose
binder associates the graph root with the joint's (absent) first body. -/
def esJointBound : EditorScene :=
  { emptyEditorScene with
    physics := ⟨Pool.empty, Pool.empty,
      ⟨[⟨1, some ⟨PHandle.NONE, PHandle.NONE⟩⟩], []⟩,
      ⟨[(⟨0, 1⟩, PHandle.NONE)]⟩⟩ }

/-! ## Theorems

First the generic pool lemmas: the behaviour of `spawn`, `take_reserve`,
`put_back` and `replace` on well-formed pools, expressed through `borrow`
(extensional liveness) and `genOf` (slot generations). -/

theorem getElem?_some_lt {α : Type} {l : List α} {i : Nat} {r : α}
    (h : l[i]? = some r) : i < l.length := by
  by_contra hc
  push_neg at hc
  rw [List.getElem?_eq_none hc] at h
  exact Option.noConfusion h

namespace Pool

variable {T : Type}

theorem borrow_of_records {p : Pool T} {h : PHandle} {v : T}
    (hr : p.records[h.index]? = some ⟨h.generation, some v⟩) :
    p.borrow h = some v := by
  simp [borrow, hr]

theorem borrow_congr {p p' : Pool T} {h : PHandle}
    (hr : p'.records[h.index]? = p.records[h.index]?) :
    p'.borrow h = p.borrow h := by
  simp [borrow, hr]

theorem borrow_none_of_vacant {p : Pool T} {h : PHandle}
    (hr : p.records[h.index]? = none ∨
      ∃ g, p.records[h.index]? = some ⟨g, none⟩) :
    p.borrow h = none := by
  rcases hr with hr | ⟨g, hr⟩
  · simp [borrow, hr]
  · simp only [borrow, hr]
    split <;> rfl

/-- A live handle's slot is not on the free stack. -/
theorem live_not_free {p : Pool T} {h : PHandle} {v : T} (hwf : p.WF)
    (hb : p.borrow h = some v) : h.index ∉ p.free := by
  intro hmem
  rcases hrec : p.records[h.index]? with _ | r
  · simp [borrow, hrec] at hb
  · have hvac := hwf.free_vacant h.index hmem r hrec
    simp only [borrow, hrec, hvac] at hb
    split at hb <;> exact Option.noConfusion hb

/-- Before a spawn, no handle pointing at the spawned slot is live. -/
theorem spawn_index_vacant {p : Pool T} {v : T} {h : PHandle} {p' : Pool T}
    (hwf : p.WF) (hs : p.spawn v = (h, p')) :
    ∀ h2 : PHandle, h2.index = h.index → p.borrow h2 = none := by
  intro h2 hidx
  rcases hfree : p.free with _ | ⟨i, rest⟩
  · simp only [spawn, hfree] at hs
    obtain ⟨rfl, rfl⟩ := Prod.mk.injEq .. ▸ hs
    apply borrow_none_of_vacant
    left
    rw [hidx]
    exact List.getElem?_eq_none (le_refl _)
  · simp only [spawn, hfree] at hs
    obtain ⟨rfl, rfl⟩ := Prod.mk.injEq .. ▸ hs
    have hi : i ∈ p.free := by rw [hfree]; exact List.mem_cons_self ..
    have hlt := hwf.free_lt i hi
    have hrec : p.records[i]? = some p.records[i] := List.getElem?_eq_getElem hlt
    apply borrow_none_of_vacant
    right
    refine ⟨(p.records[i]).generation, ?_⟩
    rw [hidx]
    rw [hrec]
    have := hwf.free_vacant i hi p.records[i] hrec
    cases hrr : p.records[i] with
    | mk g pl =>
      rw [hrr] at this
      simp at this
      simp [hrr, this]

/-- The spawned slot of the resulting pool. -/
theorem spawn_records_self {p : Pool T} {v : T} {h : PHandle} {p' : Pool T}
    (hwf : p.WF) (hs : p.spawn v = (h, p')) :
    p'.records[h.index]? = some ⟨h.generation, some v⟩ := by
  rcases hfree : p.free with _ | ⟨i, rest⟩
  · simp only [spawn, hfree] at hs
    obtain ⟨rfl, rfl⟩ := Prod.mk.injEq .. ▸ hs
    simp
  · simp only [spawn, hfree] at hs
    obtain ⟨rfl, rfl⟩ := Prod.mk.injEq .. ▸ hs
    have hi : i ∈ p.free := by rw [hfree]; exact List.mem_cons_self ..
    have hlt := hwf.free_lt i hi
    exact List.getElem?_set_self (by simpa using hlt)

/-- Spawning leaves every other slot untouched. -/
theorem spawn_records_other {p : Pool T} {v : T} {h : PHandle} {p' : Pool T}
    (hs : p.spawn v = (h, p')) :
    ∀ i, i ≠ h.index → p'.records[i]? = p.records[i]? := by
  intro i hne
  rcases hfree : p.free with _ | ⟨j, rest⟩
  · simp only [spawn, hfree] at hs
    obtain ⟨rfl, rfl⟩ := Prod.mk.injEq .. ▸ hs
    have hne' : i ≠ p.records.length := by simpa using hne
    rcases Nat.lt_or_ge i p.records.length with hlt | hge
    · show (p.records ++ [(⟨1, some v⟩ : PRecord T)])[i]? = p.records[i]?
      rw [List.getElem?_append]
      simp [hlt]
    · have h1 : p.records.length ≤ i := hge
      have h2 : p.records[i]? = none := List.getElem?_eq_none h1
      have h3 : (p.records ++ [(⟨1, some v⟩ : PRecord T)]).length ≤ i := by
        simp only [List.length_append, List.length_singleton]
        omega
      show (p.records ++ [(⟨1, some v⟩ : PRecord T)])[i]? = p.records[i]?
      rw [h2, List.getElem?_eq_none h3]
  · simp only [spawn, hfree] at hs
    obtain ⟨rfl, rfl⟩ := Prod.mk.injEq .. ▸ hs
    exact List.getElem?_set_ne (fun hh => hne hh.symm)

theorem spawn_borrow_self {p : Pool T} {v : T} {h : PHandle} {p' : Pool T}
    (hwf : p.WF) (hs : p.spawn v = (h, p')) : p'.borrow h = some v :=
  borrow_of_records (spawn_records_self hwf hs)

theorem spawn_fresh {p : Pool T} {v : T} {h : PHandle} {p' : Pool T}
    (hwf : p.WF) (hs : p.spawn v = (h, p')) : p.borrow h = none :=
  spawn_index_vacant hwf hs h rfl

theorem spawn_borrow_other {p : Pool T} {v : T} {h : PHandle} {p' : Pool T}
    (hwf : p.WF) (hs : p.spawn v = (h, p')) :
    ∀ h2, h2 ≠ h → p'.borrow h2 = p.borrow h2 := by
  intro h2 hne
  rcases Decidable.em (h2.index = h.index) with hidx | hidx
  · have hgen : h2.generation ≠ h.generation := by
      intro hg
      exact hne (by cases h2; cases h; simp_all)
    have hbefore : p.borrow h2 = none := spawn_index_vacant hwf hs h2 hidx
    have hafter : p'.borrow h2 = none := by
      have hrec := spawn_records_self hwf hs
      simp only [borrow, hidx, hrec]
      rw [if_neg (fun hh => hgen hh.symm)]
    rw [hafter, hbefore]
  · exact borrow_congr (spawn_records_other hs h2.index hidx)

theorem spawn_WF {p : Pool T} {v : T} {h : PHandle} {p' : Pool T}
    (hwf : p.WF) (hs : p.spawn v = (h, p')) : p'.WF := by
  rcases hfree : p.free with _ | ⟨i, rest⟩
  · simp only [spawn, hfree] at hs
    obtain ⟨rfl, rfl⟩ := Prod.mk.injEq .. ▸ hs
    exact ⟨fun i hi => absurd hi (List.not_mem_nil i),
      List.nodup_nil,
      fun i hi => absurd hi (List.not_mem_nil i)⟩
  · simp only [spawn, hfree] at hs
    obtain ⟨rfl, rfl⟩ := Prod.mk.injEq .. ▸ hs
    have hnodup := hwf.free_nodup
    rw [hfree] at hnodup
    have hine : i ∉ rest := (List.nodup_cons.mp hnodup).1
    refine ⟨?_, (List.nodup_cons.mp hnodup).2, ?_⟩
    · intro j hj
      have : j ∈ p.free := by rw [hfree]; exact List.mem_cons_of_mem _ hj
      simpa using hwf.free_lt j this
    · intro j hj r hr
      have hji : j ≠ i := fun hh => hine (hh ▸ hj)
      rw [List.getElem?_set_ne (fun hh => hji hh.symm)] at hr
      have : j ∈ p.free := by rw [hfree]; exact List.mem_cons_of_mem _ hj
      exact hwf.free_vacant j this r hr

theorem spawn_free {p : Pool T} {v : T} {h : PHandle} {p' : Pool T}
    (hs : p.spawn v = (h, p')) :
    p'.free = p.free.tail := by
  rcases hfree : p.free with _ | ⟨i, rest⟩ <;>
    · simp only [spawn, hfree] at hs
      obtain ⟨rfl, rfl⟩ := Prod.mk.injEq .. ▸ hs
      rfl

/-- `take_reserve` on a live handle, fully evaluated. -/
theorem take_reserve_eq {p : Pool T} {h : PHandle} {v : T}
    (hb : p.borrow h = some v) :
    p.take_reserve h =
      some (⟨h.index⟩, v, ⟨p.records.set h.index ⟨h.generation, none⟩, p.free⟩) := by
  simp only [borrow] at hb
  rcases hrec : p.records[h.index]? with _ | r
  · rw [hrec] at hb; exact Option.noConfusion hb
  · rw [hrec] at hb
    rcases Decidable.em (r.generation = h.generation) with hg | hg
    · simp only [hg, if_true] at hb
      simp only [take_reserve, hrec, hg, if_true, hb]
    · simp [hg] at hb

theorem take_records_self {p : Pool T} {h : PHandle} {v : T}
    (hb : p.borrow h = some v) :
    (⟨p.records.set h.index ⟨h.generation, none⟩, p.free⟩ : Pool T).records[h.index]? =
      some ⟨h.generation, none⟩ := by
  have hlt : h.index < p.records.length := by
    simp only [borrow] at hb
    rcases hrec : p.records[h.index]? with _ | r
    · rw [hrec] at hb; exact Option.noConfusion hb
    · exact getElem?_some_lt hrec
  exact List.getElem?_set_self hlt

theorem take_borrow_self {p : Pool T} {h : PHandle} {v : T}
    (hb : p.borrow h = some v) :
    (⟨p.records.set h.index ⟨h.generation, none⟩, p.free⟩ : Pool T).borrow h = none := by
  apply borrow_none_of_vacant
  right
  exact ⟨h.generation, take_records_self hb⟩

theorem take_borrow_other {p : Pool T} {h : PHandle} {v : T}
    (hb : p.borrow h = some v) :
    ∀ h2, h2 ≠ h →
      (⟨p.records.set h.index ⟨h.generation, none⟩, p.free⟩ : Pool T).borrow h2 =
        p.borrow h2 := by
  intro h2 hne
  rcases Decidable.em (h2.index = h.index) with hidx | hidx
  · have hgen : h2.generation ≠ h.generation := by
      intro hg
      exact hne (by cases h2; cases h; simp_all)
    have hafter : (⟨p.records.set h.index ⟨h.generation, none⟩, p.free⟩ : Pool T).borrow h2 = none := by
      apply borrow_none_of_vacant
      right
      exact ⟨h.generation, by rw [hidx]; exact take_records_self hb⟩
    have hbefore : p.borrow h2 = none := by
      rcases hrec : p.records[h.index]? with _ | r
      · simp [borrow, hidx, hrec]
      · have hg : r.generation = h.generation := by
          by_contra hg
          simp [borrow, hrec, hg] at hb
        have hcond : ¬ (r.generation = h2.generation) := by
          rw [hg]; exact fun hh => hgen hh.symm
        simp only [borrow, hidx, hrec]
        rw [if_neg hcond]
    rw [hafter, hbefore]
  · exact borrow_congr (List.getElem?_set_ne (fun hh => hidx hh.symm))

theorem take_WF {p : Pool T} {h : PHandle} {v : T} (hwf : p.WF)
    (hb : p.borrow h = some v) :
    (⟨p.records.set h.index ⟨h.generation, none⟩, p.free⟩ : Pool T).WF := by
  refine ⟨?_, hwf.free_nodup, ?_⟩
  · intro i hi
    simpa using hwf.free_lt i hi
  · intro i hi r hr
    rcases Decidable.em (i = h.index) with hih | hih
    · have hlt : h.index < p.records.length := hih ▸ hwf.free_lt i hi
      rw [hih, List.getElem?_set_self hlt] at hr
      cases hr
      rfl
    · rw [List.getElem?_set_ne (fun hh => hih hh.symm)] at hr
      exact hwf.free_vacant i hi r hr

theorem take_genOf {p : Pool T} {h : PHandle} {v : T}
    (hb : p.borrow h = some v) :
    ∀ i, (⟨p.records.set h.index ⟨h.generation, none⟩, p.free⟩ : Pool T).genOf i =
      p.genOf i := by
  intro i
  rcases Decidable.em (i = h.index) with hih | hih
  · rw [hih]
    rcases hrec : p.records[h.index]? with _ | r
    · simp [borrow, hrec] at hb
    · have hg : r.generation = h.generation := by
        by_contra hg
        simp [borrow, hrec, hg] at hb
      simp only [genOf, take_records_self hb, hrec, Option.map_some]
      simp [hg]
  · simp only [genOf]
    rw [List.getElem?_set_ne (fun hh => hih hh.symm)]

/-- `put_back` into a reserved slot, fully evaluated. -/
theorem put_back_eq {p : Pool T} {t : PTicket} {g : Nat} {v : T}
    (hrec : p.records[t.index]? = some ⟨g, none⟩) :
    p.put_back t v =
      (⟨t.index, g⟩, ⟨p.records.set t.index ⟨g, some v⟩, p.free⟩) := by
  simp [put_back, List.getD, hrec]

theorem put_borrow_self {p : Pool T} {t : PTicket} {g : Nat} {v : T}
    (hrec : p.records[t.index]? = some ⟨g, none⟩) :
    (⟨p.records.set t.index ⟨g, some v⟩, p.free⟩ : Pool T).borrow ⟨t.index, g⟩ = some v := by
  apply borrow_of_records
  exact List.getElem?_set_self (getElem?_some_lt hrec)

theorem put_borrow_other {p : Pool T} {t : PTicket} {g : Nat} {v : T}
    (hrec : p.records[t.index]? = some ⟨g, none⟩) :
    ∀ h2, h2 ≠ (⟨t.index, g⟩ : PHandle) →
      (⟨p.records.set t.index ⟨g, some v⟩, p.free⟩ : Pool T).borrow h2 = p.borrow h2 := by
  intro h2 hne
  rcases Decidable.em (h2.index = t.index) with hidx | hidx
  · have hgen : h2.generation ≠ g := by
      intro hg
      exact hne (by cases h2; simp_all)
    have hafter :
        (⟨p.records.set t.index ⟨g, some v⟩, p.free⟩ : Pool T).borrow h2 = none := by
      simp only [borrow, hidx, List.getElem?_set_self (getElem?_some_lt hrec)]
      rw [if_neg (fun hh => hgen hh.symm)]
    have hbefore : p.borrow h2 = none := by
      apply borrow_none_of_vacant
      right
      exact ⟨g, by rw [hidx, hrec]⟩
    rw [hafter, hbefore]
  · exact borrow_congr (List.getElem?_set_ne (fun hh => hidx hh.symm))

theorem put_WF {p : Pool T} {t : PTicket} {g : Nat} {v : T} (hwf : p.WF)
    (hrec : p.records[t.index]? = some ⟨g, none⟩) (hnf : t.index ∉ p.free) :
    (⟨p.records.set t.index ⟨g, some v⟩, p.free⟩ : Pool T).WF := by
  refine ⟨?_, hwf.free_nodup, ?_⟩
  · intro i hi
    simpa using hwf.free_lt i hi
  · intro i hi r hr
    have hit : i ≠ t.index := fun hh => hnf (hh ▸ hi)
    rw [List.getElem?_set_ne (fun hh => hit hh.symm)] at hr
    exact hwf.free_vacant i hi r hr

/-- `replace` on a live handle, fully evaluated. -/
theorem replace_eq {p : Pool T} {h : PHandle} {w : T} (v : T)
    (hb : p.borrow h = some w) :
    p.replace h v = some ⟨p.records.set h.index ⟨h.generation, some v⟩, p.free⟩ := by
  simp only [borrow] at hb
  rcases hrec : p.records[h.index]? with _ | r
  · rw [hrec] at hb; exact Option.noConfusion hb
  · rw [hrec] at hb
    rcases Decidable.em (r.generation = h.generation) with hg | hg
    · simp only [hg, if_true] at hb
      simp only [replace, hrec, hg, if_true, hb]
    · simp [hg] at hb

theorem replace_borrow_self {p : Pool T} {h : PHandle} {w : T} {v : T}
    (hb : p.borrow h = some w) :
    (⟨p.records.set h.index ⟨h.generation, some v⟩, p.free⟩ : Pool T).borrow h = some v := by
  apply borrow_of_records
  have hlt : h.index < p.records.length := by
    simp only [borrow] at hb
    rcases hrec : p.records[h.index]? with _ | r
    · rw [hrec] at hb; exact Option.noConfusion hb
    · exact getElem?_some_lt hrec
  exact List.getElem?_set_self hlt

theorem replace_borrow_other {p : Pool T} {h : PHandle} {w : T} {v : T}
    (hb : p.borrow h = some w) :
    ∀ h2, h2 ≠ h →
      (⟨p.records.set h.index ⟨h.generation, some v⟩, p.free⟩ : Pool T).borrow h2 =
        p.borrow h2 := by
  intro h2 hne
  rcases Decidable.em (h2.index = h.index) with hidx | hidx
  · have hgen : h2.generation ≠ h.generation := by
      intro hg
      exact hne (by cases h2; cases h; simp_all)
    have hlt : h.index < p.records.length := by
      simp only [borrow] at hb
      rcases hrec : p.records[h.index]? with _ | r
      · rw [hrec] at hb; exact Option.noConfusion hb
      · exact getElem?_some_lt hrec
    have hafter :
        (⟨p.records.set h.index ⟨h.generation, some v⟩, p.free⟩ : Pool T).borrow h2 = none := by
      simp only [borrow, hidx, List.getElem?_set_self hlt]
      rw [if_neg (fun hh => hgen hh.symm)]
    have hbefore : p.borrow h2 = none := by
      rcases hrec : p.records[h.index]? with _ | r
      · simp [borrow, hidx, hrec]
      · have hg : r.generation = h.generation := by
          by_contra hg
          simp [borrow, hrec, hg] at hb
        have hcond : ¬ (r.generation = h2.generation) := by
          rw [hg]; exact fun hh => hgen hh.symm
        simp only [borrow, hidx, hrec]
        rw [if_neg hcond]
    rw [hafter, hbefore]
  · exact borrow_congr (List.getElem?_set_ne (fun hh => hidx hh.symm))

theorem replace_WF {p : Pool T} {h : PHandle} {w : T} {v : T} (hwf : p.WF)
    (hb : p.borrow h = some w) :
    (⟨p.records.set h.index ⟨h.generation, some v⟩, p.free⟩ : Pool T).WF := by
  have hnf := live_not_free hwf hb
  refine ⟨?_, hwf.free_nodup, ?_⟩
  · intro i hi
    simpa using hwf.free_lt i hi
  · intro i hi r hr
    have hit : i ≠ h.index := fun hh => hnf (hh ▸ hi)
    rw [List.getElem?_set_ne (fun hh => hit hh.symm)] at hr
    exact hwf.free_vacant i hi r hr

theorem replace_genOf {p : Pool T} {h : PHandle} {w : T} {v : T}
    (hb : p.borrow h = some w) :
    ∀ i, (⟨p.records.set h.index ⟨h.generation, some v⟩, p.free⟩ : Pool T).genOf i =
      p.genOf i := by
  intro i
  rcases Decidable.em (i = h.index) with hih | hih
  · rw [hih]
    rcases hrec : p.records[h.index]? with _ | r
    · simp [borrow, hrec] at hb
    · have hg : r.generation = h.generation := by
        by_contra hg
        simp [borrow, hrec, hg] at hb
      simp only [genOf, List.getElem?_set_self (getElem?_some_lt hrec), hrec,
        Option.map_some]
      simp [hg]
  · simp only [genOf]
    rw [List.getElem?_set_ne (fun hh => hih hh.symm)]

end Pool

/-! ### Claim C4 — selection equality -/

/-- C4 counterexample: the hand-written `GraphSelection` equality is a
subset test, not set equality — the selection `[ (1,1) ]` compares equal
to `[ (1,1), (2,1) ]` although the handle sets differ. -/
theorem C4_counterexample :
    (GraphSelection.from_list [⟨1, 1⟩]).eq
      (GraphSelection.from_list [⟨1, 1⟩, ⟨2, 1⟩]) = true ∧
    ((⟨2, 1⟩ : PHandle) ∈ (GraphSelection.from_list [⟨1, 1⟩, ⟨2, 1⟩]).nodes) ∧
    ((⟨2, 1⟩ : PHandle) ∉ (GraphSelection.from_list [⟨1, 1⟩]).nodes) := by
  decide

/-- C4 (amended): `GraphSelection::eq` returns true iff every handle of
the left selection occurs in the right one and a non-empty right side is
not faced by an empty left side; in particular `from_list [a, b]` equals
`from_list [b, a]` and an empty selection never equals a non-empty one
(in either direction).  The claim's "same set" characterization fails
(see the counterexample): equality is only a subset test. -/
theorem C4_graph_selection_eq_characterization :
    (∀ s1 s2 : GraphSelection, s1.eq s2 = true ↔
      ((∀ h ∈ s1.nodes, h ∈ s2.nodes) ∧ (s1.nodes = [] → s2.nodes = []))) ∧
    (∀ a b : PHandle,
      (GraphSelection.from_list [a, b]).eq (GraphSelection.from_list [b, a]) = true) ∧
    (∀ s1 s2 : GraphSelection, s1.nodes = [] → s2.nodes ≠ [] →
      s1.eq s2 = false ∧ s2.eq s1 = false) := by
  have hchar : ∀ s1 s2 : GraphSelection, s1.eq s2 = true ↔
      ((∀ h ∈ s1.nodes, h ∈ s2.nodes) ∧ (s1.nodes = [] → s2.nodes = [])) := by
    intro s1 s2
    rcases Decidable.em (s1.nodes = []) with h1 | h1
    · rcases Decidable.em (s2.nodes = []) with h2 | h2
      · simp [GraphSelection.eq, h1, h2]
      · have hne : s2.nodes.isEmpty = false := by
          cases hnn : s2.nodes with
          | nil => exact absurd hnn h2
          | cons a l => rfl
        simp [GraphSelection.eq, h1, hne, h2]
    · have hne : s1.nodes.isEmpty = false := by
        cases hnn : s1.nodes with
        | nil => exact absurd hnn h1
        | cons a l => rfl
      have hcond : (s1.nodes.isEmpty && !s2.nodes.isEmpty) = false := by
        rw [hne]; rfl
      simp only [GraphSelection.eq, hcond, Bool.false_eq_true, if_false]
      constructor
      · intro hall
        refine ⟨?_, fun hh => absurd hh h1⟩
        intro h hmem
        have := List.all_eq_true.mp hall h hmem
        obtain ⟨m, hm, hbeq⟩ := List.any_eq_true.mp this
        exact (beq_iff_eq.mp hbeq) ▸ hm
      · rintro ⟨hsub, _⟩
        apply List.all_eq_true.mpr
        intro h hmem
        apply List.any_eq_true.mpr
        exact ⟨h, hsub h hmem, beq_self_eq_true h⟩
  refine ⟨hchar, ?_, ?_⟩
  · intro a b
    apply (hchar _ _).mpr
    constructor
    · intro h hmem
      simp only [GraphSelection.from_list] at hmem ⊢
      rw [List.mem_filter] at hmem ⊢
      refine ⟨?_, hmem.2⟩
      have := hmem.1
      simp only [List.mem_cons, List.mem_singleton] at this ⊢
      tauto
    · intro hemp
      cases hfa : ((!PHandle.is_none a) : Bool) with
      | true =>
        exfalso
        have : a ∈ (GraphSelection.from_list [a, b]).nodes := by
          simp [GraphSelection.from_list, List.mem_filter, hfa]
        rw [hemp] at this
        exact List.not_mem_nil a this
      | false =>
        cases hfb : ((!PHandle.is_none b) : Bool) with
        | true =>
          exfalso
          have : b ∈ (GraphSelection.from_list [a, b]).nodes := by
            simp [GraphSelection.from_list, List.mem_filter, hfb]
          rw [hemp] at this
          exact List.not_mem_nil b this
        | false =>
          simp [GraphSelection.from_list, List.filter, hfa, hfb]
  · intro s1 s2 h1 h2
    constructor
    · have hne : s2.nodes.isEmpty = false := by
        cases hnn : s2.nodes with
        | nil => exact absurd hnn h2
        | cons a l => rfl
      simp [GraphSelection.eq, h1, hne]
    · rcases hnn : s2.nodes with _ | ⟨a, l⟩
      · exact absurd hnn h2
      · cases hval : s2.eq s1 with
        | false => rfl
        | true =>
          exfalso
          have := ((hchar s2 s1).mp hval).1
          have ha : a ∈ s2.nodes := by rw [hnn]; exact List.mem_cons_self ..
          have := this a ha
          rw [h1] at this
          exact List.not_mem_nil a this

/-- C4 witness: instantiating the amended characterization at concrete
selections. -/
theorem C4_witness :
    (GraphSelection.mk []).eq (GraphSelection.mk [⟨1, 1⟩]) = false ∧
    (GraphSelection.mk [⟨1, 1⟩]).eq (GraphSelection.mk []) = false :=
  C4_graph_selection_eq_characterization.2.2 ⟨[]⟩ ⟨[⟨1, 1⟩]⟩ rfl (by decide)

/-! ### Claim C2 — command group ordering -/

theorem runSeq_append (step : SceneCommand → SceneContext → Option (SceneCommand × SceneContext))
    (l1 l2 : List SceneCommand) (ctx : SceneContext) :
    runSeq step (l1 ++ l2) ctx =
      match runSeq step l1 ctx with
      | none => none
      | some (cs1, ctx1) =>
        match runSeq step l2 ctx1 with
        | none => none
        | some (cs2, ctx2) => some (cs1 ++ cs2, ctx2) := by
  induction l1 generalizing ctx with
  | nil =>
    simp only [List.nil_append, runSeq]
    rcases runSeq step l2 ctx with _ | ⟨cs2, ctx2⟩ <;> rfl
  | cons c cs ih =>
    rcases hc : step c ctx with _ | ⟨c1, ctx1⟩
    · simp only [List.cons_append, runSeq, hc]
    · simp only [List.cons_append, runSeq, hc, List.append_eq]
      rw [ih ctx1]
      rcases hr : runSeq step cs ctx1 with _ | ⟨cs1, ctx2⟩
      · simp [hr]
      · rcases hl : runSeq step l2 ctx2 with _ | ⟨cs2, ctx3⟩ <;> simp [hr, hl]

theorem executeList_eq_runSeq (fuel : Nat) (cs : List SceneCommand) (ctx : SceneContext) :
    CommandGroup.executeList fuel cs ctx = runSeq (SceneCommand.execute fuel) cs ctx := by
  induction cs generalizing ctx with
  | nil => rfl
  | cons c cs ih =>
    rcases hc : SceneCommand.execute fuel c ctx with _ | ⟨c1, ctx1⟩
    · simp only [CommandGroup.executeList, runSeq, hc]
    · simp only [CommandGroup.executeList, runSeq, hc]
      rw [ih ctx1]

theorem revertList_eq_runSeq (fuel : Nat) (cs : List SceneCommand) (ctx : SceneContext) :
    CommandGroup.revertList fuel cs ctx =
      (runSeq (SceneCommand.revert fuel) cs.reverse ctx).map
        (fun pr => (pr.1.reverse, pr.2)) := by
  induction cs generalizing ctx with
  | nil => rfl
  | cons c cs ih =>
    simp only [CommandGroup.revertList, List.reverse_cons]
    rw [runSeq_append, ih ctx]
    rcases hr : runSeq (SceneCommand.revert fuel) cs.reverse ctx with _ | ⟨cs1, ctx1⟩
    · rfl
    · rcases hc : SceneCommand.revert fuel c ctx1 with _ | ⟨c1, ctx2⟩ <;>
        simp [runSeq, hc]

theorem finalizeList_eq_runSeq (cs : List SceneCommand) (ctx : SceneContext) :
    CommandGroup.finalizeList cs ctx =
      (runSeq SceneCommand.finalize cs ctx).map (fun pr => pr.2) := by
  induction cs generalizing ctx with
  | nil => rfl
  | cons c cs ih =>
    rcases hc : SceneCommand.finalize c ctx with _ | ⟨c1, ctx1⟩
    · simp only [CommandGroup.finalizeList, runSeq, hc]
      rfl
    · simp only [CommandGroup.finalizeList, runSeq, hc]
      rw [ih ctx1]
      rcases hr : runSeq SceneCommand.finalize cs ctx1 with _ | ⟨cs1, ctx2⟩ <;>
        simp [hr]

/-- C2: a `CommandGroup` over children `[C1, ..., Cn]` executes each child
in original order C1..Cn, reverts each child in strictly reverse order
Cn..C1 (while keeping the stored children in their original positions),
and `finalize` finalizes every child exactly once, in order, draining the
group to empty. -/
theorem C2_command_group_order (fuel : Nat) (cs : List SceneCommand) (ctx : SceneContext) :
    CommandGroup.execute fuel ⟨cs⟩ ctx =
      (runSeq (SceneCommand.execute fuel) cs ctx).map (fun pr => (⟨pr.1⟩, pr.2)) ∧
    CommandGroup.revert fuel ⟨cs⟩ ctx =
      (runSeq (SceneCommand.revert fuel) cs.reverse ctx).map
        (fun pr => (⟨pr.1.reverse⟩, pr.2)) ∧
    CommandGroup.finalize ⟨cs⟩ ctx =
      (runSeq SceneCommand.finalize cs ctx).map (fun pr => (⟨[]⟩, pr.2)) := by
  refine ⟨?_, ?_, ?_⟩
  · simp only [CommandGroup.execute, executeList_eq_runSeq]
  · simp only [CommandGroup.revert, revertList_eq_runSeq]
    rcases runSeq (SceneCommand.revert fuel) cs.reverse ctx with _ | ⟨cs1, ctx1⟩ <;> rfl
  · simp only [CommandGroup.finalize, finalizeList_eq_runSeq]
    rcases runSeq SceneCommand.finalize cs ctx with _ | ⟨cs1, ctx1⟩ <;> rfl

/-! ### Claim C6 — revert outside the Executed state -/

/-- C6 counterexample: `PasteCommand::revert` called in the `NonExecuted`
state does NOT abort: the `if let Executed` around the body silently
swallows the broken alternation, returning normally with the command's
state replaced by `Undefined` and the context untouched. -/
theorem C6_counterexample :
    PasteCommand.revert ⟨PasteCommandState.NonExecuted⟩ 1 emptyContext =
      some (⟨PasteCommandState.Undefined⟩, emptyContext) := rfl

/-- C6 (amended): calling `revert` outside the `Executed` state aborts
with a panic-equivalent for the three staged navmesh commands
(`AddNavmeshEdge`, `ConnectNavmeshEdges`, `DeleteNavmeshVertex`, whose
transition tables end in `unreachable!()`), but `PasteCommand::revert`
instead returns normally, silently replacing the command's state with
`Undefined` and leaving the context unchanged. -/
theorem C6_staged_revert_guard :
    (∀ (c : AddNavmeshEdgeCommand) (ctx : SceneContext),
      c.state.isExecuted = false → c.revert ctx = none) ∧
    (∀ (c : ConnectNavmeshEdgesCommand) (ctx : SceneContext),
      c.state.isExecuted = false → c.revert ctx = none) ∧
    (∀ (c : DeleteNavmeshVertexCommand) (ctx : SceneContext),
      c.state.isExecuted = false → c.revert ctx = none) ∧
    (∀ (st : PasteCommandState) (fuel : Nat) (ctx : SceneContext),
      st.isExecuted = false →
        PasteCommand.revert ⟨st⟩ fuel ctx = some (⟨PasteCommandState.Undefined⟩, ctx)) := by
  refine ⟨?_, ?_, ?_, ?_⟩
  · intro c ctx hst
    rcases hb : ((swapSelectionIf c.select c.new_selection ctx).2).editor_scene.navmeshes.borrow c.navmesh with _ | nm
    · simp only [AddNavmeshEdgeCommand.revert, hb]
    · cases hstate : c.state with
      | Executed tr vr => rw [hstate] at hst; exact absurd hst (by simp [AddNavmeshEdgeCommandState.isExecuted])
      | Undefined => simp only [AddNavmeshEdgeCommand.revert, hb, hstate]
      | NonExecuted e => simp only [AddNavmeshEdgeCommand.revert, hb, hstate]
      | Reverted tr vr => simp only [AddNavmeshEdgeCommand.revert, hb, hstate]
  · intro c ctx hst
    rcases hb : ctx.editor_scene.navmeshes.borrow c.navmesh with _ | nm
    · simp [ConnectNavmeshEdgesCommand.revert, hb]
    · cases hstate : c.state with
      | Executed tr => rw [hstate] at hst; exact absurd hst (by simp [ConnectNavmeshEdgesCommandState.isExecuted])
      | Undefined => simp [ConnectNavmeshEdgesCommand.revert, hb, hstate]
      | NonExecuted e => simp [ConnectNavmeshEdgesCommand.revert, hb, hstate]
      | Reverted tr => simp [ConnectNavmeshEdgesCommand.revert, hb, hstate]
  · intro c ctx hst
    rcases hb : ctx.editor_scene.navmeshes.borrow c.navmesh with _ | nm
    · simp [DeleteNavmeshVertexCommand.revert, hb]
    · cases hstate : c.state with
      | Executed vt tr => rw [hstate] at hst; exact absurd hst (by simp [DeleteNavmeshVertexCommandState.isExecuted])
      | Undefined => simp [DeleteNavmeshVertexCommand.revert, hb, hstate]
      | NonExecuted v => simp [DeleteNavmeshVertexCommand.revert, hb, hstate]
      | Reverted v => simp [DeleteNavmeshVertexCommand.revert, hb, hstate]
  · intro st fuel ctx hst
    cases st with
    | Executed pr ls => exact absurd hst (by simp [PasteCommandState.isExecuted])
    | Undefined => rfl
    | NonExecuted => rfl
    | Reverted a b cc d e f => rfl

/-- C6 witness: the amended guard at concrete commands and contexts. -/
theorem C6_witness :
    AddNavmeshEdgeCommand.revert
      ⟨PHandle.NONE, ⟨PHandle.NONE, PHandle.NONE⟩,
        AddNavmeshEdgeCommandState.Undefined, false, Selection.None⟩
      emptyContext = none ∧
    ConnectNavmeshEdgesCommand.revert
      ⟨PHandle.NONE, ConnectNavmeshEdgesCommandState.Undefined⟩ emptyContext = none ∧
    DeleteNavmeshVertexCommand.revert
      ⟨PHandle.NONE, DeleteNavmeshVertexCommandState.NonExecuted PHandle.NONE⟩
      emptyContext = none ∧
    PasteCommand.revert ⟨PasteCommandState.Undefined⟩ 1 emptyContext =
      some (⟨PasteCommandState.Undefined⟩, emptyContext) :=
  ⟨C6_staged_revert_guard.1 _ _ rfl,
   C6_staged_revert_guard.2.1 _ _ rfl,
   C6_staged_revert_guard.2.2.1 _ _ rfl,
   C6_staged_revert_guard.2.2.2 _ _ _ rfl⟩

/-! ### Claim C10 — clipboard paste precondition -/

/-- C10: `Clipboard::paste` has the unstated precondition that the
clipboard is non-empty.  After default construction or `clear`, the
`assert_ne!(self.empty, true)` aborts the paste; after a successful
`fill_from_selection` the clipboard reports non-empty and `paste`
passes the assertion, proceeding to the deep clone of the holding root's
children. -/
theorem C10_clipboard_paste_guard :
    (∀ (g : Graph) (p : Physics) (fuel : Nat),
      Clipboard.default_.paste g p fuel = none) ∧
    (∀ (c : Clipboard) (g : Graph) (p : Physics) (fuel : Nat),
      (c.clear).paste g p fuel = none) ∧
    (∀ (c : Clipboard) (sel : GraphSelection) (sg : Graph) (ph : Physics)
        (fuel : Nat) (c' : Clipboard),
      c.fill_from_selection sel sg ph fuel = some c' →
        c'.is_empty = false ∧
        ∀ (dg : Graph) (dp : Physics) (fl : Nat),
          c'.paste dg dp fl =
            match c'.graph.borrow c'.graph.get_root with
            | none => none
            | some rootNode =>
                deep_clone_nodes rootNode.children c'.graph c'.physics dg dp fl) := by
  refine ⟨?_, ?_, ?_⟩
  · intro g p fuel
    rfl
  · intro c g p fuel
    rfl
  · intro c sel sg ph fuel c' hfill
    simp only [Clipboard.fill_from_selection, Clipboard.clear, bind, Option.bind] at hfill
    rcases hrn : sel.root_nodes sg fuel with _ | rn
    · simp only [hrn] at hfill
      exact Option.noConfusion hfill
    · simp only [hrn] at hfill
      rcases hdc : deep_clone_nodes rn sg ph Graph.new Physics.default_ fuel with _ | cloned
      · simp only [hdc] at hfill
        exact Option.noConfusion hfill
      · simp only [hdc, pure] at hfill
        cases hfill
        constructor
        · rfl
        · intro dg dp fl
          rfl

/-- C10 witness: filling the clipboard from the single-node selection of
`gFix` yields a non-empty clipboard. -/
theorem C10_witness :
    (Clipboard.default_.fill_from_selection (GraphSelection.from_list [⟨1, 1⟩]) gFix
      Physics.default_ 5).map Clipboard.is_empty = some false := by
  rcases hfill : Clipboard.default_.fill_from_selection (GraphSelection.from_list [⟨1, 1⟩])
      gFix Physics.default_ 5 with _ | c'
  · exact absurd hfill (by decide)
  · have h := (C10_clipboard_paste_guard.2.2 _ _ _ _ _ _ hfill).1
    simp [Clipboard.is_empty] at h
    simp [h, Clipboard.is_empty]

/-! ### Claim C8 — move command toggling -/

theorem moveSwap_involutive (c : MoveNodeCommand) : c.swap.2.swap.2 = c := by
  cases c
  rfl

theorem moveSwap_node (c : MoveNodeCommand) : c.swap.2.node = c.node := rfl

/-- Effect of one `execute` of a `MoveNodeCommand` on a context where the
node (and its bound body, if any) is live: the fields swap and the node's
local position becomes the stored new position; liveness is preserved and
the binder is untouched. -/
theorem move_execute_spec (c : MoveNodeCommand) (ctx : SceneContext)
    (hok : moveCtxOk c.node ctx = true) :
    ∃ ctx', c.execute ctx = some (c.swap.2, ctx') ∧
      ctx'.nodePosition c.node = some c.new_position ∧
      moveCtxOk c.node ctx' = true := by
  simp only [moveCtxOk, Bool.and_eq_true, Graph.borrow] at hok
  obtain ⟨hnode, hbody⟩ := hok
  rcases hn : ctx.scene.graph.pool.borrow c.node with _ | n
  · rw [hn] at hnode; exact absurd hnode (by simp)
  · have hrepl := Pool.replace_eq { n with position := c.new_position } hn
    have hgr : ctx.scene.graph.set_node_position c.node c.new_position =
        some ⟨⟨ctx.scene.graph.pool.records.set c.node.index
          ⟨c.node.generation, some { n with position := c.new_position }⟩,
          ctx.scene.graph.pool.free⟩, ctx.scene.graph.root⟩ := by
      simp only [Graph.set_node_position, hn, hrepl]
      rfl
    rcases hv : ctx.editor_scene.physics.binder.value_of c.node with _ | body
    · refine ⟨(ctx.withGraph ⟨⟨ctx.scene.graph.pool.records.set c.node.index
          ⟨c.node.generation, some { n with position := c.new_position }⟩,
          ctx.scene.graph.pool.free⟩, ctx.scene.graph.root⟩).withPhysics
          ctx.editor_scene.physics, ?_, ?_, ?_⟩
      · simp only [MoveNodeCommand.execute, MoveNodeCommand.set_position,
          MoveNodeCommand.swap, bind, Option.bind, hgr, hv]
        rfl
      · simp only [SceneContext.nodePosition, SceneContext.withPhysics,
          SceneContext.withGraph, Graph.borrow]
        rw [Pool.replace_borrow_self hn]
        rfl
      · simp only [moveCtxOk, SceneContext.withPhysics, SceneContext.withGraph,
          Graph.borrow, hv]
        rw [Pool.replace_borrow_self hn]
        rfl
    · simp only [hv] at hbody
      rcases hbv : ctx.editor_scene.physics.bodies.borrow body with _ | bv
      · simp only [hbv] at hbody
        exact absurd hbody (by simp)
      · have hbrepl := Pool.replace_eq { bv with position := c.new_position } hbv
        refine ⟨(ctx.withGraph ⟨⟨ctx.scene.graph.pool.records.set c.node.index
          ⟨c.node.generation, some { n with position := c.new_position }⟩,
          ctx.scene.graph.pool.free⟩, ctx.scene.graph.root⟩).withPhysics
          { ctx.editor_scene.physics with
              bodies := ⟨ctx.editor_scene.physics.bodies.records.set body.index
                ⟨body.generation, some { bv with position := c.new_position }⟩,
                ctx.editor_scene.physics.bodies.free⟩ }, ?_, ?_, ?_⟩
        · simp only [MoveNodeCommand.execute, MoveNodeCommand.set_position,
            MoveNodeCommand.swap, bind, Option.bind, hgr, hv, hbv, hbrepl]
          rfl
        · simp only [SceneContext.nodePosition, SceneContext.withPhysics,
            SceneContext.withGraph, Graph.borrow]
          rw [Pool.replace_borrow_self hn]
          rfl
        · simp only [moveCtxOk, SceneContext.withPhysics, SceneContext.withGraph,
            Graph.borrow, hv]
          rw [Pool.replace_borrow_self hn, Pool.replace_borrow_self hbv]
          rfl

theorem move_revert_eq_execute (c : MoveNodeCommand) (ctx : SceneContext) :
    c.revert ctx = c.execute ctx := rfl

/-- One round returns the command to its original field values. -/
theorem move_round_spec (c : MoveNodeCommand) (ctx : SceneContext)
    (hok : moveCtxOk c.node ctx = true) :
    ∃ ctx', c.round ctx = some (c, ctx') ∧ moveCtxOk c.node ctx' = true := by
  obtain ⟨ctxe, he, _, hoke⟩ := move_execute_spec c ctx hok
  have hoke' : moveCtxOk c.swap.2.node ctxe = true := by
    rw [moveSwap_node]; exact hoke
  obtain ⟨ctxr, hr, _, hokr⟩ := move_execute_spec c.swap.2 ctxe hoke'
  refine ⟨ctxr, ?_, ?_⟩
  · simp only [MoveNodeCommand.round, he, move_revert_eq_execute, hr,
      moveSwap_involutive]
  · rw [moveSwap_node] at hokr
    exact hokr

/-- C8: a `MoveNodeCommand` constructed with old position P0 and new
position P1 never drifts: any number of strict execute/revert rounds
leaves the command holding exactly (P0, P1); the next `execute` puts the
node at P1 and the matching `revert` puts it back at P0, with the
command's stored pair restored — the swap-based toggle keeps alternating
between exactly those two values. -/
theorem C8_move_node_toggle (k : Nat) (c : MoveNodeCommand) (ctx : SceneContext)
    (hok : moveCtxOk c.node ctx = true) :
    ∃ ctxk, MoveNodeCommand.rounds k c ctx = some (c, ctxk) ∧
      moveCtxOk c.node ctxk = true ∧
      ∃ ctxe, c.execute ctxk = some (c.swap.2, ctxe) ∧
        ctxe.nodePosition c.node = some c.new_position ∧
        ∃ ctxr, c.swap.2.revert ctxe = some (c, ctxr) ∧
          ctxr.nodePosition c.node = some c.old_position := by
  induction k generalizing ctx with
  | zero =>
    refine ⟨ctx, rfl, hok, ?_⟩
    obtain ⟨ctxe, he, hpos, hoke⟩ := move_execute_spec c ctx hok
    refine ⟨ctxe, he, hpos, ?_⟩
    have hoke' : moveCtxOk c.swap.2.node ctxe = true := by
      rw [moveSwap_node]; exact hoke
    obtain ⟨ctxr, hr, hposr, _⟩ := move_execute_spec c.swap.2 ctxe hoke'
    refine ⟨ctxr, ?_, ?_⟩
    · rw [move_revert_eq_execute, hr, moveSwap_involutive]
    · rw [moveSwap_node] at hposr
      exact hposr
  | succ k ih =>
    obtain ⟨ctx1, hround, hok1⟩ := move_round_spec c ctx hok
    obtain ⟨ctxk, hks, hokk, rest⟩ := ih ctx1 hok1
    refine ⟨ctxk, ?_, hokk, rest⟩
    simp only [MoveNodeCommand.rounds, hround, hks]

/-- C8 witness: the spec's scenario — node at (0,0,0), command
MoveNode(old=(0,0,0), new=(1,2,3)), two full rounds. -/
theorem C8_witness :
    (MoveNodeCommand.rounds 2
      (MoveNodeCommand.new ⟨1, 1⟩ ⟨0, 0, 0⟩ ⟨1, 2, 3⟩) ctxMove).isSome = true := by
  obtain ⟨ctxk, hk, _⟩ :=
    C8_move_node_toggle 2 (MoveNodeCommand.new ⟨1, 1⟩ ⟨0, 0, 0⟩ ⟨1, 2, 3⟩) ctxMove
      (by decide)
  rw [hk]
  rfl

/-! ### Claim C1 — cached handles survive the revert/redo round trip -/

theorem Pool.WF_of_free_nil {T : Type} {p : Pool T} (h : p.free = []) : p.WF :=
  ⟨by simp [h], by simp [h], by simp [h]⟩

/-- Linking a parentless live node under a live target node: full effect
on the pool. -/
theorem Graph.link_root_spec {pl : Pool Node} {u root child : PHandle} {cn rn : Node}
    (hwf : pl.WF) (hchild : pl.borrow child = some cn)
    (hparent : cn.parent = PHandle.NONE)
    (hroot : pl.borrow root = some rn) (hne : child ≠ root) :
    ∃ pl' : Pool Node,
      Graph.link_nodes ⟨pl, u⟩ child root = some ⟨pl', u⟩ ∧
      pl'.borrow child = some { cn with parent := root } ∧
      pl'.borrow root = some { rn with children := rn.children ++ [child] } ∧
      (∀ h2, h2 ≠ child → h2 ≠ root → pl'.borrow h2 = pl.borrow h2) ∧
      (∀ i, pl'.genOf i = pl.genOf i) ∧
      pl'.free = pl.free ∧ pl'.WF := by
  have hrne : root ≠ child := fun hh => hne hh.symm
  have hisnone : cn.parent.is_none = true := by
    simp [PHandle.is_none, hparent]
  -- unlink_internal: the no-op replace clearing the (already NONE) parent
  have h1 := Pool.replace_eq { cn with parent := PHandle.NONE } hchild
  have hb2c : (⟨pl.records.set child.index
      ⟨child.generation, some { cn with parent := PHandle.NONE }⟩, pl.free⟩ : Pool Node).borrow child =
      some { cn with parent := PHandle.NONE } := Pool.replace_borrow_self hchild
  have hb2r := Pool.replace_borrow_other (v := { cn with parent := PHandle.NONE }) hchild root hrne
  rw [hroot] at hb2r
  have hwf2 : (⟨pl.records.set child.index
      ⟨child.generation, some { cn with parent := PHandle.NONE }⟩, pl.free⟩ : Pool Node).WF :=
    Pool.replace_WF (v := { cn with parent := PHandle.NONE }) hwf hchild
  have hunlink : Graph.unlink_internal ⟨pl, u⟩ child =
      some ⟨⟨pl.records.set child.index
        ⟨child.generation, some { cn with parent := PHandle.NONE }⟩, pl.free⟩, u⟩ := by
    simp only [Graph.unlink_internal, hchild, hisnone, if_true, h1]
    rfl
  -- set the parent link on the child
  have h3 := Pool.replace_eq (p := ⟨pl.records.set child.index
      ⟨child.generation, some { cn with parent := PHandle.NONE }⟩, pl.free⟩)
    { cn with parent := root } hb2c
  have hb3c := Pool.replace_borrow_self (v := { cn with parent := root }) hb2c
  have hb3r := Pool.replace_borrow_other (v := { cn with parent := root }) hb2c root hrne
  rw [hb2r] at hb3r
  have hwf3 := Pool.replace_WF (v := { cn with parent := root }) hwf2 hb2c
  -- append the child to the target's child list
  have h4 := Pool.replace_eq (p := ⟨(pl.records.set child.index
        ⟨child.generation, some { cn with parent := PHandle.NONE }⟩).set child.index
        ⟨child.generation, some { cn with parent := root }⟩, pl.free⟩)
    { rn with children := rn.children ++ [child] } hb3r
  have hb4r := Pool.replace_borrow_self (v := { rn with children := rn.children ++ [child] }) hb3r
  have hb4c := Pool.replace_borrow_other (v := { rn with children := rn.children ++ [child] }) hb3r child hne
  rw [hb3c] at hb4c
  have hwf4 := Pool.replace_WF (v := { rn with children := rn.children ++ [child] }) hwf3 hb3r
  refine ⟨_, ?_, hb4c, hb4r, ?_, ?_, rfl, hwf4⟩
  · simp only [Graph.link_nodes, hunlink, hb2c, h3, hb3r, h4]
    rfl
  · intro h2 h2c h2r
    rw [Pool.replace_borrow_other (v := { rn with children := rn.children ++ [child] }) hb3r h2 h2r,
      Pool.replace_borrow_other (v := { cn with parent := root }) hb2c h2 h2c,
      Pool.replace_borrow_other (v := { cn with parent := PHandle.NONE }) hchild h2 h2c]
  · intro i
    rw [Pool.replace_genOf (v := { rn with children := rn.children ++ [child] }) hb3r i,
      Pool.replace_genOf (v := { cn with parent := root }) hb2c i,
      Pool.replace_genOf (v := { cn with parent := PHandle.NONE }) hchild i]

/-- Unlinking a node whose parent link points at a live node: full effect
on the pool. -/
theorem Graph.unlink_linked_spec {pl : Pool Node} {u parent child : PHandle} {cn pn : Node}
    (hwf : pl.WF) (hchild : pl.borrow child = some cn)
    (hparent : cn.parent = parent) (hpnotnone : parent ≠ PHandle.NONE)
    (hpn : pl.borrow parent = some pn) (hne : child ≠ parent) :
    ∃ pl' : Pool Node,
      Graph.unlink_internal ⟨pl, u⟩ child = some ⟨pl', u⟩ ∧
      pl'.borrow child = some { cn with parent := PHandle.NONE } ∧
      pl'.borrow parent = some { pn with children := pn.children.filter (fun c => c != child) } ∧
      (∀ h2, h2 ≠ child → h2 ≠ parent → pl'.borrow h2 = pl.borrow h2) ∧
      (∀ i, pl'.genOf i = pl.genOf i) ∧
      pl'.free = pl.free ∧ pl'.WF := by
  have hpne : parent ≠ child := fun hh => hne hh.symm
  have hisnone : parent.is_none = false := by
    simp [PHandle.is_none, hpnotnone]
  have h1 := Pool.replace_eq (p := pl)
    { pn with children := pn.children.filter (fun c => c != child) } hpn
  have hb2p := Pool.replace_borrow_self
    (v := { pn with children := pn.children.filter (fun c => c != child) }) hpn
  have hb2c := Pool.replace_borrow_other
    (v := { pn with children := pn.children.filter (fun c => c != child) }) hpn child hne
  rw [hchild] at hb2c
  have hwf2 := Pool.replace_WF
    (v := { pn with children := pn.children.filter (fun c => c != child) }) hwf hpn
  have h3 := Pool.replace_eq (p := ⟨pl.records.set parent.index
      ⟨parent.generation, some { pn with children := pn.children.filter (fun c => c != child) }⟩,
      pl.free⟩) { cn with parent := PHandle.NONE } hb2c
  have hb3c := Pool.replace_borrow_self (v := { cn with parent := PHandle.NONE }) hb2c
  have hb3p := Pool.replace_borrow_other (v := { cn with parent := PHandle.NONE }) hb2c parent hpne
  rw [hb2p] at hb3p
  have hwf3 := Pool.replace_WF (v := { cn with parent := PHandle.NONE }) hwf2 hb2c
  refine ⟨_, ?_, hb3c, hb3p, ?_, ?_, rfl, hwf3⟩
  · simp only [Graph.unlink_internal, hchild, hparent, hisnone, Bool.false_eq_true,
      if_false, hpn, h1, hb2c, h3]
    rfl
  · intro h2 h2c h2p
    rw [Pool.replace_borrow_other (v := { cn with parent := PHandle.NONE }) hb2c h2 h2c,
      Pool.replace_borrow_other
        (v := { pn with children := pn.children.filter (fun c => c != child) }) hpn h2 h2p]
  · intro i
    rw [Pool.replace_genOf (v := { cn with parent := PHandle.NONE }) hb2c i,
      Pool.replace_genOf
        (v := { pn with children := pn.children.filter (fun c => c != child) }) hpn i]

/-- C1: pool-backed add commands that cache their handle (`AddNode`,
`AddNavmesh`, `AddJoint`) survive strict execute/revert alternation: the
first `execute` spawns the value at some handle h, `revert` converts it
into a ticket, and the second `execute` restores the value via `put_back`
at a handle equal to h — the `assert_eq!(handle, self.handle)` in the
redo branch never fails. -/
theorem C1_pool_command_put_back_handle :
    (∀ (ctx : SceneContext) (n : Node),
      ctx.scene.graph.pool.WF →
      (∃ rn, ctx.scene.graph.pool.borrow ctx.scene.graph.root = some rn) →
      ctx.scene.graph.root ≠ PHandle.NONE →
      n.parent = PHandle.NONE →
      ∃ c1 ctx1 c2 ctx2 c3 ctx3,
        (AddNodeCommand.new n).execute ctx = some (c1, ctx1) ∧
        c1.revert ctx1 = some (c2, ctx2) ∧
        c2.execute ctx2 = some (c3, ctx3) ∧
        c3.handle = c1.handle) ∧
    (∀ (ctx : SceneContext) (nm : Navmesh),
      ctx.editor_scene.navmeshes.WF →
      ∃ c1 ctx1 c2 ctx2 c3 ctx3,
        (AddNavmeshCommand.new nm).execute ctx = some (c1, ctx1) ∧
        c1.revert ctx1 = some (c2, ctx2) ∧
        c2.execute ctx2 = some (c3, ctx3) ∧
        c3.handle = c1.handle) ∧
    (∀ (ctx : SceneContext) (j : Joint),
      ctx.editor_scene.physics.joints.WF →
      ∃ c1 ctx1 c2 ctx2 c3 ctx3,
        (AddJointCommand.new j).execute ctx = some (c1, ctx1) ∧
        c1.revert ctx1 = some (c2, ctx2) ∧
        c2.execute ctx2 = some (c3, ctx3) ∧
        c3.handle = c1.handle) := by
  refine ⟨?_, ?_, ?_⟩
  · -- AddNodeCommand
    rintro ctx n hwf ⟨rn, hroot⟩ hrootne hnp
    rcases hs : ctx.scene.graph.pool.spawn n with ⟨h, pl⟩
    have hfresh := Pool.spawn_fresh hwf hs
    have hplh : pl.borrow h = some n := Pool.spawn_borrow_self hwf hs
    have hwfpl := Pool.spawn_WF hwf hs
    have hhr : h ≠ ctx.scene.graph.root := by
      intro hh
      rw [hh, hroot] at hfresh
      exact Option.noConfusion hfresh
    have hplroot : pl.borrow ctx.scene.graph.root = some rn := by
      rw [Pool.spawn_borrow_other hwf hs _ (fun hh => hhr hh.symm), hroot]
    obtain ⟨pl4, hlink, hb4c, hb4r, hother4, hgen4, hfree4, hwf4⟩ :=
      Graph.link_root_spec (u := ctx.scene.graph.root) hwfpl hplh hnp hplroot hhr
    have hadd : ctx.scene.graph.add_node n = some (h, ⟨pl4, ctx.scene.graph.root⟩) := by
      simp only [Graph.add_node, hs, hlink]
      rfl
    have hexec1 : (AddNodeCommand.new n).execute ctx =
        some ({ AddNodeCommand.new n with node := none, handle := h },
          ctx.withGraph ⟨pl4, ctx.scene.graph.root⟩) := by
      simp only [AddNodeCommand.execute, AddNodeCommand.new, bind, Option.bind, hadd]
      rfl
    -- revert: unlink then reserve
    obtain ⟨pl5, hunlink, hb5c, hb5r, hother5, hgen5, hfree5, hwf5⟩ :=
      Graph.unlink_linked_spec (u := ctx.scene.graph.root) hwf4 hb4c rfl hrootne hb4r hhr
    have htake := Pool.take_reserve_eq hb5c
    have hgtake : Graph.take_reserve ⟨pl4, ctx.scene.graph.root⟩ h =
        some (⟨h.index⟩, { n with parent := PHandle.NONE },
          ⟨⟨pl5.records.set h.index ⟨h.generation, none⟩, pl5.free⟩, ctx.scene.graph.root⟩) := by
      simp only [Graph.take_reserve, hunlink, htake]
      rfl
    have hrevert : ({ AddNodeCommand.new n with node := none, handle := h }).revert
        (ctx.withGraph ⟨pl4, ctx.scene.graph.root⟩) =
        some ({ AddNodeCommand.new n with
            handle := h,
            ticket := some ⟨h.index⟩,
            node := some { n with parent := PHandle.NONE } },
          (ctx.withGraph ⟨pl4, ctx.scene.graph.root⟩).withGraph
            ⟨⟨pl5.records.set h.index ⟨h.generation, none⟩, pl5.free⟩, ctx.scene.graph.root⟩) := by
      simp only [AddNodeCommand.revert, AddNodeCommand.new, bind, Option.bind,
        SceneContext.withGraph, hgtake]
      rfl
    -- second execute: put the reserved slot back and re-link to the root
    have hrec6 : (⟨pl5.records.set h.index ⟨h.generation, none⟩, pl5.free⟩ : Pool Node).records[h.index]? =
        some ⟨h.generation, none⟩ := Pool.take_records_self hb5c
    have hput := Pool.put_back_eq (t := ⟨h.index⟩) (v := { n with parent := PHandle.NONE }) hrec6
    have hwf6 := Pool.take_WF hwf5 hb5c
    have hnotfree : h.index ∉ pl5.free := Pool.live_not_free hwf5 hb5c
    have hwf7 := Pool.put_WF (t := ⟨h.index⟩) (v := { n with parent := PHandle.NONE }) hwf6 hrec6 hnotfree
    have heta : (⟨h.index, h.generation⟩ : PHandle) = h := rfl
    have hb7c : (⟨(pl5.records.set h.index ⟨h.generation, none⟩).set h.index
        ⟨h.generation, some { n with parent := PHandle.NONE }⟩,
        pl5.free⟩ : Pool Node).borrow h = some { n with parent := PHandle.NONE } := by
      exact Pool.put_borrow_self (t := ⟨h.index⟩) (v := { n with parent := PHandle.NONE }) hrec6
    have hb7r : (⟨(pl5.records.set h.index ⟨h.generation, none⟩).set h.index
        ⟨h.generation, some { n with parent := PHandle.NONE }⟩,
        pl5.free⟩ : Pool Node).borrow ctx.scene.graph.root =
        some { rn with children := (rn.children ++ [h]).filter (fun c => c != h) } := by
      have h1 := Pool.put_borrow_other (t := ⟨h.index⟩) (v := { n with parent := PHandle.NONE }) hrec6
        ctx.scene.graph.root (fun hh => hhr hh.symm)
      rw [h1]
      have h2 := Pool.take_borrow_other hb5c ctx.scene.graph.root (fun hh => hhr hh.symm)
      rw [h2, hb5r]
    obtain ⟨pl8, hlink2, hb8c, hb8r, hother8, hgen8, hfree8, hwf8⟩ :=
      Graph.link_root_spec (u := ctx.scene.graph.root) hwf7 hb7c rfl hb7r hhr
    have hgput : Graph.put_back ⟨⟨pl5.records.set h.index ⟨h.generation, none⟩, pl5.free⟩,
        ctx.scene.graph.root⟩ ⟨h.index⟩
        { n with parent := PHandle.NONE } =
        some (h, ⟨pl8, ctx.scene.graph.root⟩) := by
      simp only [Graph.put_back, hput, heta, hlink2]
      rfl
    have hexec2 : ({ AddNodeCommand.new n with
        handle := h,
        ticket := some ⟨h.index⟩,
        node := some { n with parent := PHandle.NONE } }).execute
        ((ctx.withGraph ⟨pl4, ctx.scene.graph.root⟩).withGraph
          ⟨⟨pl5.records.set h.index ⟨h.generation, none⟩, pl5.free⟩, ctx.scene.graph.root⟩) =
        some ({ AddNodeCommand.new n with handle := h, node := none },
          (((ctx.withGraph ⟨pl4, ctx.scene.graph.root⟩).withGraph
            ⟨⟨pl5.records.set h.index ⟨h.generation, none⟩, pl5.free⟩,
              ctx.scene.graph.root⟩).withGraph ⟨pl8, ctx.scene.graph.root⟩)) := by
      simp only [AddNodeCommand.execute, bind, Option.bind, SceneContext.withGraph, hgput]
      simp [AddNodeCommand.new]
    exact ⟨_, _, _, _, _, _, hexec1, hrevert, hexec2, rfl⟩
  · -- AddNavmeshCommand
    intro ctx nm hwf
    rcases hs : ctx.editor_scene.navmeshes.spawn nm with ⟨h, p1⟩
    have hp1h : p1.borrow h = some nm := Pool.spawn_borrow_self hwf hs
    have hwf1 := Pool.spawn_WF hwf hs
    have htake := Pool.take_reserve_eq hp1h
    have hrec : (⟨p1.records.set h.index ⟨h.generation, none⟩, p1.free⟩ : Pool Navmesh).records[h.index]? =
        some ⟨h.generation, none⟩ := Pool.take_records_self hp1h
    have hput := Pool.put_back_eq (t := ⟨h.index⟩) (v := nm) hrec
    have hexec1 : (AddNavmeshCommand.new nm).execute ctx =
        some ({ AddNavmeshCommand.new nm with navmesh := none, handle := h },
          ctx.withNavmeshes p1) := by
      simp only [AddNavmeshCommand.execute, AddNavmeshCommand.new, bind, Option.bind, hs]
      rfl
    have hrevert : ({ AddNavmeshCommand.new nm with navmesh := none, handle := h }).revert
        (ctx.withNavmeshes p1) =
        some ({ AddNavmeshCommand.new nm with
            handle := h,
            ticket := some ⟨h.index⟩,
            navmesh := some nm },
          (ctx.withNavmeshes p1).withNavmeshes
            ⟨p1.records.set h.index ⟨h.generation, none⟩, p1.free⟩) := by
      simp only [AddNavmeshCommand.revert, bind, Option.bind, SceneContext.withNavmeshes, htake]
      rfl
    have hexec2 : ({ AddNavmeshCommand.new nm with
        handle := h,
        ticket := some ⟨h.index⟩,
        navmesh := some nm }).execute
        ((ctx.withNavmeshes p1).withNavmeshes
          ⟨p1.records.set h.index ⟨h.generation, none⟩, p1.free⟩) =
        some ({ AddNavmeshCommand.new nm with navmesh := none, handle := h },
          ((ctx.withNavmeshes p1).withNavmeshes
            ⟨p1.records.set h.index ⟨h.generation, none⟩, p1.free⟩).withNavmeshes
            ⟨(p1.records.set h.index ⟨h.generation, none⟩).set h.index
              ⟨h.generation, some nm⟩, p1.free⟩) := by
      simp only [AddNavmeshCommand.execute, bind, Option.bind, SceneContext.withNavmeshes, hput]
      simp [AddNavmeshCommand.new]
    exact ⟨_, _, _, _, _, _, hexec1, hrevert, hexec2, rfl⟩
  · -- AddJointCommand
    intro ctx j hwf
    rcases hs : ctx.editor_scene.physics.joints.spawn j with ⟨h, p1⟩
    have hp1h : p1.borrow h = some j := Pool.spawn_borrow_self hwf hs
    have htake := Pool.take_reserve_eq hp1h
    have hrec : (⟨p1.records.set h.index ⟨h.generation, none⟩, p1.free⟩ : Pool Joint).records[h.index]? =
        some ⟨h.generation, none⟩ := Pool.take_records_self hp1h
    have hput := Pool.put_back_eq (t := ⟨h.index⟩) (v := j) hrec
    have hexec1 : (AddJointCommand.new j).execute ctx =
        some ({ AddJointCommand.new j with joint := none, handle := h },
          ctx.withPhysics { ctx.editor_scene.physics with joints := p1 }) := by
      simp only [AddJointCommand.execute, AddJointCommand.new, bind, Option.bind, hs]
      rfl
    have hrevert : ({ AddJointCommand.new j with joint := none, handle := h }).revert
        (ctx.withPhysics { ctx.editor_scene.physics with joints := p1 }) =
        some ({ AddJointCommand.new j with
            handle := h,
            ticket := some ⟨h.index⟩,
            joint := some j },
          (ctx.withPhysics { ctx.editor_scene.physics with joints := p1 }).withPhysics
            { ctx.editor_scene.physics with
                joints := ⟨p1.records.set h.index ⟨h.generation, none⟩, p1.free⟩ }) := by
      simp only [AddJointCommand.revert, bind, Option.bind, SceneContext.withPhysics, htake]
      rfl
    have hexec2 : ({ AddJointCommand.new j with
        handle := h,
        ticket := some ⟨h.index⟩,
        joint := some j }).execute
        ((ctx.withPhysics { ctx.editor_scene.physics with joints := p1 }).withPhysics
          { ctx.editor_scene.physics with
              joints := ⟨p1.records.set h.index ⟨h.generation, none⟩, p1.free⟩ }) =
        some ({ AddJointCommand.new j with joint := none, handle := h },
          ((ctx.withPhysics { ctx.editor_scene.physics with joints := p1 }).withPhysics
            { ctx.editor_scene.physics with
                joints := ⟨p1.records.set h.index ⟨h.generation, none⟩, p1.free⟩ }).withPhysics
            { ctx.editor_scene.physics with
                joints := ⟨(p1.records.set h.index ⟨h.generation, none⟩).set h.index
                  ⟨h.generation, some j⟩, p1.free⟩ }) := by
      simp only [AddJointCommand.execute, bind, Option.bind, SceneContext.withPhysics, hput]
      simp [AddJointCommand.new]
    exact ⟨_, _, _, _, _, _, hexec1, hrevert, hexec2, rfl⟩

/-- C1 witness: the three add commands round-trip on a concrete context. -/
theorem C1_witness :
    ((AddNodeCommand.new (Node.base "w")).execute emptyContext).isSome = true ∧
    ((AddNavmeshCommand.new ⟨Pool.empty, Pool.empty⟩).execute emptyContext).isSome = true ∧
    ((AddJointCommand.new ⟨PHandle.NONE, PHandle.NONE⟩).execute emptyContext).isSome = true := by
  obtain ⟨ha, hb, hc⟩ := C1_pool_command_put_back_handle
  refine ⟨?_, ?_, ?_⟩
  · obtain ⟨c1, ctx1, c2, ctx2, c3, ctx3, he, _⟩ :=
      ha emptyContext (Node.base "w") (Pool.WF_of_free_nil rfl) ⟨Node.base "__ROOT__", rfl⟩
        (by decide) rfl
    rw [he]; rfl
  · obtain ⟨c1, ctx1, c2, ctx2, c3, ctx3, he, _⟩ :=
      hb emptyContext ⟨Pool.empty, Pool.empty⟩ (Pool.WF_of_free_nil rfl)
    rw [he]; rfl
  · obtain ⟨c1, ctx1, c2, ctx2, c3, ctx3, he, _⟩ :=
      hc emptyContext ⟨PHandle.NONE, PHandle.NONE⟩ (Pool.WF_of_free_nil rfl)
    rw [he]; rfl

/-! ### Claim C3 — navmesh edge addition under revert/redo -/

/-- Two distinct live handles occupy distinct slots. -/
theorem Pool.live_distinct_index {T : Type} {p : Pool T} {h1 h2 : PHandle} {w1 w2 : T}
    (hb1 : p.borrow h1 = some w1) (hb2 : p.borrow h2 = some w2) (hne : h1 ≠ h2) :
    h1.index ≠ h2.index := by
  intro hidx
  rcases hrec : p.records[h1.index]? with _ | r
  · simp [Pool.borrow, hrec] at hb1
  · have hg1 : r.generation = h1.generation := by
      by_contra hg
      simp [Pool.borrow, hrec, hg] at hb1
    have hg2 : r.generation = h2.generation := by
      by_contra hg
      rw [hidx] at hrec
      simp [Pool.borrow, hrec, hg] at hb2
    exact hne (by cases h1; cases h2; simp_all)

/-- Existential packaging of `take_reserve` on a live handle. -/
theorem Pool.take_reserve_spec {T : Type} {p : Pool T} {h : PHandle} {v : T}
    (hb : p.borrow h = some v) :
    ∃ p' : Pool T, p.take_reserve h = some (⟨h.index⟩, v, p') ∧
      p'.records[h.index]? = some ⟨h.generation, none⟩ ∧
      p'.borrow h = none ∧
      (∀ h2, h2 ≠ h → p'.borrow h2 = p.borrow h2) ∧
      (∀ i, i ≠ h.index → p'.records[i]? = p.records[i]?) ∧
      p'.free = p.free ∧ (p.WF → p'.WF) :=
  ⟨_, Pool.take_reserve_eq hb, Pool.take_records_self hb, Pool.take_borrow_self hb,
    Pool.take_borrow_other hb,
    fun i hi => List.getElem?_set_ne (fun hh => hi hh.symm),
    rfl, fun hwf => Pool.take_WF hwf hb⟩

/-- Existential packaging of `put_back` into a reserved slot. -/
theorem Pool.put_back_spec {T : Type} {p : Pool T} {i g : Nat} (v : T)
    (hrec : p.records[i]? = some ⟨g, none⟩) :
    ∃ p' : Pool T, p.put_back ⟨i⟩ v = (⟨i, g⟩, p') ∧
      p'.borrow ⟨i, g⟩ = some v ∧
      (∀ h2, h2 ≠ (⟨i, g⟩ : PHandle) → p'.borrow h2 = p.borrow h2) ∧
      (∀ j, j ≠ i → p'.records[j]? = p.records[j]?) ∧
      p'.free = p.free :=
  ⟨_, Pool.put_back_eq (t := ⟨i⟩) (v := v) hrec, Pool.put_borrow_self (t := ⟨i⟩) hrec,
    Pool.put_borrow_other (t := ⟨i⟩) hrec,
    fun j hj => List.getElem?_set_ne (fun hh => hj hh.symm),
    rfl⟩

/-- Existential packaging of `replace` on a live handle. -/
theorem Pool.replace_spec {T : Type} {p : Pool T} {h : PHandle} {w : T} (v : T)
    (hb : p.borrow h = some w) :
    ∃ p' : Pool T, p.replace h v = some p' ∧
      p'.borrow h = some v ∧
      (∀ h2, h2 ≠ h → p'.borrow h2 = p.borrow h2) ∧
      (∀ i, p'.genOf i = p.genOf i) ∧
      p'.free = p.free ∧ (p.WF → p'.WF) :=
  ⟨_, Pool.replace_eq v hb, Pool.replace_borrow_self hb, Pool.replace_borrow_other hb,
    Pool.replace_genOf hb, rfl, fun hwf => Pool.replace_WF (v := v) hwf hb⟩

/-- The conditional selection swap does not touch the navmesh pool. -/
theorem swapSelectionIf_navmeshes (b : Bool) (s : Selection) (ctx : SceneContext) :
    (swapSelectionIf b s ctx).2.editor_scene.navmeshes = ctx.editor_scene.navmeshes := by
  cases b <;> rfl

/-- C3: an `AddNavmeshEdgeCommand` in the `NonExecuted` state spawns, on
first execute, exactly two fresh vertices and two fresh triangles (every
other slot of the two pools is untouched); `revert` take-reserves exactly
those four entities, leaving both pools' live contents extensionally as
before the execute; from `Reverted`, a second execute restores, via
`put_back` of the saved tickets, handles identical to the first
execute's. -/
theorem C3_add_navmesh_edge_round_trip
    (ctx : SceneContext) (nmh : PHandle) (nm : Navmesh)
    (edge : NavmeshVertex × NavmeshVertex) (opp : NavmeshEdge) (select : Bool)
    (hnm : ctx.editor_scene.navmeshes.borrow nmh = some nm)
    (hwfv : nm.vertices.WF) (hwft : nm.triangles.WF) :
    ∃ (v1 v2 t1 t2 : PHandle) (c1 : AddNavmeshEdgeCommand) (ctx1 : SceneContext)
      (nm1 : Navmesh) (c2 : AddNavmeshEdgeCommand) (ctx2 : SceneContext)
      (nm2 : Navmesh) (c3 : AddNavmeshEdgeCommand) (ctx3 : SceneContext),
      (AddNavmeshEdgeCommand.new nmh edge opp select).execute ctx = some (c1, ctx1) ∧
      c1.state = AddNavmeshEdgeCommandState.Executed (t1, t2) (v1, v2) ∧
      v1 ≠ v2 ∧ t1 ≠ t2 ∧
      nm.vertices.borrow v1 = none ∧ nm.vertices.borrow v2 = none ∧
      nm.triangles.borrow t1 = none ∧ nm.triangles.borrow t2 = none ∧
      ctx1.editor_scene.navmeshes.borrow nmh = some nm1 ∧
      nm1.vertices.borrow v1 = some edge.1 ∧
      nm1.vertices.borrow v2 = some edge.2 ∧
      nm1.triangles.borrow t1 = some ⟨opp.begin, v1, opp.end_⟩ ∧
      nm1.triangles.borrow t2 = some ⟨v1, v2, opp.end_⟩ ∧
      (∀ h, h ≠ v1 → h ≠ v2 → nm1.vertices.borrow h = nm.vertices.borrow h) ∧
      (∀ h, h ≠ t1 → h ≠ t2 → nm1.triangles.borrow h = nm.triangles.borrow h) ∧
      c1.revert ctx1 = some (c2, ctx2) ∧
      ctx2.editor_scene.navmeshes.borrow nmh = some nm2 ∧
      (∀ h, nm2.vertices.borrow h = nm.vertices.borrow h) ∧
      (∀ h, nm2.triangles.borrow h = nm.triangles.borrow h) ∧
      c2.execute ctx2 = some (c3, ctx3) ∧
      c3.state = AddNavmeshEdgeCommandState.Executed (t1, t2) (v1, v2) := by
  -- first execute: four spawns
  rcases hs1 : nm.vertices.spawn edge.1 with ⟨v1, vp1⟩
  rcases hs2 : vp1.spawn edge.2 with ⟨v2, vp2⟩
  rcases hs3 : nm.triangles.spawn ⟨opp.begin, v1, opp.end_⟩ with ⟨t1, tp1⟩
  rcases hs4 : tp1.spawn ⟨v1, v2, opp.end_⟩ with ⟨t2, tp2⟩
  have hv1fresh := Pool.spawn_fresh hwfv hs1
  have hv1self := Pool.spawn_borrow_self hwfv hs1
  have hwfv1 := Pool.spawn_WF hwfv hs1
  have hv2fresh1 := Pool.spawn_fresh hwfv1 hs2
  have hv2self := Pool.spawn_borrow_self hwfv1 hs2
  have hwfv2 := Pool.spawn_WF hwfv1 hs2
  have hvne : v1 ≠ v2 := by
    intro hh
    rw [hh, hv2fresh1] at hv1self
    exact Option.noConfusion hv1self
  have hv2fresh : nm.vertices.borrow v2 = none := by
    rw [← Pool.spawn_borrow_other hwfv hs1 v2 (fun hh => hvne hh.symm), hv2fresh1]
  have hv1in2 : vp2.borrow v1 = some edge.1 := by
    rw [Pool.spawn_borrow_other hwfv1 hs2 v1 hvne, hv1self]
  have ht1fresh := Pool.spawn_fresh hwft hs3
  have ht1self := Pool.spawn_borrow_self hwft hs3
  have hwft1 := Pool.spawn_WF hwft hs3
  have ht2fresh1 := Pool.spawn_fresh hwft1 hs4
  have ht2self := Pool.spawn_borrow_self hwft1 hs4
  have hwft2 := Pool.spawn_WF hwft1 hs4
  have htne : t1 ≠ t2 := by
    intro hh
    rw [hh, ht2fresh1] at ht1self
    exact Option.noConfusion ht1self
  have ht2fresh : nm.triangles.borrow t2 = none := by
    rw [← Pool.spawn_borrow_other hwft hs3 t2 (fun hh => htne hh.symm), ht2fresh1]
  have ht1in2 : tp2.borrow t1 = some ⟨opp.begin, v1, opp.end_⟩ := by
    rw [Pool.spawn_borrow_other hwft1 hs4 t1 htne, ht1self]
  -- write the modified navmesh back into the navmesh pool
  obtain ⟨nms, hreq, hrself, hrother, hrgen, hrfree, hrwf⟩ :=
    Pool.replace_spec (⟨vp2, tp2⟩ : Navmesh) hnm
  have hexec1 : (AddNavmeshEdgeCommand.new nmh edge opp select).execute ctx =
      some (⟨nmh, opp, AddNavmeshEdgeCommandState.Executed (t1, t2) (v1, v2), select,
          (swapSelectionIf select
            (Selection.Navmesh (NavmeshSelection.new nmh [NavmeshEntity.Edge ⟨v1, v2⟩]))
            (ctx.withNavmeshes nms)).1⟩,
        (swapSelectionIf select
          (Selection.Navmesh (NavmeshSelection.new nmh [NavmeshEntity.Edge ⟨v1, v2⟩]))
          (ctx.withNavmeshes nms)).2) := by
    simp only [AddNavmeshEdgeCommand.execute, AddNavmeshEdgeCommand.new, bind, Option.bind,
      hnm, hs1, hs2, hs3, hs4, hreq]
    rfl
  have hnm1ctx1 : (swapSelectionIf select
      (Selection.Navmesh (NavmeshSelection.new nmh [NavmeshEntity.Edge ⟨v1, v2⟩]))
      (ctx.withNavmeshes nms)).2.editor_scene.navmeshes.borrow nmh =
      some (⟨vp2, tp2⟩ : Navmesh) := by
    rw [swapSelectionIf_navmeshes]
    exact hrself
  -- revert: four take_reserves in source order (triangles then vertices)
  obtain ⟨tpA, htaeq, htarec, htaself, htaother, htarecother, htafree, _⟩ :=
    Pool.take_reserve_spec ht1in2
  have ht2inA : tpA.borrow t2 = some ⟨v1, v2, opp.end_⟩ := by
    rw [htaother t2 (fun hh => htne hh.symm), ht2self]
  obtain ⟨tpB, htbeq, htbrec, htbself, htbother, htbrecother, htbfree, _⟩ :=
    Pool.take_reserve_spec ht2inA
  obtain ⟨vpA, hvaeq, hvarec, hvaself, hvaother, hvarecother, hvafree, _⟩ :=
    Pool.take_reserve_spec hv1in2
  have hv2inA : vpA.borrow v2 = some edge.2 := by
    rw [hvaother v2 (fun hh => hvne hh.symm), hv2self]
  obtain ⟨vpB, hvbeq, hvbrec, hvbself, hvbother, hvbrecother, hvbfree, _⟩ :=
    Pool.take_reserve_spec hv2inA
  obtain ⟨nms2, hr2eq, hr2self, hr2other, hr2gen, hr2free, _⟩ :=
    Pool.replace_spec (⟨vpB, tpB⟩ : Navmesh) hnm1ctx1
  have hrevert : (⟨nmh, opp, AddNavmeshEdgeCommandState.Executed (t1, t2) (v1, v2), select,
      (swapSelectionIf select
        (Selection.Navmesh (NavmeshSelection.new nmh [NavmeshEntity.Edge ⟨v1, v2⟩]))
        (ctx.withNavmeshes nms)).1⟩ : AddNavmeshEdgeCommand).revert
      (swapSelectionIf select
        (Selection.Navmesh (NavmeshSelection.new nmh [NavmeshEntity.Edge ⟨v1, v2⟩]))
        (ctx.withNavmeshes nms)).2 =
      some (⟨nmh, opp, AddNavmeshEdgeCommandState.Reverted
          ((⟨t1.index⟩, ⟨opp.begin, v1, opp.end_⟩), (⟨t2.index⟩, ⟨v1, v2, opp.end_⟩))
          ((⟨v1.index⟩, edge.1), (⟨v2.index⟩, edge.2)), select,
          (swapSelectionIf select
            (swapSelectionIf select
              (Selection.Navmesh (NavmeshSelection.new nmh [NavmeshEntity.Edge ⟨v1, v2⟩]))
              (ctx.withNavmeshes nms)).1
            (swapSelectionIf select
              (Selection.Navmesh (NavmeshSelection.new nmh [NavmeshEntity.Edge ⟨v1, v2⟩]))
              (ctx.withNavmeshes nms)).2).1⟩,
        ((swapSelectionIf select
            (swapSelectionIf select
              (Selection.Navmesh (NavmeshSelection.new nmh [NavmeshEntity.Edge ⟨v1, v2⟩]))
              (ctx.withNavmeshes nms)).1
            (swapSelectionIf select
              (Selection.Navmesh (NavmeshSelection.new nmh [NavmeshEntity.Edge ⟨v1, v2⟩]))
              (ctx.withNavmeshes nms)).2).2.withNavmeshes nms2)) := by
    have hbor : (swapSelectionIf select
        (swapSelectionIf select
          (Selection.Navmesh (NavmeshSelection.new nmh [NavmeshEntity.Edge ⟨v1, v2⟩]))
          (ctx.withNavmeshes nms)).1
        (swapSelectionIf select
          (Selection.Navmesh (NavmeshSelection.new nmh [NavmeshEntity.Edge ⟨v1, v2⟩]))
          (ctx.withNavmeshes nms)).2).2.editor_scene.navmeshes.borrow nmh =
        some (⟨vp2, tp2⟩ : Navmesh) := by
      rw [swapSelectionIf_navmeshes]
      exact hnm1ctx1
    have hrepl2 : (swapSelectionIf select
        (swapSelectionIf select
          (Selection.Navmesh (NavmeshSelection.new nmh [NavmeshEntity.Edge ⟨v1, v2⟩]))
          (ctx.withNavmeshes nms)).1
        (swapSelectionIf select
          (Selection.Navmesh (NavmeshSelection.new nmh [NavmeshEntity.Edge ⟨v1, v2⟩]))
          (ctx.withNavmeshes nms)).2).2.editor_scene.navmeshes.replace nmh
        (⟨vpB, tpB⟩ : Navmesh) = some nms2 := by
      rw [swapSelectionIf_navmeshes]
      exact hr2eq
    simp only [AddNavmeshEdgeCommand.revert, bind, Option.bind, hbor, htaeq, htbeq,
      hvaeq, hvbeq, hrepl2]
    rfl
  -- the pools are extensionally restored
  have hvrestore : ∀ h, vpB.borrow h = nm.vertices.borrow h := by
    intro h
    rcases Decidable.em (h = v1) with h1 | h1
    · subst h1
      rw [hvbother h hvne, hvaself, hv1fresh]
    · rcases Decidable.em (h = v2) with h2 | h2
      · subst h2
        rw [hvbself, hv2fresh]
      · rw [hvbother h h2, hvaother h h1,
          Pool.spawn_borrow_other hwfv1 hs2 h h2, Pool.spawn_borrow_other hwfv hs1 h h1]
  have htrestore : ∀ h, tpB.borrow h = nm.triangles.borrow h := by
    intro h
    rcases Decidable.em (h = t1) with h1 | h1
    · subst h1
      rw [htbother h htne, htaself, ht1fresh]
    · rcases Decidable.em (h = t2) with h2 | h2
      · subst h2
        rw [htbself, ht2fresh]
      · rw [htbother h h2, htaother h h1,
          Pool.spawn_borrow_other hwft1 hs4 h h2, Pool.spawn_borrow_other hwft hs3 h h1]
  -- second execute: four put_backs in source order (vertices then triangles)
  have hvdix : v1.index ≠ v2.index :=
    Pool.live_distinct_index hv1in2 hv2self hvne
  have htdix : t1.index ≠ t2.index :=
    Pool.live_distinct_index ht1in2 ht2self htne
  have hv1recB : vpB.records[v1.index]? = some ⟨v1.generation, none⟩ := by
    rw [hvbrecother v1.index hvdix]
    exact hvarec
  obtain ⟨vpC, hpceq, hpcself, hpcother, hpcrecother, hpcfree⟩ :=
    Pool.put_back_spec edge.1 hv1recB
  have hv2recC : vpC.records[v2.index]? = some ⟨v2.generation, none⟩ := by
    rw [hpcrecother v2.index (fun hh => hvdix hh.symm)]
    exact hvbrec
  obtain ⟨vpD, hpdeq, hpdself, hpdother, hpdrecother, hpdfree⟩ :=
    Pool.put_back_spec edge.2 hv2recC
  have ht1recB : tpB.records[t1.index]? = some ⟨t1.generation, none⟩ := by
    rw [htbrecother t1.index htdix]
    exact htarec
  obtain ⟨tpC, hqceq, hqcself, hqcother, hqcrecother, hqcfree⟩ :=
    Pool.put_back_spec (⟨opp.begin, v1, opp.end_⟩ : NavmeshTriangle) ht1recB
  have ht2recC : tpC.records[t2.index]? = some ⟨t2.generation, none⟩ := by
    rw [hqcrecother t2.index (fun hh => htdix hh.symm)]
    exact htbrec
  obtain ⟨tpD, hqdeq, hqdself, hqdother, hqdrecother, hqdfree⟩ :=
    Pool.put_back_spec (⟨v1, v2, opp.end_⟩ : NavmeshTriangle) ht2recC
  have hnm2ctx2 : ((swapSelectionIf select
      (swapSelectionIf select
        (Selection.Navmesh (NavmeshSelection.new nmh [NavmeshEntity.Edge ⟨v1, v2⟩]))
        (ctx.withNavmeshes nms)).1
      (swapSelectionIf select
        (Selection.Navmesh (NavmeshSelection.new nmh [NavmeshEntity.Edge ⟨v1, v2⟩]))
        (ctx.withNavmeshes nms)).2).2.withNavmeshes nms2).editor_scene.navmeshes.borrow nmh =
      some (⟨vpB, tpB⟩ : Navmesh) := hr2self
  obtain ⟨nms3, hr3eq, hr3self, hr3other, hr3gen, hr3free, _⟩ :=
    Pool.replace_spec (⟨vpD, tpD⟩ : Navmesh) hnm2ctx2
  have hveta : (⟨v1.index, v1.generation⟩ : PHandle) = v1 := rfl
  have hv2eta : (⟨v2.index, v2.generation⟩ : PHandle) = v2 := rfl
  have hteta : (⟨t1.index, t1.generation⟩ : PHandle) = t1 := rfl
  have ht2eta : (⟨t2.index, t2.generation⟩ : PHandle) = t2 := rfl
  have hpresv : ∀ h, h ≠ v1 → h ≠ v2 → vp2.borrow h = nm.vertices.borrow h := by
    intro h h1 h2
    rw [Pool.spawn_borrow_other hwfv1 hs2 h h2, Pool.spawn_borrow_other hwfv hs1 h h1]
  have hprest : ∀ h, h ≠ t1 → h ≠ t2 → tp2.borrow h = nm.triangles.borrow h := by
    intro h h1 h2
    rw [Pool.spawn_borrow_other hwft1 hs4 h h2, Pool.spawn_borrow_other hwft hs3 h h1]
  have hexec2 : AddNavmeshEdgeCommand.execute
      (⟨nmh, opp, AddNavmeshEdgeCommandState.Reverted
        ((⟨t1.index⟩, ⟨opp.begin, v1, opp.end_⟩), (⟨t2.index⟩, ⟨v1, v2, opp.end_⟩))
        ((⟨v1.index⟩, edge.1), (⟨v2.index⟩, edge.2)), select,
        (swapSelectionIf select
          (swapSelectionIf select
            (Selection.Navmesh (NavmeshSelection.new nmh [NavmeshEntity.Edge ⟨v1, v2⟩]))
            (ctx.withNavmeshes nms)).1
          (swapSelectionIf select
            (Selection.Navmesh (NavmeshSelection.new nmh [NavmeshEntity.Edge ⟨v1, v2⟩]))
            (ctx.withNavmeshes nms)).2).1⟩ : AddNavmeshEdgeCommand)
      ((swapSelectionIf select
          (swapSelectionIf select
            (Selection.Navmesh (NavmeshSelection.new nmh [NavmeshEntity.Edge ⟨v1, v2⟩]))
            (ctx.withNavmeshes nms)).1
          (swapSelectionIf select
            (Selection.Navmesh (NavmeshSelection.new nmh [NavmeshEntity.Edge ⟨v1, v2⟩]))
            (ctx.withNavmeshes nms)).2).2.withNavmeshes nms2) =
      some ((⟨nmh, opp, AddNavmeshEdgeCommandState.Executed (t1, t2) (v1, v2), select,
          (swapSelectionIf select
          (swapSelectionIf select
          (swapSelectionIf select
            (Selection.Navmesh (NavmeshSelection.new nmh [NavmeshEntity.Edge ⟨v1, v2⟩]))
            (ctx.withNavmeshes nms)).1
          (swapSelectionIf select
            (Selection.Navmesh (NavmeshSelection.new nmh [NavmeshEntity.Edge ⟨v1, v2⟩]))
            (ctx.withNavmeshes nms)).2).1
          (((swapSelectionIf select
          (swapSelectionIf select
            (Selection.Navmesh (NavmeshSelection.new nmh [NavmeshEntity.Edge ⟨v1, v2⟩]))
            (ctx.withNavmeshes nms)).1
          (swapSelectionIf select
            (Selection.Navmesh (NavmeshSelection.new nmh [NavmeshEntity.Edge ⟨v1, v2⟩]))
            (ctx.withNavmeshes nms)).2).2.withNavmeshes nms2).withNavmeshes nms3)).1⟩ : AddNavmeshEdgeCommand),
        (swapSelectionIf select
          (swapSelectionIf select
          (swapSelectionIf select
            (Selection.Navmesh (NavmeshSelection.new nmh [NavmeshEntity.Edge ⟨v1, v2⟩]))
            (ctx.withNavmeshes nms)).1
          (swapSelectionIf select
            (Selection.Navmesh (NavmeshSelection.new nmh [NavmeshEntity.Edge ⟨v1, v2⟩]))
            (ctx.withNavmeshes nms)).2).1
          (((swapSelectionIf select
          (swapSelectionIf select
            (Selection.Navmesh (NavmeshSelection.new nmh [NavmeshEntity.Edge ⟨v1, v2⟩]))
            (ctx.withNavmeshes nms)).1
          (swapSelectionIf select
            (Selection.Navmesh (NavmeshSelection.new nmh [NavmeshEntity.Edge ⟨v1, v2⟩]))
            (ctx.withNavmeshes nms)).2).2.withNavmeshes nms2).withNavmeshes nms3)).2) := by
    simp only [AddNavmeshEdgeCommand.execute, bind, Option.bind, hnm2ctx2, hpceq, hpdeq,
      hqceq, hqdeq, hveta, hv2eta, hteta, ht2eta, hr3eq]
    rfl
  exact ⟨v1, v2, t1, t2, _, _, ⟨vp2, tp2⟩, _, _, ⟨vpB, tpB⟩, _, _,
    hexec1, rfl, hvne, htne, hv1fresh, hv2fresh, ht1fresh, ht2fresh,
    hnm1ctx1, hv1in2, hv2self, ht1in2, ht2self, hpresv, hprest,
    hrevert, hr2self, hvrestore, htrestore, hexec2, rfl⟩

/-- C3 witness: on a concrete scene holding one empty navmesh at handle
(0,1), a fresh edge-addition command executes successfully. -/
theorem C3_witness :
    ((AddNavmeshEdgeCommand.new ⟨0, 1⟩ (⟨⟨0, 0, 0⟩⟩, ⟨⟨1, 0, 0⟩⟩) ⟨⟨2, 1⟩, ⟨3, 1⟩⟩
      false).execute
      (emptyContext.withNavmeshes ⟨[⟨1, some ⟨Pool.empty, Pool.empty⟩⟩], []⟩)).isSome = true := by
  obtain ⟨v1, v2, t1, t2, c1, ctx1, nm1, c2, ctx2, nm2, c3, ctx3, he, _⟩ :=
    C3_add_navmesh_edge_round_trip
      (emptyContext.withNavmeshes ⟨[⟨1, some ⟨Pool.empty, Pool.empty⟩⟩], []⟩)
      ⟨0, 1⟩ ⟨Pool.empty, Pool.empty⟩ (⟨⟨0, 0, 0⟩⟩, ⟨⟨1, 0, 0⟩⟩) ⟨⟨2, 1⟩, ⟨3, 1⟩⟩ false
      rfl (Pool.WF_of_free_nil rfl) (Pool.WF_of_free_nil rfl)
  rw [he]
  rfl

/-! ### Claim C7 — pre-save joint validation -/

/-- Appending the empty string is the identity. -/
theorem str_append_empty (s : String) : s ++ "" = s := by
  cases s with
  | mk d =>
    show String.mk (d ++ []) = String.mk d
    rw [List.append_nil]

/-- Prepending the empty string is the identity. -/
theorem str_empty_append (s : String) : "" ++ s = s := by
  cases s with
  | mk d => rfl

/-- String concatenation is associative. -/
theorem str_append_assoc (a b c : String) : a ++ b ++ c = a ++ (b ++ c) := by
  cases a with
  | mk x =>
    cases b with
    | mk y =>
      cases c with
      | mk z =>
        show String.mk (x ++ y ++ z) = String.mk (x ++ (y ++ z))
        rw [List.append_assoc]

/-- Folding concatenation over a list distributes over a prefix of the
accumulator. -/
theorem str_foldl_append (l : List String) : ∀ a b : String,
    l.foldl (fun x y => x ++ y) (a ++ b) = a ++ l.foldl (fun x y => x ++ y) b := by
  induction l with
  | nil => intro a b; rfl
  | cons c l ih =>
    intro a b
    show l.foldl _ (a ++ b ++ c) = a ++ l.foldl _ (b ++ c)
    rw [str_append_assoc]
    exact ih a (b ++ c)

/-- `String.join` unfolds on a cons cell. -/
theorem str_join_cons (a : String) (as : List String) :
    String.join (a :: as) = a ++ String.join as := by
  show as.foldl (fun x y => x ++ y) ("" ++ a) = a ++ String.join as
  rw [str_empty_append]
  have h := str_foldl_append as a ""
  rw [str_append_empty] at h
  exact h

/-- The validation fold of `EditorScene::save` over an explicit joint
list: provided every offending joint's associated-node lookup succeeds,
the fold returns the overall validity flag and accumulates one line per
offending joint in order. -/
theorem validateFold_spec (physics : Physics) (graph : Graph)
    (l : List (PHandle × Joint)) : ∀ (b : Bool) (s : String),
    (∀ j ∈ (l.map Prod.snd).filter Joint.missing_body,
        (invalidJointLine graph (associatedNodeOf physics j)).isSome = true) →
    l.foldlM
      (fun (st : Bool × String) pr =>
        let joint := pr.2
        if joint.body1.is_none || joint.body2.is_none then
          (invalidJointLine graph (associatedNodeOf physics joint)).map
            (fun line => (false, st.2 ++ line))
        else some st)
      (b, s) =
    some (b && ((l.map Prod.snd).filter Joint.missing_body).isEmpty,
      s ++ String.join (((l.map Prod.snd).filter Joint.missing_body).map
        (fun j => (invalidJointLine graph (associatedNodeOf physics j)).getD ""))) := by
  induction l with
  | nil =>
    intro b s _
    simp [List.foldlM, String.join, str_append_empty]
  | cons pr l ih =>
    intro b s hok
    by_cases hmiss : (pr.2.body1.is_none || pr.2.body2.is_none) = true
    · have hm : Joint.missing_body pr.2 = true := hmiss
      have hfc : ((pr :: l).map Prod.snd).filter Joint.missing_body
          = pr.2 :: (l.map Prod.snd).filter Joint.missing_body := by
        simp [List.filter_cons, hm]
      have hsome := hok pr.2 (by
        rw [hfc]
        exact List.mem_cons_self _ _)
      rcases hline : invalidJointLine graph (associatedNodeOf physics pr.2) with _ | line
      · rw [hline] at hsome
        exact absurd hsome (by simp)
      · have hok' : ∀ j ∈ (l.map Prod.snd).filter Joint.missing_body,
            (invalidJointLine graph (associatedNodeOf physics j)).isSome = true := by
          intro j hj
          exact hok j (by
            rw [hfc]
            exact List.mem_cons_of_mem _ hj)
        have ihh := ih false (s ++ line) hok'
        rw [hfc]
        simp only [List.foldlM]
        rw [if_pos hmiss, hline]
        simp only [Option.map, bind, Option.bind]
        simp only [Option.map, bind, Option.bind] at ihh
        rw [ihh]
        simp [str_join_cons, str_append_assoc, hline, List.isEmpty_cons]
    · have hm : (pr.2.body1.is_none || pr.2.body2.is_none) = false := by
        revert hmiss
        cases pr.2.body1.is_none || pr.2.body2.is_none <;> simp
      have hm' : Joint.missing_body pr.2 = false := hm
      have hfc : ((pr :: l).map Prod.snd).filter Joint.missing_body
          = (l.map Prod.snd).filter Joint.missing_body := by
        simp [List.filter_cons, hm']
      have hok' : ∀ j ∈ (l.map Prod.snd).filter Joint.missing_body,
          (invalidJointLine graph (associatedNodeOf physics j)).isSome = true := by
        intro j hj
        exact hok j (by
          rw [hfc]
          exact hj)
      have ihh := ih b s hok'
      rw [hfc]
      simp only [List.foldlM]
      rw [hm, if_neg (by simp)]
      simp only [bind, Option.bind]
      simp only [bind, Option.bind] at ihh
      rw [ihh]

/-- C7 counterexample: a joint with both bodies missing and an unbindable
associated node makes `save` panic (`graph[Handle::NONE]` in the
validation loop) instead of returning the accumulated error. -/
theorem C7_counterexample :
    offendingJoints esJointPanic ≠ [] ∧
    EditorScene.save esJointPanic Graph.new = none := by
  constructor
  · decide
  · rfl

/-- C7: provided every offending joint's associated node resolves to a
live graph node, `save` refuses with the accumulated multi-line reason —
one descriptive line per offending joint, identifying it by the owning
node's name and handle — and saves when no joint is offending. -/
theorem C7_save_validation (es : EditorScene) (graph : Graph)
    (hok : ∀ j ∈ offendingJoints es,
        (invalidJointLine graph (associatedNodeOf es.physics j)).isSome = true) :
    (offendingJoints es = [] → es.save graph = some SaveOutcome.saved) ∧
    (offendingJoints es ≠ [] →
      es.save graph = some (SaveOutcome.refused (expectedSaveReason es graph))) := by
  have hval : es.validate_joints graph =
      some ((offendingJoints es).isEmpty,
        "Scene is not saved, because validation failed:\n"
          ++ String.join ((offendingJoints es).map
            (fun j => (invalidJointLine graph (associatedNodeOf es.physics j)).getD ""))) :=
    validateFold_spec es.physics graph es.physics.joints.pair_iter true
      "Scene is not saved, because validation failed:\n" hok
  rcases hc : offendingJoints es with _ | ⟨j, js⟩
  · refine ⟨fun _ => ?_, fun hne => absurd rfl hne⟩
    rw [hc] at hval
    simp only [EditorScene.save, hval, List.isEmpty_nil]
  · refine ⟨fun h0 => absurd h0 (List.cons_ne_nil j js), fun _ => ?_⟩
    rw [hc] at hval
    simp only [EditorScene.save, hval, List.isEmpty_cons, expectedSaveReason, hc]

/-- C7 witness: one offending joint whose associated node is the graph
root; `save` refuses with the expected one-line reason. -/
theorem C7_witness :
    EditorScene.save esJointBound Graph.new =
      some (SaveOutcome.refused (expectedSaveReason esJointBound Graph.new)) := by
  obtain ⟨-, h2⟩ := C7_save_validation esJointBound Graph.new (by decide)
  exact h2 (by decide)

/-! ### Claim C9 — the delete-selection command builder -/

/-- Erasing the first `== r` position from a duplicate-free list removes
`r` entirely. -/
theorem eraseIdx_findIdx_root (r : PHandle) :
    ∀ (l : List PHandle), l.Nodup → ∀ i, l.findIdx? (fun n => n == r) = some i →
    r ∉ l.eraseIdx i := by
  intro l
  induction l with
  | nil =>
    intro _ i h
    simp [List.findIdx?] at h
  | cons a t ih =>
    intro hn i h
    have hcons : (a :: t).findIdx? (fun n => n == r)
        = if (a == r) = true then some 0
          else ((t.findIdx? (fun n => n == r)).map (· + 1)) := by
      simp [List.findIdx?_cons]
    rw [hcons] at h
    by_cases ha : (a == r) = true
    · rw [if_pos ha] at h
      have hi : i = 0 := (Option.some.inj h).symm
      subst hi
      have har : a = r := by simpa using ha
      show r ∉ t
      rw [← har]
      exact (List.nodup_cons.mp hn).1
    · rw [if_neg ha] at h
      rcases hft : t.findIdx? (fun n => n == r) with _ | j
      · rw [hft] at h
        simp at h
      · rw [hft] at h
        have hi : i = j + 1 := by simpa using h.symm
        subst hi
        show r ∉ a :: t.eraseIdx j
        intro hmem
        rcases List.mem_cons.mp hmem with hh | hh
        · have har : ¬ a = r := by simpa using ha
          exact har hh.symm
        · exact ih (List.nodup_cons.mp hn).2 j hft hh

/-- The accumulating fold of `root_nodes` only ever appends elements of
the iterated list: the appended part is a sublist. -/
theorem rootNodesFold_sublist (s : GraphSelection) (graph : Graph) (fuel : Nat) :
    ∀ (l : List PHandle) (acc out : List PHandle),
    l.foldlM
      (fun acc node =>
        Option.bind
          (s.nodes.foldlM
            (fun (d : Bool) other =>
              if d then pure true
              else graph.is_descendant_of fuel node other)
            false)
          (fun descendant => some (if descendant then acc else acc ++ [node])))
      acc = some out →
    ∃ chosen, out = acc ++ chosen ∧ List.Sublist chosen l := by
  intro l
  induction l with
  | nil =>
    intro acc out h
    have hout : acc = out := Option.some.inj h
    exact ⟨[], by rw [List.append_nil]; exact hout.symm, List.Sublist.refl []⟩
  | cons a t ih =>
    intro acc out h
    simp only [List.foldlM] at h
    rcases hd : s.nodes.foldlM
        (fun (d : Bool) other =>
          if d then pure true
          else graph.is_descendant_of fuel a other)
        false with _ | descendant
    · simp only [hd, bind, Option.bind] at h
      exact Option.noConfusion h
    · simp only [hd, bind, Option.bind] at h
      cases descendant
      · rw [if_neg (by decide : ¬ (false = true))] at h
        obtain ⟨chosen, hout, hsubl⟩ := ih (acc ++ [a]) out h
        refine ⟨a :: chosen, ?_, hsubl.cons₂ a⟩
        rw [hout, List.append_assoc]
        rfl
      · rw [if_pos rfl] at h
        obtain ⟨chosen, hout, hsubl⟩ := ih acc out h
        exact ⟨chosen, hout, hsubl.cons a⟩

/-- A successful delete walk is the concatenation of per-node physics
segments. -/
theorem deleteWalk_segments (es : EditorScene) (graph : Graph) :
    ∀ (fuel : Nat) (stack : List PHandle) (l : List SceneCommand),
    deleteWalk es graph fuel stack = some l →
    ∃ pairs : List (PHandle × List SceneCommand),
      (∀ pr ∈ pairs, deletePhysicsSegment es pr.1 = some pr.2) ∧
      l = (pairs.map Prod.snd).join := by
  intro fuel
  induction fuel with
  | zero =>
    intro stack l h
    simp [deleteWalk] at h
  | succ fuel ih =>
    intro stack l h
    rcases stack with _ | ⟨node, rest⟩
    · have hl : l = [] := (Option.some.inj h).symm
      refine ⟨[], ?_, by simp [hl]⟩
      intro pr hpr
      simp at hpr
    · simp only [deleteWalk] at h
      rcases hseg : deletePhysicsSegment es node with _ | seg
      · simp only [hseg] at h
        exact Option.noConfusion h
      · simp only [hseg] at h
        rcases hn : graph.borrow node with _ | n
        · simp only [hn] at h
          exact Option.noConfusion h
        · simp only [hn] at h
          rcases hrec : deleteWalk es graph fuel (n.children.reverse ++ rest) with _ | l2
          · rw [hrec] at h
            simp at h
          · rw [hrec] at h
            have hl : l = seg ++ l2 := by
              simpa using h.symm
            obtain ⟨pairs, hp, hj⟩ := ih (n.children.reverse ++ rest) l2 hrec
            refine ⟨(node, seg) :: pairs, ?_, ?_⟩
            · intro pr hpr
              rcases List.mem_cons.mp hpr with hh | hh
              · rw [hh]
                exact hseg
              · exact hp pr hh
            · simp [hl, hj]

/-- A per-node physics segment is either empty (unbound node) or the
collider deletions followed by the body deletion, the owned-joint
deletion and the connected-joint disconnections, in that order. -/
theorem deletePhysicsSegment_shape (es : EditorScene) (node : PHandle)
    (seg : List SceneCommand) (h : deletePhysicsSegment es node = some seg) :
    seg = [] ∨ ∃ body bv,
      es.physics.binder.value_of node = some body ∧
      es.physics.bodies.borrow body = some bv ∧
      seg = bv.colliders.map (fun collider => SceneCommand.DeleteCollider
          (DeleteColliderCommand.new collider))
        ++ [SceneCommand.DeleteBody (DeleteBodyCommand.new body)]
        ++ (if (es.physics.find_joint body).is_none then []
            else [SceneCommand.DeleteJoint (DeleteJointCommand.new
              (es.physics.find_joint body))])
        ++ (es.physics.joints.pair_iter.filter (fun pr => pr.2.body2 == body)).map
            (fun pr => SceneCommand.SetJointConnectedBody
              (SetJointConnectedBodyCommand.new pr.1 PHandle.NONE)) := by
  unfold deletePhysicsSegment at h
  rcases hb : es.physics.binder.value_of node with _ | body
  · simp only [hb] at h
    exact Or.inl (Option.some.inj h).symm
  · simp only [hb] at h
    rcases hbv : es.physics.bodies.borrow body with _ | bv
    · simp only [hbv] at h
      exact Option.noConfusion h
    · simp only [hbv] at h
      exact Or.inr ⟨body, bv, rfl, hbv, (Option.some.inj h).symm⟩

/-- C9 counterexample: a selection holding the graph root twice.  Only
the first occurrence is stripped, so the produced group deletes the
sub-graph rooted at the graph's own root node. -/
theorem C9_counterexample :
    make_delete_selection_command
      { emptyEditorScene with
        selection := Selection.Graph ⟨[(⟨0, 1⟩ : PHandle), ⟨0, 1⟩]⟩ }
      Graph.new 2 =
      some ⟨[SceneCommand.ChangeSelection
          (ChangeSelectionCommand.new Selection.None
            (Selection.Graph ⟨[(⟨0, 1⟩ : PHandle)]⟩)),
        SceneCommand.DeleteSubGraph (DeleteSubGraphCommand.new ⟨0, 1⟩)]⟩ ∧
    Graph.new.get_root = (⟨0, 1⟩ : PHandle) := ⟨rfl, rfl⟩

/-- Common assembly step of the delete-selection characterization, given
the stripped selection's properties and the two successful builder
stages. -/
theorem delete_selection_assembled (es : EditorScene) (graph : Graph) (fuel : Nat)
    (g : CommandGroup) (sel0 sel' : GraphSelection) (rn : List PHandle)
    (phys : List SceneCommand)
    (hrootmem : graph.get_root ∉ sel'.nodes) (hnd : sel'.nodes.Nodup)
    (hsub0 : sel'.nodes ⊆ sel0.nodes)
    (hrn : GraphSelection.root_nodes sel' graph fuel = some rn)
    (hpw : deleteWalk es graph fuel rn.reverse = some phys)
    (hgeq : g.commands = SceneCommand.ChangeSelection (ChangeSelectionCommand.new
        Selection.None (Selection.Graph sel'))
      :: (phys ++ rn.map (fun r => SceneCommand.DeleteSubGraph
          (DeleteSubGraphCommand.new r)))) :
    ∃ (sel : GraphSelection) (root_nodes : List PHandle) (phys : List SceneCommand)
      (pairs : List (PHandle × List SceneCommand)),
      GraphSelection.root_nodes sel graph fuel = some root_nodes ∧
      deleteWalk es graph fuel root_nodes.reverse = some phys ∧
      g.commands = SceneCommand.ChangeSelection (ChangeSelectionCommand.new
          Selection.None (Selection.Graph sel))
        :: (phys ++ root_nodes.map (fun r => SceneCommand.DeleteSubGraph
            (DeleteSubGraphCommand.new r))) ∧
      sel.nodes ⊆ sel0.nodes ∧ sel.nodes.Nodup ∧ graph.get_root ∉ sel.nodes ∧
      List.Sublist root_nodes sel.nodes ∧ root_nodes.Nodup ∧
      graph.get_root ∉ root_nodes ∧
      (∀ pr ∈ pairs, deletePhysicsSegment es pr.1 = some pr.2) ∧
      phys = (pairs.map Prod.snd).join ∧
      (∀ pr ∈ pairs, pr.2 = [] ∨ ∃ body bv,
        es.physics.binder.value_of pr.1 = some body ∧
        es.physics.bodies.borrow body = some bv ∧
        pr.2 = bv.colliders.map (fun collider => SceneCommand.DeleteCollider
            (DeleteColliderCommand.new collider))
          ++ [SceneCommand.DeleteBody (DeleteBodyCommand.new body)]
          ++ (if (es.physics.find_joint body).is_none then []
              else [SceneCommand.DeleteJoint (DeleteJointCommand.new
                (es.physics.find_joint body))])
          ++ (es.physics.joints.pair_iter.filter (fun pr2 => pr2.2.body2 == body)).map
              (fun pr2 => SceneCommand.SetJointConnectedBody
                (SetJointConnectedBodyCommand.new pr2.1 PHandle.NONE))) := by
  obtain ⟨pairs, hp, hj⟩ := deleteWalk_segments es graph fuel rn.reverse phys hpw
  have hsub : List.Sublist rn sel'.nodes := by
    obtain ⟨chosen, hout, hsubl⟩ := rootNodesFold_sublist sel' graph fuel sel'.nodes [] rn hrn
    have hrc : rn = chosen := by simpa using hout
    rw [hrc]
    exact hsubl
  exact ⟨sel', rn, phys, pairs, hrn, hpw, hgeq, hsub0, hnd, hrootmem, hsub,
    hsub.nodup hnd, fun hmem => hrootmem (hsub.subset hmem), hp, hj,
    fun pr hpr => deletePhysicsSegment_shape es pr.1 pr.2 (hp pr hpr)⟩

/-- C9: for a duplicate-free graph selection, the builder returns one
group headed by a selection-clearing `ChangeSelection`, followed by the
per-node physics cascades (each one: colliders of the bound body, then
the body, then its owned joint, then the disconnections of joints whose
connected body is the deleted body) and terminated by exactly one
`DeleteSubGraph` per selection root; the graph's root node is never among
the deleted roots. -/
theorem C9_delete_selection_structure (es : EditorScene) (graph : Graph) (fuel : Nat)
    (g : CommandGroup) (sel0 : GraphSelection)
    (hsel : es.selection = Selection.Graph sel0)
    (hns : sel0.nodes.Nodup)
    (hg : make_delete_selection_command es graph fuel = some g) :
    ∃ (sel : GraphSelection) (root_nodes : List PHandle) (phys : List SceneCommand)
      (pairs : List (PHandle × List SceneCommand)),
      GraphSelection.root_nodes sel graph fuel = some root_nodes ∧
      deleteWalk es graph fuel root_nodes.reverse = some phys ∧
      g.commands = SceneCommand.ChangeSelection (ChangeSelectionCommand.new
          Selection.None (Selection.Graph sel))
        :: (phys ++ root_nodes.map (fun r => SceneCommand.DeleteSubGraph
            (DeleteSubGraphCommand.new r))) ∧
      sel.nodes ⊆ sel0.nodes ∧ sel.nodes.Nodup ∧ graph.get_root ∉ sel.nodes ∧
      List.Sublist root_nodes sel.nodes ∧ root_nodes.Nodup ∧
      graph.get_root ∉ root_nodes ∧
      (∀ pr ∈ pairs, deletePhysicsSegment es pr.1 = some pr.2) ∧
      phys = (pairs.map Prod.snd).join ∧
      (∀ pr ∈ pairs, pr.2 = [] ∨ ∃ body bv,
        es.physics.binder.value_of pr.1 = some body ∧
        es.physics.bodies.borrow body = some bv ∧
        pr.2 = bv.colliders.map (fun collider => SceneCommand.DeleteCollider
            (DeleteColliderCommand.new collider))
          ++ [SceneCommand.DeleteBody (DeleteBodyCommand.new body)]
          ++ (if (es.physics.find_joint body).is_none then []
              else [SceneCommand.DeleteJoint (DeleteJointCommand.new
                (es.physics.find_joint body))])
          ++ (es.physics.joints.pair_iter.filter (fun pr2 => pr2.2.body2 == body)).map
              (fun pr2 => SceneCommand.SetJointConnectedBody
                (SetJointConnectedBodyCommand.new pr2.1 PHandle.NONE))) := by
  simp only [make_delete_selection_command, hsel] at hg
  rcases hidx : sel0.nodes.findIdx? (fun n => n == graph.get_root) with _ | i
  · simp only [hidx] at hg
    rcases hrn : GraphSelection.root_nodes sel0 graph fuel with _ | rn
    · simp only [hrn, bind, Option.bind] at hg
      exact Option.noConfusion hg
    · simp only [hrn, bind, Option.bind] at hg
      rcases hpw : deleteWalk es graph fuel rn.reverse with _ | phys
      · simp only [hpw] at hg
        exact Option.noConfusion hg
      · simp only [hpw] at hg
        have hrootmem : graph.get_root ∉ sel0.nodes := by
          intro hmem
          have hall := List.findIdx?_eq_none_iff.mp hidx
          have := hall graph.get_root hmem
          simp at this
        exact delete_selection_assembled es graph fuel g sel0 sel0 rn phys
          hrootmem hns (List.Subset.refl _) hrn hpw
          (by rw [← Option.some.inj hg])
  · simp only [hidx] at hg
    rcases hrn : GraphSelection.root_nodes ⟨sel0.nodes.eraseIdx i⟩ graph fuel with _ | rn
    · simp only [hrn, bind, Option.bind] at hg
      exact Option.noConfusion hg
    · simp only [hrn, bind, Option.bind] at hg
      rcases hpw : deleteWalk es graph fuel rn.reverse with _ | phys
      · simp only [hpw] at hg
        exact Option.noConfusion hg
      · simp only [hpw] at hg
        have hsubl : List.Sublist (sel0.nodes.eraseIdx i) sel0.nodes :=
          List.eraseIdx_sublist sel0.nodes i
        exact delete_selection_assembled es graph fuel g sel0 ⟨sel0.nodes.eraseIdx i⟩
          rn phys (eraseIdx_findIdx_root graph.get_root sel0.nodes hns i hidx)
          (hsubl.nodup hns) hsubl.subset hrn hpw
          (by rw [← Option.some.inj hg])

/-- C9 witness: deleting the single-node selection of `gFix`'s child
node succeeds, through the characterization theorem. -/
theorem C9_witness :
    (make_delete_selection_command
      { emptyEditorScene with selection := Selection.Graph ⟨[(⟨1, 1⟩ : PHandle)]⟩ }
      gFix 4).isSome = true := by
  obtain ⟨sel, rn, phys, pairs, hrn, hpw, hgc, -⟩ :=
    C9_delete_selection_structure
      { emptyEditorScene with selection := Selection.Graph ⟨[(⟨1, 1⟩ : PHandle)]⟩ }
      gFix 4
      ⟨[SceneCommand.ChangeSelection
          (ChangeSelectionCommand.new Selection.None
            (Selection.Graph ⟨[(⟨1, 1⟩ : PHandle)]⟩)),
        SceneCommand.DeleteSubGraph (DeleteSubGraphCommand.new ⟨1, 1⟩)]⟩
      ⟨[(⟨1, 1⟩ : PHandle)]⟩ rfl (by decide) rfl
  rfl

/-! ### Claim C5 — deep clone referential integrity -/

/-- A key outside an association list's key set has no binding. -/
theorem assocGet_none_of_not_mem {m : List (PHandle × PHandle)} {k : PHandle}
    (h : k ∉ m.map Prod.fst) : assocGet m k = none := by
  unfold assocGet
  rw [List.find?_eq_none.mpr]
  · rfl
  · intro pr hpr
    simp only [beq_iff_eq]
    intro hk
    exact h (by rw [← hk]; exact List.mem_map_of_mem Prod.fst hpr)

/-- A successful association lookup exhibits a member entry. -/
theorem assocGet_mem {m : List (PHandle × PHandle)} {k v : PHandle}
    (h : assocGet m k = some v) : (k, v) ∈ m := by
  unfold assocGet at h
  rcases hf : m.find? (fun pr => pr.1 == k) with _ | pr
  · rw [hf] at h
    exact Option.noConfusion h
  · rw [hf] at h
    have hv : pr.2 = v := Option.some.inj h
    have hk : pr.1 = k := by simpa using List.find?_some hf
    have hm := List.mem_of_find?_eq_some hf
    have hpr : pr = (k, v) := by
      cases pr
      simp_all
    rw [← hpr]
    exact hm

/-- Lookup misses distribute over appends. -/
theorem assocGet_append_none {m1 m2 : List (PHandle × PHandle)} {k : PHandle}
    (h1 : assocGet m1 k = none) (h2 : assocGet m2 k = none) :
    assocGet (m1 ++ m2) k = none := by
  induction m1 with
  | nil => simpa using h2
  | cons pr t ih =>
    unfold assocGet at h1 ⊢
    by_cases hpk : (pr.1 == k) = true
    · exfalso
      have : (pr :: t).find? (fun q => q.1 == k) = some pr := by
        simp [List.find?_cons, hpk]
      rw [this] at h1
      exact Option.noConfusion h1
    · have hstep : ((pr :: t) ++ m2).find? (fun q => q.1 == k)
          = (t ++ m2).find? (fun q => q.1 == k) := by
        simp [List.find?_cons, hpk]
      rw [hstep]
      have h1t : assocGet t k = none := by
        unfold assocGet
        rcases hft : List.find? (fun pr => pr.1 == k) t with _ | q
        · rw [hft]
          rfl
        · exfalso
          have hpt : List.find? (fun pr => pr.1 == k) (pr :: t) = some q := by
            simp [List.find?_cons, hpk, hft]
          rw [hpt] at h1
          simp at h1
      have := ih h1t
      unfold assocGet at this
      exact this

/-- A lookup that misses the left part of an append continues right. -/
theorem assocGet_append_of_none_left {m1 m2 : List (PHandle × PHandle)} {k : PHandle}
    (h1 : assocGet m1 k = none) :
    assocGet (m1 ++ m2) k = assocGet m2 k := by
  induction m1 with
  | nil => rfl
  | cons pr t ih =>
    unfold assocGet at h1 ⊢
    by_cases hpk : (pr.1 == k) = true
    · exfalso
      have : (pr :: t).find? (fun q => q.1 == k) = some pr := by
        simp [List.find?_cons, hpk]
      rw [this] at h1
      exact Option.noConfusion h1
    · have hstep : ((pr :: t) ++ m2).find? (fun q => q.1 == k)
          = (t ++ m2).find? (fun q => q.1 == k) := by
        simp [List.find?_cons, hpk]
      rw [hstep]
      have h1t : assocGet t k = none := by
        unfold assocGet
        rcases hft : List.find? (fun pr => pr.1 == k) t with _ | q
        · rw [hft]
          rfl
        · exfalso
          have hpt : List.find? (fun pr => pr.1 == k) (pr :: t) = some q := by
            simp [List.find?_cons, hpk, hft]
          rw [hpt] at h1
          simp at h1
      have := ih h1t
      unfold assocGet at this
      exact this

/-- Inserting an absent key appends the binding. -/
theorem assocInsert_append_of_absent {m : List (PHandle × PHandle)} {k v : PHandle}
    (h : assocGet m k = none) : assocInsert m k v = m ++ [(k, v)] := by
  unfold assocInsert
  rw [if_neg]
  intro hs
  unfold assocGet at h
  rcases hf : m.find? (fun pr => pr.1 == k) with _ | pr
  · rw [hf] at hs
    simp at hs
  · rw [hf] at h
    simp at h

/-- Inserting an absent key grows the list by exactly one entry. -/
theorem assocInsert_length_of_absent {m : List (PHandle × PHandle)} {k v : PHandle}
    (h : assocGet m k = none) : (assocInsert m k v).length = m.length + 1 := by
  rw [assocInsert_append_of_absent h]
  simp

/-- In an association list with duplicate-free values, lookup is
injective on keys. -/
theorem assoc_values_inj {m : List (PHandle × PHandle)}
    (hvals : (m.map Prod.snd).Nodup) {k1 k2 v : PHandle}
    (h1 : assocGet m k1 = some v) (h2 : assocGet m k2 = some v) : k1 = k2 := by
  have hm1 := assocGet_mem h1
  have hm2 := assocGet_mem h2
  have := List.inj_on_of_nodup_map hvals hm1 hm2 rfl
  exact congrArg Prod.fst this

/-- Folding replace-or-append insertion of fresh, duplicate-free keys is
plain concatenation. -/
theorem assocInsert_foldl_append :
    ∀ (m acc : List (PHandle × PHandle)),
    (∀ pr ∈ m, assocGet acc pr.1 = none) → (m.map Prod.fst).Nodup →
    m.foldl (fun a pr => assocInsert a pr.1 pr.2) acc = acc ++ m := by
  intro m
  induction m with
  | nil => intro acc _ _; simp
  | cons pr rest ih =>
    intro acc habs hnd
    have hcons : pr.1 ∉ rest.map Prod.fst ∧ (rest.map Prod.fst).Nodup := by
      rw [List.map_cons] at hnd
      exact ⟨(List.nodup_cons.mp hnd).1, (List.nodup_cons.mp hnd).2⟩
    simp only [List.foldl]
    rw [assocInsert_append_of_absent (habs pr (List.mem_cons_self _ _))]
    rw [ih (acc ++ [(pr.1, pr.2)]) ?absent ?nodup]
    · rw [List.append_assoc]
      rfl
    case absent =>
      intro q hq
      have hq1 : assocGet acc q.1 = none := habs q (List.mem_cons_of_mem _ hq)
      have hqp : ¬ (pr.1 == q.1) = true := by
        simp only [beq_iff_eq]
        intro hh
        exact hcons.1 (by rw [hh]; exact List.mem_map_of_mem Prod.fst hq)
      refine assocGet_append_none hq1 ?_
      unfold assocGet
      simp [List.find?_cons, hqp]
    case nodup => exact hcons.2

/-- Replacing through a live handle: full consequences of success. -/
theorem Pool.replace_success_spec {T : Type} {p p' : Pool T} {h : PHandle} {v : T}
    (hr : p.replace h v = some p') :
    (∃ w, p.borrow h = some w) ∧ p'.borrow h = some v ∧
    (∀ h2, h2 ≠ h → p'.borrow h2 = p.borrow h2) ∧
    p'.free = p.free ∧ (p.WF → p'.WF) := by
  have hinv : ∃ w, p.borrow h = some w := by
    unfold Pool.replace at hr
    rcases hrec : p.records[h.index]? with _ | r
    · simp only [hrec] at hr
      exact Option.noConfusion hr
    · simp only [hrec] at hr
      by_cases hg : r.generation = h.generation
      · rw [if_pos hg] at hr
        rcases hp : r.payload with _ | w
        · simp only [hp] at hr
          exact Option.noConfusion hr
        · exact ⟨w, by simp [Pool.borrow, hrec, hg, hp]⟩
      · rw [if_neg hg] at hr
        exact Option.noConfusion hr
  obtain ⟨w, hb⟩ := hinv
  have heq := Pool.replace_eq v hb
  rw [heq] at hr
  rw [← Option.some.inj hr]
  exact ⟨⟨w, hb⟩, Pool.replace_borrow_self hb, Pool.replace_borrow_other hb, rfl,
    fun hwf => Pool.replace_WF hwf hb⟩

/-- `replace` never changes which handles are live. -/
theorem Pool.replace_isSome_eq {T : Type} {p p' : Pool T} {h : PHandle} {v : T}
    (hr : p.replace h v = some p') :
    ∀ h2, (p'.borrow h2).isSome = (p.borrow h2).isSome := by
  obtain ⟨⟨w, hb⟩, hself, hother, -, -⟩ := Pool.replace_success_spec hr
  intro h2
  rcases Decidable.em (h2 = h) with he | he
  · subst he
    rw [hself, hb]
    rfl
  · rw [hother h2 he]

/-- `spawn` leaves every live handle's binding untouched. -/
theorem Pool.spawn_live_mono {T : Type} {p : Pool T} {v : T} {h : PHandle}
    {p' : Pool T} (hwf : p.WF) (hs : p.spawn v = (h, p')) :
    ∀ h2, (p.borrow h2).isSome = true → p'.borrow h2 = p.borrow h2 := by
  intro h2 hl
  have hne : h2 ≠ h := by
    intro hh
    rw [hh, Pool.spawn_fresh hwf hs] at hl
    simp at hl
  exact Pool.spawn_borrow_other hwf hs h2 hne

/-- `spawnClones`: the produced mapping's keys are the input keys in
order, its values are pairwise distinct fresh handles, all live in the
output pool, every previously live handle is untouched, and
well-formedness is preserved. -/
theorem spawnClones_spec :
    ∀ (ps : List (PHandle × Node)) (dest : Pool Node), dest.WF →
    (spawnClones dest ps).2.map Prod.fst = ps.map Prod.fst ∧
    ((spawnClones dest ps).2.map Prod.snd).Nodup ∧
    (∀ pr ∈ (spawnClones dest ps).2, dest.borrow pr.2 = none) ∧
    (∀ pr ∈ (spawnClones dest ps).2,
      ((spawnClones dest ps).1.borrow pr.2).isSome = true) ∧
    (∀ h, (dest.borrow h).isSome = true →
      (spawnClones dest ps).1.borrow h = dest.borrow h) ∧
    (spawnClones dest ps).1.WF := by
  intro ps
  induction ps with
  | nil =>
    intro dest hwf
    refine ⟨rfl, List.nodup_nil, ?_, ?_, fun h _ => rfl, hwf⟩
    · intro pr hpr
      simp [spawnClones] at hpr
    · intro pr hpr
      simp [spawnClones] at hpr
  | cons pn rest ih =>
    intro dest hwf
    rcases pn with ⟨oldH, n⟩
    rcases hs : dest.spawn n with ⟨h1, p1⟩
    have hun : spawnClones dest ((oldH, n) :: rest) =
        ((spawnClones p1 rest).1, (oldH, h1) :: (spawnClones p1 rest).2) := by
      simp only [spawnClones, hs]
    obtain ⟨ihk, ihnd, ihfresh, ihlive, ihmono, ihwf⟩ := ih p1 (Pool.spawn_WF hwf hs)
    have hfresh1 : dest.borrow h1 = none := Pool.spawn_fresh hwf hs
    have hself1 : p1.borrow h1 = some n := Pool.spawn_borrow_self hwf hs
    have hfreshd : ∀ pr ∈ (spawnClones p1 rest).2, dest.borrow pr.2 = none := by
      intro pr hpr
      rcases hd : dest.borrow pr.2 with _ | w
      · rfl
      · exfalso
        have hmono := Pool.spawn_live_mono hwf hs pr.2 (by rw [hd]; rfl)
        rw [ihfresh pr hpr, hd] at hmono
        exact Option.noConfusion hmono
    rw [hun]
    refine ⟨by simpa using ihk, ?_, ?_, ?_, ?_, ihwf⟩
    · refine List.nodup_cons.mpr ⟨?_, ihnd⟩
      intro hmem
      obtain ⟨pr, hpr, hpr2⟩ := List.mem_map.mp hmem
      have := ihfresh pr hpr
      rw [hpr2, hself1] at this
      exact Option.noConfusion this
    · intro pr hpr
      rcases List.mem_cons.mp hpr with hh | hh
      · rw [hh]
        exact hfresh1
      · exact hfreshd pr hh
    · intro pr hpr
      rcases List.mem_cons.mp hpr with hh | hh
      · rw [hh]
        have := ihmono h1 (by rw [hself1]; rfl)
        simp only [this, hself1]
        rfl
      · exact ihlive pr hh
    · intro h2 hl
      have hstep := Pool.spawn_live_mono hwf hs h2 hl
      have : (p1.borrow h2).isSome = true := by rw [hstep]; exact hl
      rw [ihmono h2 this, hstep]

/-- The borrow-pairing `mapM` of `copy_node` keeps the handle list as the
keys of the produced pairs. -/
theorem borrowPairs_fst (g : Graph) :
    ∀ (l : List PHandle) (acc pairs : List (PHandle × Node)),
    List.mapM.loop (fun h => (g.pool.borrow h).map (fun n => (h, n))) l acc
      = some pairs →
    pairs.map Prod.fst = (acc.reverse.map Prod.fst) ++ l := by
  intro l
  induction l with
  | nil =>
    intro acc pairs h
    have : acc.reverse = pairs := Option.some.inj h
    rw [← this]
    simp
  | cons a t ih =>
    intro acc pairs h
    simp only [List.mapM.loop] at h
    rcases hb : g.pool.borrow a with _ | n
    · rw [hb] at h
      simp at h
    · rw [hb] at h
      simp only [Option.map, bind, Option.bind] at h
      have := ih ((a, n) :: acc) pairs h
      rw [this]
      simp

/-- `unlink_internal` preserves the root, the live-handle set and pool
well-formedness. -/
theorem Graph.unlink_spec {g g1 : Graph} {c : PHandle}
    (hu : g.unlink_internal c = some g1) :
    g1.root = g.root ∧ (∀ h, (g1.pool.borrow h).isSome = (g.pool.borrow h).isSome) ∧
    (g.pool.WF → g1.pool.WF) := by
  unfold Graph.unlink_internal at hu
  rcases hb : g.pool.borrow c with _ | cn
  · simp only [hb] at hu
    exact Option.noConfusion hu
  · simp only [hb] at hu
    by_cases hpn : cn.parent.is_none = true
    · rw [if_pos hpn] at hu
      have hu2 : (match g.pool.borrow c with
          | none => none
          | some cn2 => (g.pool.replace c { cn2 with parent := PHandle.NONE }).map
              (fun pl2 => (⟨pl2, g.root⟩ : Graph))) = some g1 := hu
      simp only [hb] at hu2
      rcases hrep : g.pool.replace c { cn with parent := PHandle.NONE } with _ | pl2
      · simp only [hrep] at hu2
        exact Option.noConfusion hu2
      · simp only [hrep, Option.map] at hu2
        rw [← Option.some.inj hu2]
        exact ⟨rfl, fun h => Pool.replace_isSome_eq hrep h,
          fun hwf => (Pool.replace_success_spec hrep).2.2.2.2 hwf⟩
    · rw [if_neg hpn] at hu
      rcases hbp : g.pool.borrow cn.parent with _ | pn
      · simp only [hbp] at hu
        exact Option.noConfusion hu
      · simp only [hbp] at hu
        rcases hrep1 : g.pool.replace cn.parent
            { pn with children := pn.children.filter (fun c2 => c2 != c) } with _ | pl
        · simp only [hrep1] at hu
          exact Option.noConfusion hu
        · simp only [hrep1] at hu
          rcases hbc : pl.borrow c with _ | cn2
          · simp only [hbc] at hu
            exact Option.noConfusion hu
          · simp only [hbc] at hu
            rcases hrep2 : pl.replace c { cn2 with parent := PHandle.NONE } with _ | pl2
            · simp only [hrep2] at hu
              exact Option.noConfusion hu
            · simp only [hrep2, Option.map] at hu
              rw [← Option.some.inj hu]
              refine ⟨rfl, ?_, ?_⟩
              · intro h
                rw [Pool.replace_isSome_eq hrep2 h, Pool.replace_isSome_eq hrep1 h]
              · intro hwf
                exact (Pool.replace_success_spec hrep2).2.2.2.2
                  ((Pool.replace_success_spec hrep1).2.2.2.2 hwf)

/-- `link_nodes` preserves the root, the live-handle set and pool
well-formedness. -/
theorem Graph.link_spec {g g2 : Graph} {c pnt : PHandle}
    (hl : g.link_nodes c pnt = some g2) :
    g2.root = g.root ∧ (∀ h, (g2.pool.borrow h).isSome = (g.pool.borrow h).isSome) ∧
    (g.pool.WF → g2.pool.WF) := by
  unfold Graph.link_nodes at hl
  rcases hun : g.unlink_internal c with _ | gu
  · simp only [hun] at hl
    exact Option.noConfusion hl
  · simp only [hun] at hl
    obtain ⟨hroot_u, hsome_u, hwf_u⟩ := Graph.unlink_spec hun
    rcases hbc : gu.pool.borrow c with _ | cn
    · simp only [hbc] at hl
      exact Option.noConfusion hl
    · simp only [hbc] at hl
      rcases hrep1 : gu.pool.replace c { cn with parent := pnt } with _ | pl
      · simp only [hrep1] at hl
        exact Option.noConfusion hl
      · simp only [hrep1] at hl
        rcases hbp : pl.borrow pnt with _ | pn
        · simp only [hbp] at hl
          exact Option.noConfusion hl
        · simp only [hbp] at hl
          rcases hrep2 : pl.replace pnt { pn with children := pn.children ++ [c] } with _ | pl2
          · simp only [hrep2] at hl
            exact Option.noConfusion hl
          · simp only [hrep2, Option.map] at hl
            rw [← Option.some.inj hl]
            refine ⟨hroot_u, ?_, ?_⟩
            · intro h
              rw [Pool.replace_isSome_eq hrep2 h, Pool.replace_isSome_eq hrep1 h,
                hsome_u h]
            · intro hwf
              exact (Pool.replace_success_spec hrep2).2.2.2.2
                ((Pool.replace_success_spec hrep1).2.2.2.2 (hwf_u hwf))

/-- A fold of pool-transforming steps that each preserve liveness and
well-formedness preserves both overall. -/
theorem foldlM_pool_preserve {A : Type}
    (f : Pool Node → A → Option (Pool Node))
    (hf : ∀ pl a out, f pl a = some out →
      (∀ h, (out.borrow h).isSome = (pl.borrow h).isSome) ∧ (pl.WF → out.WF)) :
    ∀ (ml : List A) (pl out : Pool Node), ml.foldlM f pl = some out →
    (∀ h, (out.borrow h).isSome = (pl.borrow h).isSome) ∧ (pl.WF → out.WF) := by
  intro ml
  induction ml with
  | nil =>
    intro pl out h
    have he : pl = out := Option.some.inj h
    subst he
    exact ⟨fun h => rfl, id⟩
  | cons a t ih =>
    intro pl out h
    simp only [List.foldlM] at h
    rcases hstep : f pl a with _ | pl1
    · simp only [hstep, bind, Option.bind] at h
      exact Option.noConfusion h
    · simp only [hstep, bind, Option.bind] at h
      obtain ⟨hs1, hw1⟩ := hf pl a pl1 hstep
      obtain ⟨hs2, hw2⟩ := ih pl1 out h
      exact ⟨fun h2 => (hs2 h2).trans (hs1 h2), fun hwf => hw2 (hw1 hwf)⟩

/-- `copy_node`: the produced mapping's keys are exactly the copied
subtree in traversal order, its values are pairwise distinct handles that
were dead in the destination and are live in the output graph, every
previously live destination handle stays live, and pool well-formedness
is preserved. -/
theorem Graph.copy_node_spec {src : Graph} {root : PHandle} {dest : Graph}
    {fuel : Nat} {nr : PHandle} {dg : Graph} {mapping : List (PHandle × PHandle)}
    (hwf : dest.pool.WF)
    (hc : src.copy_node root dest fuel = some (nr, dg, mapping)) :
    ∃ subtree, src.traverse_handle_stack fuel [root] = some subtree ∧
      mapping.map Prod.fst = subtree ∧
      (mapping.map Prod.snd).Nodup ∧
      (∀ pr ∈ mapping, dest.pool.borrow pr.2 = none) ∧
      (∀ pr ∈ mapping, (dg.pool.borrow pr.2).isSome = true) ∧
      (∀ h, (dest.pool.borrow h).isSome = true → (dg.pool.borrow h).isSome = true) ∧
      dg.pool.WF := by
  unfold Graph.copy_node at hc
  obtain ⟨subtree, htr, hc⟩ := Option.bind_eq_some.mp hc
  obtain ⟨pairs, hmp, hc⟩ := Option.bind_eq_some.mp hc
  obtain ⟨rewired, hrw, hc⟩ := Option.bind_eq_some.mp hc
  obtain ⟨newRoot, hnr, hc⟩ := Option.bind_eq_some.mp hc
  obtain ⟨destG, hlink, hc⟩ := Option.bind_eq_some.mp hc
  have htriple := Option.some.inj hc
  have e2 : destG = dg := congrArg (fun t => t.2.1) htriple
  have e3 : (spawnClones dest.pool pairs).2 = mapping :=
    congrArg (fun t => t.2.2) htriple
  obtain ⟨hkeys, hvnd, hfresh, hlive, hmono, hwfs⟩ := spawnClones_spec pairs dest.pool hwf
  have hpf : pairs.map Prod.fst = subtree := by
    have := borrowPairs_fst src subtree [] pairs hmp
    simpa using this
  obtain ⟨hsomes_rw, hwf_rw⟩ := foldlM_pool_preserve _
    (by
      intro pl pr out hstep
      obtain ⟨n, hn, hrepl⟩ := Option.bind_eq_some.mp hstep
      exact ⟨Pool.replace_isSome_eq hrepl,
        fun hwf2 => (Pool.replace_success_spec hrepl).2.2.2.2 hwf2⟩)
    _ _ _ hrw
  obtain ⟨hroot_l, hsome_l, hwf_l⟩ := Graph.link_spec hlink
  rw [← e3, ← e2]
  refine ⟨subtree, htr, by rw [hkeys, hpf], hvnd, hfresh, ?_, ?_, ?_⟩
  · intro pr hpr
    rw [hsome_l pr.2]
    have : ((⟨rewired, dest.root⟩ : Graph).pool.borrow pr.2).isSome
        = ((spawnClones dest.pool pairs).1.borrow pr.2).isSome := hsomes_rw pr.2
    rw [this]
    exact hlive pr hpr
  · intro h hl
    rw [hsome_l h]
    have : ((⟨rewired, dest.root⟩ : Graph).pool.borrow h).isSome
        = ((spawnClones dest.pool pairs).1.borrow h).isSome := hsomes_rw h
    rw [this, hmono h hl]
    exact hl
  · exact hwf_l (hwf_rw hwfs)

/-- `Option.map` on a present value. -/
theorem opt_map_some {A B : Type} (f : A → B) (a : A) :
    Option.map f (some a) = some (f a) := rfl

/-- `Option.map` on an absent value. -/
theorem opt_map_none {A B : Type} (f : A → B) :
    Option.map f (none : Option A) = none := rfl

/-- Monadic bind of a present option. -/
theorem opt_bind_some {A B : Type} (f : A → Option B) (a : A) :
    Bind.bind (some a) f = f a := rfl

/-- Monadic bind of an absent option. -/
theorem opt_bind_none {A B : Type} (f : A → Option B) :
    Bind.bind (none : Option A) f = none := rfl

/-- The accumulating traversal fold of `allDescendants` factors through
the empty accumulator. -/
theorem allDescFold_shift (sg : Graph) (fuel : Nat) :
    ∀ (rl : List PHandle) (acc : List PHandle),
    rl.foldlM (fun acc root =>
      (sg.traverse_handle_stack fuel [root]).map (fun l => acc ++ l)) acc
    = (rl.foldlM (fun acc root =>
        (sg.traverse_handle_stack fuel [root]).map (fun l => acc ++ l)) []).map
        (fun t => acc ++ t) := by
  intro rl
  induction rl with
  | nil =>
    intro acc
    simp [List.foldlM]
  | cons root rest ih =>
    intro acc
    simp only [List.foldlM]
    rcases htr : sg.traverse_handle_stack fuel [root] with _ | tr
    · simp only [htr, opt_map_none, opt_bind_none]
    · simp only [htr, opt_map_some, opt_bind_some]
      rw [ih (acc ++ tr), ih ([] ++ tr)]
      rcases hrest : rest.foldlM (fun acc root =>
          (sg.traverse_handle_stack fuel [root]).map (fun l => acc ++ l)) [] with _ | t
      · rfl
      · simp [List.append_assoc]

/-- `allDescendants` decomposes along the root list. -/
theorem allDescendants_cons {sg : Graph} {fuel : Nat} {root : PHandle}
    {rest : List PHandle} {ds : List PHandle}
    (h : allDescendants sg (root :: rest) fuel = some ds) :
    ∃ tr ds', sg.traverse_handle_stack fuel [root] = some tr ∧
      allDescendants sg rest fuel = some ds' ∧ ds = tr ++ ds' := by
  unfold allDescendants at h ⊢
  simp only [List.foldlM] at h
  rcases htr : sg.traverse_handle_stack fuel [root] with _ | tr
  · simp only [htr, opt_map_none, opt_bind_none] at h
    exact Option.noConfusion h
  · simp only [htr, opt_map_some, opt_bind_some] at h
    rw [allDescFold_shift sg fuel rest ([] ++ tr)] at h
    rcases hrest : rest.foldlM (fun acc root =>
        (sg.traverse_handle_stack fuel [root]).map (fun l => acc ++ l)) [] with _ | ds'
    · rw [hrest] at h
      simp at h
    · rw [hrest] at h
      simp only [opt_map_some] at h
      exact ⟨tr, ds', rfl, rfl, by simpa using (Option.some.inj h).symm⟩

/-- The subtree-copying fold of `deep_clone_nodes`: the accumulated
mapping's keys are the previous keys followed by the concatenated subtree
traversals, its values stay pairwise distinct and live in the accumulated
graph, and pool well-formedness is preserved. -/
theorem cloneGraphFold_spec (sg : Graph) (fuel : Nat) :
    ∀ (rl : List PHandle) (g0 : Graph) (acc : List (PHandle × PHandle))
      (out : Graph × List (PHandle × PHandle)) (dsR : List PHandle),
    g0.pool.WF →
    (∀ pr ∈ acc, (g0.pool.borrow pr.2).isSome = true) →
    (acc.map Prod.snd).Nodup →
    allDescendants sg rl fuel = some dsR →
    (∀ pr ∈ acc, pr.1 ∉ dsR) →
    dsR.Nodup →
    rl.foldlM (fun (st : Graph × List (PHandle × PHandle)) root => do
        let step ← sg.copy_node root st.1 fuel
        return (step.2.1, step.2.2.foldl (fun a pr => assocInsert a pr.1 pr.2) st.2))
      (g0, acc) = some out →
    out.2.map Prod.fst = acc.map Prod.fst ++ dsR ∧
    (out.2.map Prod.snd).Nodup ∧
    (∀ pr ∈ out.2, (out.1.pool.borrow pr.2).isSome = true) ∧
    out.1.pool.WF := by
  intro rl
  induction rl with
  | nil =>
    intro g0 acc out dsR hwf hlive hnd hds hdisj hdnd h
    have hds0 : dsR = [] := by
      unfold allDescendants at hds
      simp only [List.foldlM] at hds
      exact (Option.some.inj hds).symm
    have hout : (g0, acc) = out := Option.some.inj h
    subst hds0
    rw [← hout]
    exact ⟨by simp, hnd, hlive, hwf⟩
  | cons root rest ih =>
    intro g0 acc out dsR hwf hlive hnd hds hdisj hdnd h
    obtain ⟨tr, dsRest, htr, hdrest, hdeq⟩ := allDescendants_cons hds
    subst hdeq
    have htrnd : tr.Nodup := (List.nodup_append.mp hdnd).1
    have hdrnd : dsRest.Nodup := (List.nodup_append.mp hdnd).2.1
    have htr_dis : tr.Disjoint dsRest := (List.nodup_append.mp hdnd).2.2
    simp only [List.foldlM] at h
    obtain ⟨st1, hstep, h⟩ := Option.bind_eq_some.mp h
    obtain ⟨step, hcn, hret⟩ := Option.bind_eq_some.mp hstep
    have hst1 := Option.some.inj hret
    rcases step with ⟨nr0, g1, mi⟩
    obtain ⟨subtree, htr2, hkeys, hvnd, hfreshm, hlivem, hmonog, hwfg⟩ :=
      Graph.copy_node_spec hwf hcn
    have hsub_tr : tr = subtree := by
      rw [htr] at htr2
      exact Option.some.inj htr2
    subst hsub_tr
    have hmkeys_fresh : ∀ pr ∈ mi, assocGet acc pr.1 = none := by
      intro pr hpr
      apply assocGet_none_of_not_mem
      intro hmem
      obtain ⟨q, hq, hq1⟩ := List.mem_map.mp hmem
      have hintr : q.1 ∈ tr := by
        rw [hq1, ← hkeys]
        exact List.mem_map_of_mem _ hpr
      exact hdisj q hq (List.mem_append.mpr (Or.inl hintr))
    have hmerge : mi.foldl (fun a pr => assocInsert a pr.1 pr.2) acc = acc ++ mi :=
      assocInsert_foldl_append mi acc hmkeys_fresh (by rw [hkeys]; exact htrnd)
    have hst1' : st1 = (g1, acc ++ mi) := by
      rw [← hst1, hmerge]
    subst hst1'
    obtain ⟨ihk, ihnd2, ihlive2, ihwf2⟩ := ih g1 (acc ++ mi) out dsRest
      hwfg
      (by
        intro pr hpr
        rcases List.mem_append.mp hpr with hh | hh
        · exact hmonog pr.2 (hlive pr hh)
        · exact hlivem pr hh)
      (by
        rw [List.map_append]
        refine List.nodup_append.mpr ⟨hnd, hvnd, ?_⟩
        intro v hv1 hv2
        obtain ⟨q1, hq1, hq1v⟩ := List.mem_map.mp hv1
        obtain ⟨q2, hq2, hq2v⟩ := List.mem_map.mp hv2
        have hliveq := hlive q1 hq1
        have hfreshq := hfreshm q2 hq2
        rw [hq1v] at hliveq
        rw [hq2v] at hfreshq
        rw [hfreshq] at hliveq
        simp at hliveq)
      hdrest
      (by
        intro pr hpr
        rcases List.mem_append.mp hpr with hh | hh
        · intro hmem
          exact hdisj pr hh (List.mem_append.mpr (Or.inr hmem))
        · intro hmem
          have hintr : pr.1 ∈ tr := by
            rw [← hkeys]
            exact List.mem_map_of_mem _ hh
          exact htr_dis hintr hmem)
      hdrnd
      h
    refine ⟨?_, ihnd2, ihlive2, ihwf2⟩
    rw [ihk, List.map_append, hkeys, List.append_assoc]

/-- The collider-cloning loop: appends the freshly spawned collider
handles to the accumulator and to the cloned body's collider list,
re-parents every clone to the cloned body, touches no other body and no
previously live collider, and preserves well-formedness. -/
theorem cloneColliders_spec (sp : Physics) (bh : PHandle) :
    ∀ (cs : List PHandle) (dcol : Pool Collider) (dbod : Pool RigidBody)
      (acc : List PHandle) (out : Pool Collider × Pool RigidBody × List PHandle)
      (bv : RigidBody),
    dcol.WF → dbod.WF → dbod.borrow bh = some bv →
    cloneColliders sp bh cs dcol dbod acc = some out →
    ∃ newHs bv2,
      out.2.2 = acc ++ newHs ∧
      out.2.1.borrow bh = some bv2 ∧ bv2.colliders = bv.colliders ++ newHs ∧
      (∀ h2, h2 ≠ bh → out.2.1.borrow h2 = dbod.borrow h2) ∧
      (∀ c, (dcol.borrow c).isSome = true → out.1.borrow c = dcol.borrow c) ∧
      (∀ c ∈ newHs, dcol.borrow c = none ∧
        ∃ cv, out.1.borrow c = some cv ∧ cv.parent = bh) ∧
      out.1.WF ∧ out.2.1.WF := by
  intro cs
  induction cs with
  | nil =>
    intro dcol dbod acc out bv hwfc hwfb hbv h
    have hout : (dcol, dbod, acc) = out := Option.some.inj h
    rw [← hout]
    refine ⟨[], bv, by simp, hbv, by simp, fun h2 _ => rfl, fun c _ => rfl, ?_, hwfc, hwfb⟩
    intro c hc
    simp at hc
  | cons c rest ih =>
    intro dcol dbod acc out bv hwfc hwfb hbv h
    rcases hsb : sp.colliders.borrow c with _ | cv
    · simp only [cloneColliders, hsb] at h
      exact Option.noConfusion h
    · rcases hs : dcol.spawn { cv with parent := bh } with ⟨ch, dcol1⟩
      have hrep := Pool.replace_eq { bv with colliders := bv.colliders ++ [ch] } hbv
      simp only [cloneColliders, hsb, hs, hbv, hrep] at h
      have hwfc1 := Pool.spawn_WF hwfc hs
      have hwfb1 := Pool.replace_WF (v := { bv with colliders := bv.colliders ++ [ch] })
        hwfb hbv
      have hbv1 := Pool.replace_borrow_self (v := { bv with colliders := bv.colliders ++ [ch] })
        hbv
      obtain ⟨newHs, bv2, ho1, ho2, ho3, ho4, ho5, ho6, ho7, ho8⟩ :=
        ih dcol1 _ (acc ++ [ch]) out _ hwfc1 hwfb1 hbv1 h
      refine ⟨ch :: newHs, bv2, ?_, ho2, ?_, ?_, ?_, ?_, ho7, ho8⟩
      · rw [ho1, List.append_assoc]
        rfl
      · rw [ho3]
        simp [List.append_assoc]
      · intro h2 hne
        rw [ho4 h2 hne]
        exact Pool.replace_borrow_other hbv h2 hne
      · intro c2 hc2
        have hne : c2 ≠ ch := by
          intro hh
          rw [hh, Pool.spawn_fresh hwfc hs] at hc2
          simp at hc2
        have hstep := Pool.spawn_borrow_other hwfc hs c2 hne
        rw [ho5 c2 (by rw [hstep]; exact hc2), hstep]
      · intro c2 hc2
        rcases List.mem_cons.mp hc2 with hh | hh
        · subst hh
          refine ⟨Pool.spawn_fresh hwfc hs, ?_⟩
          have hself := Pool.spawn_borrow_self hwfc hs
          have hpres := ho5 c2 (by rw [hself]; rfl)
          rw [hpres, hself]
          exact ⟨{ cv with parent := bh }, rfl, rfl⟩
        · refine ⟨?_, (ho6 c2 hh).2⟩
          rcases hd : dcol.borrow c2 with _ | w
          · rfl
          · exfalso
            have hmono := Pool.spawn_live_mono hwfc hs c2 (by rw [hd]; rfl)
            rw [(ho6 c2 hh).1, hd] at hmono
            exact Option.noConfusion hmono

/-- One step of the physics-cloning walk: an unbound node is a no-op; a
bound node spawns exactly one fresh body (whose collider list holds
exactly the fresh collider clones, each re-parented to it), records it in
the result and the binder, and leaves every other live body and collider
untouched. -/
theorem clonePhysicsAt_spec (sp : Physics) (mapping : List (PHandle × PHandle))
    (d : PHandle) (dp : Physics) (r : DeepCloneResult)
    (out : Physics × DeepCloneResult)
    (hwfB : dp.bodies.WF) (hwfC : dp.colliders.WF)
    (h : clonePhysicsAt sp mapping d dp r = some out) :
    out.1.bodies.WF ∧ out.1.colliders.WF ∧
    out.2.joints = r.joints ∧
    ((sp.binder.value_of d).isSome = false → out = (dp, r)) ∧
    ((sp.binder.value_of d).isSome = true → ∃ bh newCs nn,
      dp.bodies.borrow bh = none ∧
      out.2.bodies = r.bodies ++ [bh] ∧
      out.2.colliders = r.colliders ++ newCs ∧
      assocGet mapping d = some nn ∧
      out.2.binder = assocInsert r.binder nn bh ∧
      (∃ bv2, out.1.bodies.borrow bh = some bv2 ∧ bv2.colliders = newCs) ∧
      (∀ h2, h2 ≠ bh → out.1.bodies.borrow h2 = dp.bodies.borrow h2) ∧
      (∀ c, (dp.colliders.borrow c).isSome = true →
        out.1.colliders.borrow c = dp.colliders.borrow c) ∧
      (∀ c ∈ newCs, dp.colliders.borrow c = none ∧
        ∃ cv, out.1.colliders.borrow c = some cv ∧ cv.parent = bh)) := by
  unfold clonePhysicsAt at h
  rcases hb : sp.binder.value_of d with _ | body
  · simp only [hb] at h
    have hout := Option.some.inj h
    rw [← hout]
    refine ⟨hwfB, hwfC, rfl, fun _ => rfl, fun htrue => ?_⟩
    simp at htrue
  · simp only [hb] at h
    rcases hbb : sp.bodies.borrow body with _ | bodyVal
    · simp only [hbb] at h
      exact Option.noConfusion h
    · simp only [hbb] at h
      rcases hs : dp.bodies.spawn { bodyVal with colliders := [] } with ⟨bh, dbod0⟩
      simp only [hs] at h
      rcases hcc : cloneColliders sp bh bodyVal.colliders dp.colliders dbod0 []
          with _ | trip
      · simp only [hcc] at h
        exact Option.noConfusion h
      · rcases trip with ⟨dcol, dbod2, colHs⟩
        simp only [hcc] at h
        rcases hag : assocGet mapping d with _ | nn
        · simp only [hag] at h
          exact Option.noConfusion h
        · simp only [hag] at h
          have hout := Option.some.inj h
          rw [← hout]
          obtain ⟨newHs, bv2, ho1, ho2, ho3, ho4, ho5, ho6, ho7, ho8⟩ :=
            cloneColliders_spec sp bh bodyVal.colliders dp.colliders dbod0 []
              (dcol, dbod2, colHs) { bodyVal with colliders := [] }
              hwfC (Pool.spawn_WF hwfB hs) (Pool.spawn_borrow_self hwfB hs) hcc
          have hcol : colHs = newHs := by simpa using ho1
          have hbv2c : bv2.colliders = newHs := by simpa using ho3
          refine ⟨ho8, ho7, rfl, ?_, fun _ => ?_⟩
          · intro hfalse
            simp at hfalse
          · refine ⟨bh, colHs, nn, Pool.spawn_fresh hwfB hs, rfl, rfl, rfl, rfl,
              ⟨bv2, ho2, by rw [hbv2c, hcol]⟩, ?_, ho5, ?_⟩
            · intro h2 hne
              rw [ho4 h2 hne]
              exact Pool.spawn_borrow_other hwfB hs h2 hne
            · intro c2 hc2
              rw [hcol] at hc2
              exact ho6 c2 hc2

/-- The physics-cloning walk over a duplicate-free descendant list with
an injective mapping: one binder entry and one cloned body per bound
descendant, every binder value among the cloned bodies, every cloned
body's colliders recorded and re-parented, joints untouched, previously
live bodies and colliders untouched, and well-formedness preserved. -/
theorem clonePhysicsWalk_spec (sp : Physics) (mapping : List (PHandle × PHandle))
    (hinj : ∀ k1 k2 nn, assocGet mapping k1 = some nn →
      assocGet mapping k2 = some nn → k1 = k2) :
    ∀ (ds : List PHandle) (dp : Physics) (r : DeepCloneResult)
      (out : Physics × DeepCloneResult),
    dp.bodies.WF → dp.colliders.WF → ds.Nodup →
    (∀ d ∈ ds, ∀ nn, assocGet mapping d = some nn → assocGet r.binder nn = none) →
    clonePhysicsWalk sp mapping ds dp r = some out →
    out.1.bodies.WF ∧ out.1.colliders.WF ∧
    out.2.joints = r.joints ∧
    out.2.binder.length = r.binder.length
      + (ds.filter (fun d => (sp.binder.value_of d).isSome)).length ∧
    (∃ newEntries, out.2.binder = r.binder ++ newEntries ∧
      ∀ pr ∈ newEntries, pr.2 ∈ out.2.bodies) ∧
    (∃ newBs, out.2.bodies = r.bodies ++ newBs ∧
      ∀ b ∈ newBs, ∃ bv, out.1.bodies.borrow b = some bv ∧
        ∀ c ∈ bv.colliders, c ∈ out.2.colliders ∧
          ∃ cv, out.1.colliders.borrow c = some cv ∧ cv.parent = b) ∧
    (∀ b, (dp.bodies.borrow b).isSome = true →
      out.1.bodies.borrow b = dp.bodies.borrow b) ∧
    (∀ c, (dp.colliders.borrow c).isSome = true →
      out.1.colliders.borrow c = dp.colliders.borrow c) ∧
    (∃ newCsAll, out.2.colliders = r.colliders ++ newCsAll) := by
  intro ds
  induction ds with
  | nil =>
    intro dp r out hwfB hwfC _ _ h
    have hout := Option.some.inj h
    rw [← hout]
    exact ⟨hwfB, hwfC, rfl, by simp, ⟨[], by simp, by intro pr hpr; simp at hpr⟩,
      ⟨[], by simp, by intro b hb; simp at hb⟩,
      fun b _ => rfl, fun c _ => rfl, ⟨[], by simp⟩⟩
  | cons d rest ih =>
    intro dp r out hwfB hwfC hnd hkeys h
    rcases hat : clonePhysicsAt sp mapping d dp r with _ | pr1
    · simp only [clonePhysicsWalk, hat] at h
      exact Option.noConfusion h
    · rcases pr1 with ⟨dp1, r1⟩
      simp only [clonePhysicsWalk, hat] at h
      obtain ⟨hwfB1x, hwfC1x, hjx, hunb, hbound⟩ :=
        clonePhysicsAt_spec sp mapping d dp r (dp1, r1) hwfB hwfC hat
      have hwfB1 : dp1.bodies.WF := hwfB1x
      have hwfC1 : dp1.colliders.WF := hwfC1x
      have hj1 : r1.joints = r.joints := hjx
      rcases hbv : (sp.binder.value_of d).isSome with _ | _
      · -- unbound: identity step
        have hid : (dp1, r1) = (dp, r) := hunb hbv
        have hdp : dp1 = dp := congrArg Prod.fst hid
        have hr : r1 = r := congrArg Prod.snd hid
        subst hdp
        subst hr
        obtain ⟨c1, c2, c3, c4, c5, c6, c7, c8, c9⟩ :=
          ih dp1 r1 out hwfB hwfC (List.nodup_cons.mp hnd).2
            (fun d' hd' => hkeys d' (List.mem_cons_of_mem _ hd')) h
        refine ⟨c1, c2, c3, ?_, c5, c6, c7, c8, c9⟩
        rw [c4]
        simp [List.filter_cons, hbv]
      · -- bound: one fresh body
        obtain ⟨bh, newCs, nn, hfreshb, hb1x, hc1x, hagd, hbind1x, hbvexx, hobx, hocx, hncx⟩ :=
          hbound hbv
        have hb1 : r1.bodies = r.bodies ++ [bh] := hb1x
        have hc1 : r1.colliders = r.colliders ++ newCs := hc1x
        have hbind1 : r1.binder = assocInsert r.binder nn bh := hbind1x
        obtain ⟨bv2, hbv2x, hbv2c⟩ := hbvexx
        have hbv2 : dp1.bodies.borrow bh = some bv2 := hbv2x
        have hob : ∀ h2, h2 ≠ bh → dp1.bodies.borrow h2 = dp.bodies.borrow h2 := hobx
        have hoc : ∀ c, (dp.colliders.borrow c).isSome = true →
            dp1.colliders.borrow c = dp.colliders.borrow c := hocx
        have hnc : ∀ c ∈ newCs, dp.colliders.borrow c = none ∧
            ∃ cv, dp1.colliders.borrow c = some cv ∧ cv.parent = bh := hncx
        have hkeyfree : assocGet r.binder nn = none :=
          hkeys d (List.mem_cons_self _ _) nn hagd
        have hbind1' : r1.binder = r.binder ++ [(nn, bh)] := by
          rw [hbind1, assocInsert_append_of_absent hkeyfree]
        have hkeys1 : ∀ d' ∈ rest, ∀ nn', assocGet mapping d' = some nn' →
            assocGet r1.binder nn' = none := by
          intro d' hd' nn' hag'
          have hne : nn ≠ nn' := by
            intro hh
            have hdd : d' = d := hinj d' d nn' hag' (hh ▸ hagd)
            exact (List.nodup_cons.mp hnd).1 (hdd ▸ hd')
          rw [hbind1',
            assocGet_append_of_none_left (hkeys d' (List.mem_cons_of_mem _ hd') nn' hag')]
          unfold assocGet
          simp [List.find?_cons, beq_iff_eq, hne]
        obtain ⟨c1, c2, c3, c4, ⟨ne1, hne1, hne1v⟩, ⟨nbs, hnbs, hnbsp⟩, c7, c8,
            ⟨nca, hnca⟩⟩ :=
          ih dp1 r1 out hwfB1 hwfC1 (List.nodup_cons.mp hnd).2 hkeys1 h
        refine ⟨c1, c2, ?_, ?_, ?_, ?_, ?_, ?_, ?_⟩
        · rw [c3, hj1]
        · rw [c4, hbind1']
          simp [List.filter_cons, hbv]
          omega
        · refine ⟨(nn, bh) :: ne1, ?_, ?_⟩
          · rw [hne1, hbind1', List.append_assoc]
            rfl
          · intro pr hpr
            rcases List.mem_cons.mp hpr with hh | hh
            · rw [hh]
              rw [hnbs, hb1]
              simp
            · exact hne1v pr hh
        · refine ⟨bh :: nbs, ?_, ?_⟩
          · rw [hnbs, hb1, List.append_assoc]
            rfl
          · intro b hb2
            rcases List.mem_cons.mp hb2 with hh | hh
            · subst hh
              refine ⟨bv2, ?_, ?_⟩
              · rw [c7 b (by rw [hbv2]; rfl)]
                exact hbv2
              · intro c hc
                rw [hbv2c] at hc
                obtain ⟨hcfresh, cv, hcv, hcvp⟩ := hnc c hc
                refine ⟨?_, cv, ?_, hcvp⟩
                · rw [hnca, hc1]
                  simp [hc]
                · rw [c8 c (by rw [hcv]; rfl)]
                  exact hcv
            · exact hnbsp b hh
        · intro b hb2
          have hne : b ≠ bh := by
            intro hh
            rw [hh, hfreshb] at hb2
            simp at hb2
          rw [c7 b (by rw [hob b hne]; exact hb2), hob b hne]
        · intro c hc2
          rw [c8 c (by rw [hoc c hc2]; exact hc2), hoc c hc2]
        · refine ⟨newCs ++ nca, ?_⟩
          rw [hnca, hc1, List.append_assoc]

/-- C5: under non-overlapping root subtrees (duplicate-free concatenated
traversals) and well-formed destination pools, `deep_clone_nodes` yields
a result whose binder has exactly one entry per traversed source node
bound to a body, whose binder values all appear in the result's body
list, whose cloned bodies carry exactly their recorded collider clones —
each present in the result's collider list and re-parented to the cloned
body — and whose joints list is empty. -/
theorem C5_deep_clone_integrity (root_nodes : List PHandle) (sg : Graph)
    (sp : Physics) (dg : Graph) (dp : Physics) (fuel : Nat)
    (res : DeepCloneResult) (gout : Graph) (pout : Physics)
    (hwfG : dg.pool.WF) (hwfB : dp.bodies.WF) (hwfC : dp.colliders.WF)
    (hnd : ∀ ds, allDescendants sg root_nodes fuel = some ds → ds.Nodup)
    (h : deep_clone_nodes root_nodes sg sp dg dp fuel = some (res, gout, pout)) :
    res.joints = [] ∧
    ∃ ds, allDescendants sg root_nodes fuel = some ds ∧
      res.binder.length = (ds.filter (fun d => (sp.binder.value_of d).isSome)).length ∧
      (∀ pr ∈ res.binder, pr.2 ∈ res.bodies) ∧
      (∀ b ∈ res.bodies, ∃ bv, pout.bodies.borrow b = some bv ∧
        ∀ c ∈ bv.colliders, c ∈ res.colliders ∧
          ∃ cv, pout.colliders.borrow c = some cv ∧ cv.parent = b) := by
  unfold deep_clone_nodes at h
  obtain ⟨copied, hfold, h⟩ := Option.bind_eq_some.mp h
  obtain ⟨rn, hrn, h⟩ := Option.bind_eq_some.mp h
  obtain ⟨ds, hds, h⟩ := Option.bind_eq_some.mp h
  obtain ⟨walked, hwalk, h⟩ := Option.bind_eq_some.mp h
  have htrip := Option.some.inj h
  have hres : walked.2 = res := congrArg (fun t => t.1) htrip
  have hpout : walked.1 = pout := congrArg (fun t => t.2.2) htrip
  rcases copied with ⟨gmid, merged⟩
  obtain ⟨hkeys, hvnd, hlivem, hwfm⟩ := cloneGraphFold_spec sg fuel root_nodes dg []
    (gmid, merged) ds hwfG (by intro pr hpr; simp at hpr) (by simp) hds
    (by intro pr hpr; simp at hpr) (hnd ds hds) hfold
  have hinj : ∀ k1 k2 nn, assocGet merged k1 = some nn →
      assocGet merged k2 = some nn → k1 = k2 := by
    intro k1 k2 nn h1 h2
    exact assoc_values_inj hvnd h1 h2
  obtain ⟨w1, w2, wj, wlen, ⟨ne1, hne1, hne1v⟩, ⟨nbs, hnbs, hnbsp⟩, w7, w8, w9⟩ :=
    clonePhysicsWalk_spec sp merged hinj ds dp
      { DeepCloneResult.default_ with root_nodes := rn } walked hwfB hwfC (hnd ds hds)
      (by intro d' hd' nn hag; rfl) hwalk
  rw [← hres, ← hpout]
  constructor
  · rw [wj]
    simp [DeepCloneResult.default_]
  · refine ⟨ds, hds, ?_, ?_, ?_⟩
    · rw [wlen]
      simp [DeepCloneResult.default_]
    · intro pr hpr
      apply hne1v
      rw [hne1] at hpr
      simpa [DeepCloneResult.default_] using hpr
    · intro b hb
      rw [hnbs] at hb
      simp only [DeepCloneResult.default_] at hb
      exact hnbsp b (by simpa using hb)

/-- C5 witness: cloning the single bound child node of `gFix` — one body
with one collider — into a fresh scene succeeds. -/
theorem C5_witness :
    (deep_clone_nodes [(⟨1, 1⟩ : PHandle)] gFix
      ⟨⟨[⟨1, some ⟨⟨0, 0, 0⟩, ⟨0, 0, 0⟩, [⟨0, 1⟩]⟩⟩], []⟩,
        ⟨[⟨1, some ⟨⟨0, 1⟩⟩⟩], []⟩,
        Pool.empty,
        ⟨[(⟨1, 1⟩, ⟨0, 1⟩)]⟩⟩
      Graph.new Physics.default_ 4).isSome = true := by
  rcases hdc : deep_clone_nodes [(⟨1, 1⟩ : PHandle)] gFix
      ⟨⟨[⟨1, some ⟨⟨0, 0, 0⟩, ⟨0, 0, 0⟩, [⟨0, 1⟩]⟩⟩], []⟩,
        ⟨[⟨1, some ⟨⟨0, 1⟩⟩⟩], []⟩,
        Pool.empty,
        ⟨[(⟨1, 1⟩, ⟨0, 1⟩)]⟩⟩
      Graph.new Physics.default_ 4 with _ | trip
  · exact absurd hdc (by decide)
  · rcases trip with ⟨res, gout, pout⟩
    obtain ⟨hj, -⟩ := C5_deep_clone_integrity [(⟨1, 1⟩ : PHandle)] gFix
      ⟨⟨[⟨1, some ⟨⟨0, 0, 0⟩, ⟨0, 0, 0⟩, [⟨0, 1⟩]⟩⟩], []⟩,
        ⟨[⟨1, some ⟨⟨0, 1⟩⟩⟩], []⟩,
        Pool.empty,
        ⟨[(⟨1, 1⟩, ⟨0, 1⟩)]⟩⟩
      Graph.new Physics.default_ 4 res gout pout
      (Pool.WF_of_free_nil rfl) (Pool.WF_of_free_nil rfl) (Pool.WF_of_free_nil rfl)
      (by
        intro ds hds
        have h0 : allDescendants gFix [(⟨1, 1⟩ : PHandle)] 4
            = some [(⟨1, 1⟩ : PHandle)] := rfl
        rw [h0] at hds
        rw [← Option.some.inj hds]
        decide)
      hdc
    rfl

end RustyEditor
